import Mathlib

/-!
Project_Sunset: attribute store, damage resolver and boomerang projectile.

A shallow embedding of the gameplay core of the repository
(`NeonAttributeSet.cpp`, `NeonDamageExecCalculation.cpp`, `NeonProjectile.cpp`)
together with theorems about it.

Conventions of the embedding:

* C++ `float` and `double` values are rational numbers (`ℚ`).  Every
  arithmetic operation that the source or the engine helper it calls carries
  out in `float` or `double` is the exact operation followed by IEEE 754
  rounding to nearest, ties to even, in that type (`F32.round`, `F64.round`,
  `F64.sqrt`); comparison, negation and `FMath::Abs` are exact, as they are on
  the machine.  `FVector` has `double` components, so `FVector::Dist` is
  evaluated in `double` and rounded once more where the source stores it in a
  `float`.  Infinities and NaN are outside the model: all inputs are finite,
  and a result beyond the largest finite value is kept as the rounded
  rational instead of becoming an infinity.
* Actor pointers (`AActor*`) are `Option Nat`: `none` is the null pointer and
  `some n` points at the actor with identity `n`.
* Engine calls the source makes (`FMath`, gameplay-tag queries, `Destroy`,
  delegates) are modelled by the small definitions of the `FMath` section and
  by explicit fields and output lists.
* `UE_LOG` lines only write to the log and are left out where the pointers
  their arguments dereference are non-null.  The one log line that
  dereferences a pointer nothing has checked (`OtherActor` in
  `OnProjectileHit`) is kept: a null dereference has no defined result, and
  the function returns `none` there.
-/

namespace ProjectSunset

/-! ## Floating-point arithmetic (`float`, `double`) -/

/-- The integer nearest to `t`; of the two nearest ones the even one when `t`
lies halfway between them. -/
def IEEE.roundEven (t : ℚ) : ℤ :=
  if t - ⌊t⌋ < 1 / 2 then ⌊t⌋
  else if 1 / 2 < t - ⌊t⌋ then ⌊t⌋ + 1
  else if ⌊t⌋ % 2 = 0 then ⌊t⌋
  else ⌊t⌋ + 1

/-- The spacing of the values of a binary format around `x`, for a format with
`prec` significand bits and least spacing `2 ^ emin`: `2 ^ (e - (prec - 1))`
where `2 ^ e ≤ |x| < 2 ^ (e + 1)`, and `2 ^ emin` when that is larger (the
subnormal range).  (At `x = 0` the value does not matter: 0 rounds to 0 with
every spacing.) -/
def IEEE.quantum (prec : ℕ) (emin : ℤ) (x : ℚ) : ℚ :=
  (2 : ℚ) ^ max (Int.log 2 |x| - ((prec : ℤ) - 1)) emin

/-- Rounding to the nearest value of the format, ties to even: the nearest
whole multiple of the spacing around `x`. -/
def IEEE.round (prec : ℕ) (emin : ℤ) (x : ℚ) : ℚ :=
  IEEE.roundEven (x / IEEE.quantum prec emin x) * IEEE.quantum prec emin x

/-- The correctly rounded square root of the format: with `q` the spacing
around the root and `n` the whole part of the root counted in units of `q`,
the result is `n * q` or `(n + 1) * q`, whichever is nearer to the root (the
comparison with the midpoint is done on squares), the even one at a tie.  The
root of a number that is not positive is 0. -/
def IEEE.sqrt (prec : ℕ) (emin : ℤ) (s : ℚ) : ℚ :=
  let q : ℚ := (2 : ℚ) ^ max (Int.log 4 s - ((prec : ℤ) - 1)) emin
  let t : ℚ := s / (q * q)
  let n : ℕ := Nat.sqrt ⌊t⌋₊
  if t < ((n : ℚ) + 1 / 2) ^ 2 then n * q
  else if ((n : ℚ) + 1 / 2) ^ 2 < t then ((n : ℚ) + 1) * q
  else if n % 2 = 0 then n * q
  else ((n : ℚ) + 1) * q

/-- A value of the format: a whole number of fewer than `prec` bits times a
power of two that is at least the least spacing.  (The largest finite value
bounds the format from above on the machine; that bound is not part of this
predicate.) -/
def IEEE.IsRepr (prec : ℕ) (emin : ℤ) (f : ℚ) : Prop :=
  ∃ m z : ℤ, emin ≤ z ∧ |m| < 2 ^ prec ∧ f = m * (2 : ℚ) ^ z

/-- Conversion to C++ `float` (binary32: 24 significand bits, least spacing
`2 ^ (-149)`). -/
def F32.round (x : ℚ) : ℚ := IEEE.round 24 (-149) x

/-- Operator `+` on `float`. -/
def F32.add (a b : ℚ) : ℚ := F32.round (a + b)

/-- Operator `*` on `float`. -/
def F32.mul (a b : ℚ) : ℚ := F32.round (a * b)

/-- Operator `/` on `float`. -/
def F32.div (a b : ℚ) : ℚ := F32.round (a / b)

/-- A value of type `float`. -/
def F32.IsFloat (f : ℚ) : Prop := IEEE.IsRepr 24 (-149) f

/-- Constant `FLT_MAX`, the largest finite `float`. -/
def F32.MAX : ℚ := (2 ^ 24 - 1) * 2 ^ 104

/-- Conversion to C++ `double` (binary64: 53 significand bits, least spacing
`2 ^ (-1074)`). -/
def F64.round (x : ℚ) : ℚ := IEEE.round 53 (-1074) x

/-- Operator `+` on `double`. -/
def F64.add (a b : ℚ) : ℚ := F64.round (a + b)

/-- Operator `-` on `double`. -/
def F64.sub (a b : ℚ) : ℚ := F64.round (a - b)

/-- Operator `*` on `double`. -/
def F64.mul (a b : ℚ) : ℚ := F64.round (a * b)

/-- Function `sqrt` on `double`. -/
def F64.sqrt (x : ℚ) : ℚ := IEEE.sqrt 53 (-1074) x

/-- A value of type `double`. -/
def F64.IsDouble (f : ℚ) : Prop := IEEE.IsRepr 53 (-1074) f

/-! ## Engine arithmetic helpers (`FMath`) -/

/-- Engine helper `FMath::Max(A, B)`: `(B < A) ? A : B`. -/
def FMath.Max (A B : ℚ) : ℚ := if B < A then A else B

/-- Engine helper `FMath::Min(A, B)`: `(A < B) ? A : B`. -/
def FMath.Min (A B : ℚ) : ℚ := if A < B then A else B

/-- Engine helper `FMath::Clamp(X, MinValue, MaxValue)`:
`Max(Min(X, MaxValue), MinValue)`.  (Older engine versions write it as
`X < Min ? Min : X < Max ? X : Max`; both agree whenever `MinValue ≤ MaxValue`.) -/
def FMath.Clamp (X MinValue MaxValue : ℚ) : ℚ :=
  FMath.Max (FMath.Min X MaxValue) MinValue

/-- Engine helper `FMath::Abs(A)`: `(A < 0) ? -A : A`. -/
def FMath.Abs (A : ℚ) : ℚ := if A < 0 then -A else A

/-- Engine helper `FMath::Square(A)`: `A * A`, here at type `double`. -/
def FMath.Square (A : ℚ) : ℚ := F64.mul A A

/-- Engine helper `FMath::Sqrt(Value)`, here at type `double`. -/
def FMath.Sqrt (Value : ℚ) : ℚ := F64.sqrt Value

/-- Engine constant `UE_SMALL_NUMBER`, the literal `1.e-8f`. -/
def FMath.SMALL_NUMBER : ℚ := F32.round (1 / 100000000)

/-- Engine helper `FMath::IsNearlyZero(Value)` on `float`:
`Abs(Value) <= UE_SMALL_NUMBER`. -/
def FMath.IsNearlyZero (Value : ℚ) : Bool :=
  decide (FMath.Abs Value ≤ FMath.SMALL_NUMBER)

/-! ## NeonAttributeSet -/

/-- The eight attributes declared by `ATTRIBUTE_ACCESSORS` in
`NeonAttributeSet.h`; a value of this type is what
`GetHealthAttribute()`, `GetMaxHealthAttribute()`, ... return. -/
inductive FGameplayAttribute where
  | Health
  | MaxHealth
  | Neon
  | MaxNeon
  | Stamina
  | MaxStamina
  | UltimateCharge
  | MaxUltimateCharge
deriving DecidableEq, Repr

/-- The engine enum `EGameplayModOp`; the source only uses `Additive`. -/
inductive EGameplayModOp where
  | Additive
  | Multiplicitive
  | Division
  | Override
deriving DecidableEq, Repr

/-- The engine record `FGameplayModifierEvaluatedData`: which attribute a
modifier touches, how, and by how much. -/
structure FGameplayModifierEvaluatedData where
  Attribute : FGameplayAttribute
  ModifierOp : EGameplayModOp
  Magnitude : ℚ
deriving DecidableEq, Repr

/-- The part of `FGameplayEffectModCallbackData` that the source reads. -/
structure FGameplayEffectModCallbackData where
  EvaluatedData : FGameplayModifierEvaluatedData
deriving DecidableEq, Repr

/-- One call `OnDamageTaken.Broadcast(DamageAmount, DamagedActor)` of the
`FOnDamageTaken` multicast delegate. -/
structure FOnDamageTaken where
  DamageAmount : ℚ
  DamagedActor : Nat
deriving DecidableEq, Repr

/-- The attribute set: the eight `FGameplayAttributeData` fields of
`UNeonAttributeSet`, and the actor `GetOwningActor()` returns.  The set is a
subobject of that actor and the source dereferences the pointer unguarded, so
it is an actor identity, never null. -/
structure UNeonAttributeSet where
  Health : ℚ
  MaxHealth : ℚ
  Neon : ℚ
  MaxNeon : ℚ
  Stamina : ℚ
  MaxStamina : ℚ
  UltimateCharge : ℚ
  MaxUltimateCharge : ℚ
  OwningActor : Nat
deriving DecidableEq, Repr

/-- Constructor `UNeonAttributeSet::UNeonAttributeSet()`: the `Init...` calls.
(Named `ctor` because the structure itself carries the class name.) -/
def UNeonAttributeSet.ctor (OwningActor : Nat) : UNeonAttributeSet :=
  { Health := 100
    MaxHealth := 100
    Neon := 100
    MaxNeon := 100
    Stamina := 100
    MaxStamina := 100
    UltimateCharge := 0
    MaxUltimateCharge := 50
    OwningActor := OwningActor }

/-- Setter `SetHealth(NewVal)` generated by `ATTRIBUTE_ACCESSORS`. -/
def UNeonAttributeSet.SetHealth (s : UNeonAttributeSet) (NewVal : ℚ) : UNeonAttributeSet :=
  { s with Health := NewVal }

/-- Setter `SetNeon(NewVal)` generated by `ATTRIBUTE_ACCESSORS`. -/
def UNeonAttributeSet.SetNeon (s : UNeonAttributeSet) (NewVal : ℚ) : UNeonAttributeSet :=
  { s with Neon := NewVal }

/-- Setter `SetStamina(NewVal)` generated by `ATTRIBUTE_ACCESSORS`. -/
def UNeonAttributeSet.SetStamina (s : UNeonAttributeSet) (NewVal : ℚ) : UNeonAttributeSet :=
  { s with Stamina := NewVal }

/-- Setter `SetUltimateCharge(NewVal)` generated by `ATTRIBUTE_ACCESSORS`. -/
def UNeonAttributeSet.SetUltimateCharge (s : UNeonAttributeSet) (NewVal : ℚ) :
    UNeonAttributeSet :=
  { s with UltimateCharge := NewVal }

/-- Hook `UNeonAttributeSet::PreAttributeChange(Attribute, NewValue)`: the value
left in the reference parameter `NewValue`.  The three `if` statements run in
sequence; the base-class hook is empty. -/
def UNeonAttributeSet.PreAttributeChange (Attribute : FGameplayAttribute) (NewValue : ℚ) : ℚ :=
  let NewValue1 :=
    if Attribute = FGameplayAttribute.MaxHealth then FMath.Max NewValue 1 else NewValue
  let NewValue2 :=
    if Attribute = FGameplayAttribute.MaxNeon then FMath.Max NewValue1 0 else NewValue1
  let NewValue3 :=
    if Attribute = FGameplayAttribute.MaxStamina then FMath.Max NewValue2 0 else NewValue2
  NewValue3

/-- Hook `UNeonAttributeSet::PostGameplayEffectExecute(Data)`: the attribute
set after the hook, and the list of `OnDamageTaken.Broadcast` calls it made,
in order.  The four `if` blocks run in sequence. -/
def UNeonAttributeSet.PostGameplayEffectExecute (Data : FGameplayEffectModCallbackData)
    (s : UNeonAttributeSet) : UNeonAttributeSet × List FOnDamageTaken :=
  let r1 : UNeonAttributeSet × List FOnDamageTaken :=
    if Data.EvaluatedData.Attribute = FGameplayAttribute.Health then
      let s1 := s.SetHealth (FMath.Clamp s.Health 0 s.MaxHealth)
      if Data.EvaluatedData.Magnitude < 0 then
        let DamageAmount := FMath.Abs Data.EvaluatedData.Magnitude
        (s1, [{ DamageAmount := DamageAmount, DamagedActor := s1.OwningActor }])
      else
        (s1, [])
    else
      (s, [])
  let s2 :=
    if Data.EvaluatedData.Attribute = FGameplayAttribute.Neon then
      r1.1.SetNeon (FMath.Clamp r1.1.Neon 0 r1.1.MaxNeon)
    else r1.1
  let s3 :=
    if Data.EvaluatedData.Attribute = FGameplayAttribute.Stamina then
      s2.SetStamina (FMath.Clamp s2.Stamina 0 s2.MaxStamina)
    else s2
  let s4 :=
    if Data.EvaluatedData.Attribute = FGameplayAttribute.UltimateCharge then
      s3.SetUltimateCharge (FMath.Clamp s3.UltimateCharge 0 s3.MaxUltimateCharge)
    else s3
  (s4, r1.2)

/-- Callback data of a modifier that touched `Attribute` with the evaluated
magnitude `Magnitude` (the operation is not read by the hook). -/
def modData (Attribute : FGameplayAttribute) (Magnitude : ℚ) : FGameplayEffectModCallbackData :=
  { EvaluatedData :=
      { Attribute := Attribute, ModifierOp := EGameplayModOp.Additive, Magnitude := Magnitude } }

/-- Engine accessor `FGameplayAttribute::GetNumericValue`: the stored value of
an attribute. -/
def UNeonAttributeSet.GetNumericValue (s : UNeonAttributeSet) :
    FGameplayAttribute → ℚ
  | FGameplayAttribute.Health => s.Health
  | FGameplayAttribute.MaxHealth => s.MaxHealth
  | FGameplayAttribute.Neon => s.Neon
  | FGameplayAttribute.MaxNeon => s.MaxNeon
  | FGameplayAttribute.Stamina => s.Stamina
  | FGameplayAttribute.MaxStamina => s.MaxStamina
  | FGameplayAttribute.UltimateCharge => s.UltimateCharge
  | FGameplayAttribute.MaxUltimateCharge => s.MaxUltimateCharge

/-- Engine accessor `FGameplayAttribute::SetNumericValueChecked`: store a value
in an attribute. -/
def UNeonAttributeSet.SetNumericValue (s : UNeonAttributeSet) (a : FGameplayAttribute)
    (v : ℚ) : UNeonAttributeSet :=
  match a with
  | FGameplayAttribute.Health => { s with Health := v }
  | FGameplayAttribute.MaxHealth => { s with MaxHealth := v }
  | FGameplayAttribute.Neon => { s with Neon := v }
  | FGameplayAttribute.MaxNeon => { s with MaxNeon := v }
  | FGameplayAttribute.Stamina => { s with Stamina := v }
  | FGameplayAttribute.MaxStamina => { s with MaxStamina := v }
  | FGameplayAttribute.UltimateCharge => { s with UltimateCharge := v }
  | FGameplayAttribute.MaxUltimateCharge => { s with MaxUltimateCharge := v }

/-- Whether an attribute is one of the four maximum fields. -/
def FGameplayAttribute.IsMax : FGameplayAttribute → Bool
  | FGameplayAttribute.MaxHealth => true
  | FGameplayAttribute.MaxNeon => true
  | FGameplayAttribute.MaxStamina => true
  | FGameplayAttribute.MaxUltimateCharge => true
  | _ => false

/-- A mutation of the attribute store, in the two shapes the stat invariant
of the specification speaks of: a write of a proposed value to a field, and
a delta added to a field.  (The driver is the engine's effect pipeline, which
is not part of the repository; `AttributeMutation.apply` follows the order
the specification gives: `PreAttributeChange` filters the value that is
stored, `PostGameplayEffectExecute` runs after a delta has been committed.) -/
inductive AttributeMutation where
  | WriteMax (Attribute : FGameplayAttribute) (NewValue : ℚ)
  | Delta (Attribute : FGameplayAttribute) (Magnitude : ℚ)
deriving DecidableEq, Repr

/-- A mutation is well formed when a write targets a maximum field and a
delta targets a current-value field. -/
def AttributeMutation.WellFormed : AttributeMutation → Prop
  | AttributeMutation.WriteMax a _ => a.IsMax = true
  | AttributeMutation.Delta a _ => a.IsMax = false

/-- Whether a mutation is a write to `MaxUltimateCharge`. -/
def AttributeMutation.WritesMaxUltimateCharge : AttributeMutation → Prop
  | AttributeMutation.WriteMax a _ => a = FGameplayAttribute.MaxUltimateCharge
  | AttributeMutation.Delta _ _ => False

/-- Whether a mutation is a delta (not a write to a maximum). -/
def AttributeMutation.IsDelta : AttributeMutation → Prop
  | AttributeMutation.WriteMax _ _ => False
  | AttributeMutation.Delta _ _ => True

/-- Apply one mutation: a write stores the value `PreAttributeChange` returns;
a delta stores `PreAttributeChange` of the old value plus the delta (a `float`
addition) and then runs `PostGameplayEffectExecute` for that attribute. -/
def AttributeMutation.apply (s : UNeonAttributeSet) : AttributeMutation → UNeonAttributeSet
  | AttributeMutation.WriteMax a v =>
      s.SetNumericValue a (UNeonAttributeSet.PreAttributeChange a v)
  | AttributeMutation.Delta a d =>
      let committed :=
        s.SetNumericValue a
          (UNeonAttributeSet.PreAttributeChange a (F32.add (s.GetNumericValue a) d))
      (UNeonAttributeSet.PostGameplayEffectExecute (modData a d) committed).1

/-- Run a finite sequence of mutations, first to last, from a state. -/
def AttributeMutation.run (s : UNeonAttributeSet) (ms : List AttributeMutation) :
    UNeonAttributeSet :=
  ms.foldl AttributeMutation.apply s

/-! ## NeonDamageExecCalculation -/

/-- A gameplay tag, by the name passed to `FGameplayTag::RequestGameplayTag`. -/
abbrev FGameplayTag := String

/-- The part of the target's `UAbilitySystemComponent` that the calculation
reads: the engine query `HasMatchingGameplayTag`. -/
structure UAbilitySystemComponent where
  HasMatchingGameplayTag : FGameplayTag → Bool

/-- The part of `FGameplayEffectSpec` that the calculation reads: the query
`HasTag` on the container filled by `GetAllAssetTags`, and the magnitudes set
by the caller (`none` when the caller set none for a tag). -/
structure FGameplayEffectSpec where
  AssetTagsHasTag : FGameplayTag → Bool
  SetByCallerTagMagnitudes : FGameplayTag → Option ℚ

/-- Engine accessor `FGameplayEffectSpec::GetSetByCallerMagnitude(DataTag,
WarnIfNotFound, DefaultIfNotFound)`: the magnitude set for the tag, or the
default when none was set.  (`WarnIfNotFound` only controls a log line and is
left out.) -/
def FGameplayEffectSpec.GetSetByCallerMagnitude (Spec : FGameplayEffectSpec)
    (DataTag : FGameplayTag) (DefaultIfNotFound : ℚ) : ℚ :=
  match Spec.SetByCallerTagMagnitudes DataTag with
  | some Magnitude => Magnitude
  | none => DefaultIfNotFound

/-- The part of `FGameplayEffectCustomExecutionParameters` that the
calculation reads: the target's ability system component (a pointer that may
be null) and the owning spec. -/
structure FGameplayEffectCustomExecutionParameters where
  TargetAbilitySystemComponent : Option UAbilitySystemComponent
  OwningSpec : FGameplayEffectSpec

/-- Tag `Status.Corrupted` (Step 1 of `Execute_Implementation`). -/
def StatusCorrupted : FGameplayTag := "Status.Corrupted"

/-- Tag `Damage.Type.Neon` (Step 1 of `Execute_Implementation`). -/
def DamageNeon : FGameplayTag := "Damage.Type.Neon"

/-- Tag `Data.Damage` (Step 1 of `Execute_Implementation`). -/
def DataDamage : FGameplayTag := "Data.Damage"

/-- Local `bIsTargetCorrupted` of `Execute_Implementation` (Step 2): false
when `TargetASC` is null, else the result of the tag query. -/
def UNeonDamageExecCalculation.bIsTargetCorrupted
    (ExecutionParams : FGameplayEffectCustomExecutionParameters) : Bool :=
  match ExecutionParams.TargetAbilitySystemComponent with
  | some TargetASC => TargetASC.HasMatchingGameplayTag StatusCorrupted
  | none => false

/-- Local `bIsNeonDamage` of `Execute_Implementation` (Step 2). -/
def UNeonDamageExecCalculation.bIsNeonDamage
    (ExecutionParams : FGameplayEffectCustomExecutionParameters) : Bool :=
  ExecutionParams.OwningSpec.AssetTagsHasTag DamageNeon

/-- Local `BaseDamage` of `Execute_Implementation` at the end of Step 3: the
magnitude set by the caller, with `-1.0f` as the default when it is missing,
replaced by `10.0f` when the value read equals `-1.0f`. -/
def UNeonDamageExecCalculation.BaseDamage
    (ExecutionParams : FGameplayEffectCustomExecutionParameters) : ℚ :=
  let BaseDamage := ExecutionParams.OwningSpec.GetSetByCallerMagnitude DataDamage (-1)
  if BaseDamage = -1 then 10 else BaseDamage

/-- Local `BaseDamage` of `Execute_Implementation` at the end of Step 4: the
value of Step 3 after `BaseDamage *= 2.5f` (a `float` multiplication) when both
flags hold. -/
def UNeonDamageExecCalculation.FinalDamage
    (ExecutionParams : FGameplayEffectCustomExecutionParameters) : ℚ :=
  let BaseDamage := UNeonDamageExecCalculation.BaseDamage ExecutionParams
  if UNeonDamageExecCalculation.bIsTargetCorrupted ExecutionParams
      && UNeonDamageExecCalculation.bIsNeonDamage ExecutionParams then
    F32.mul BaseDamage (5 / 2)
  else
    BaseDamage

/-- Method `UNeonDamageExecCalculation::Execute_Implementation`: the output
modifiers after the call, given the ones already in `OutExecutionOutput`
(Step 5 adds one with `AddOutputModifier` when the final damage is positive). -/
def UNeonDamageExecCalculation.Execute_Implementation
    (ExecutionParams : FGameplayEffectCustomExecutionParameters)
    (OutExecutionOutput : List FGameplayModifierEvaluatedData) :
    List FGameplayModifierEvaluatedData :=
  let BaseDamage := UNeonDamageExecCalculation.FinalDamage ExecutionParams
  if BaseDamage > 0 then
    OutExecutionOutput ++
      [{ Attribute := FGameplayAttribute.Health
         ModifierOp := EGameplayModOp.Additive
         Magnitude := -BaseDamage }]
  else
    OutExecutionOutput

/-- Execution parameters for a target with an ability system component, from
the three inputs the specification names: the base damage set by the caller
under `Data.Damage` (if any), whether the target carries `Status.Corrupted`,
and whether the effect carries `Damage.Type.Neon`. -/
def resolveParams (baseDamage : Option ℚ) (corrupted neonType : Bool) :
    FGameplayEffectCustomExecutionParameters :=
  { TargetAbilitySystemComponent :=
      some { HasMatchingGameplayTag := fun t => t == StatusCorrupted && corrupted }
    OwningSpec :=
      { AssetTagsHasTag := fun t => t == DamageNeon && neonType
        SetByCallerTagMagnitudes := fun t => if t == DataDamage then baseDamage else none } }

/-! ## NeonProjectile -/

/-- Engine type `FVector`: a point of three-dimensional space. -/
structure FVector where
  X : ℚ
  Y : ℚ
  Z : ℚ
deriving DecidableEq, Repr

/-- Engine helper `FVector::DistSquared(V1, V2)`:
`Square(V2.X - V1.X) + Square(V2.Y - V1.Y) + Square(V2.Z - V1.Z)`, every
operation in `double`. -/
def FVector.DistSquared (V1 V2 : FVector) : ℚ :=
  F64.add
    (F64.add (FMath.Square (F64.sub V2.X V1.X)) (FMath.Square (F64.sub V2.Y V1.Y)))
    (FMath.Square (F64.sub V2.Z V1.Z))

/-- Engine helper `FVector::Dist(V1, V2)`: `Sqrt(DistSquared(V1, V2))`, a
`double`. -/
def FVector.Dist (V1 V2 : FVector) : ℚ :=
  FMath.Sqrt (FVector.DistSquared V1 V2)

/-- Test `float d = FVector::Dist(V1, V2); d >= D` of the source: the distance
is converted to `float` when it is stored in the local variable, and the
stored value is compared. -/
def FVector.DistGE (V1 V2 : FVector) (D : ℚ) : Bool :=
  decide (D ≤ F32.round (FVector.Dist V1 V2))

/-- Test `float d = FVector::Dist(V1, V2); d < D` of the source, like
`FVector.DistGE`. -/
def FVector.DistLT (V1 V2 : FVector) (D : ℚ) : Bool :=
  decide (F32.round (FVector.Dist V1 V2) < D)

/-- The square of the Euclidean distance between two points, in exact
arithmetic: the distance the specification speaks of, for comparison with the
value `FVector.Dist` computes. -/
def FVector.EuclideanDistSquared (V1 V2 : FVector) : ℚ :=
  (V2.X - V1.X) * (V2.X - V1.X) + (V2.Y - V1.Y) * (V2.Y - V1.Y)
    + (V2.Z - V1.Z) * (V2.Z - V1.Z)

/-- Enum `EProjectilePhase` of `NeonProjectile.h`. -/
inductive EProjectilePhase where
  | Outgoing
  | Returning
deriving DecidableEq, Repr

/-- The fields of the engine component `UProjectileMovementComponent` that
the source writes.  `HomingTargetComponent` is the root component of an
actor, named by that actor. -/
structure UProjectileMovementComponent where
  InitialSpeed : ℚ
  MaxSpeed : ℚ
  bRotationFollowsVelocity : Bool
  ProjectileGravityScale : ℚ
  bIsHomingProjectile : Bool
  HomingAccelerationMagnitude : ℚ
  HomingTargetComponent : Option Nat
deriving DecidableEq, Repr

/-- The state of one `ANeonProjectile`: the members declared in
`NeonProjectile.h`, and the engine-side state of the actor that the source
reads or writes (`GetActorLocation()`, `GetOwner()`, and whether `Destroy()`
has been called). -/
structure ANeonProjectile where
  ActorLocation : FVector
  Owner : Option Nat
  bActorIsBeingDestroyed : Bool
  ProjectileMovement : Option UProjectileMovementComponent
  DamageEffectClass : Option Nat
  CorruptionEffectClass : Option Nat
  bIsBoomerang : Bool
  BoomerangOwner : Option Nat
  MaxTravelDistance : ℚ
  BoomerangStartLocation : FVector
  BoomerangPhase : EProjectilePhase
  HitActorsThisPhase : List Nat
deriving DecidableEq, Repr

/-- Engine call `AActor::Destroy()`: marks the actor as being destroyed;
calling it again changes nothing. -/
def ANeonProjectile.Destroy (p : ANeonProjectile) : ANeonProjectile :=
  { p with bActorIsBeingDestroyed := true }

/-- The movement component after the three homing assignments of the
transition to the return phase (`Tick` and `OnProjectileHit`). -/
def UProjectileMovementComponent.EnableHoming (m : UProjectileMovementComponent)
    (OwnerActor : Nat) : UProjectileMovementComponent :=
  { m with
    bIsHomingProjectile := true
    HomingAccelerationMagnitude := 8000
    HomingTargetComponent := some OwnerActor }

/-- Method `ANeonProjectile::Tick(DeltaTime)`.  `ActorLocationOf` gives the
current location of every live actor (`BoomerangOwner->GetActorLocation()`).
`DeltaTime` is only passed to the base class and is left out. -/
def ANeonProjectile.Tick (ActorLocationOf : Nat → FVector) (p : ANeonProjectile) :
    ANeonProjectile :=
  if !p.bIsBoomerang then p
  else
    match p.BoomerangOwner with
    | none => p
    | some OwnerActor =>
      match p.BoomerangPhase with
      | EProjectilePhase.Outgoing =>
        if FVector.DistGE p.BoomerangStartLocation p.ActorLocation p.MaxTravelDistance then
          { p with
            BoomerangPhase := EProjectilePhase.Returning
            HitActorsThisPhase := []
            ProjectileMovement :=
              match p.ProjectileMovement with
              | some m => some (m.EnableHoming OwnerActor)
              | none => none }
        else p
      | EProjectilePhase.Returning =>
        if FVector.DistLT p.ActorLocation (ActorLocationOf OwnerActor) 100 then
          p.Destroy
        else p

/-- Method `ANeonProjectile::InitializeBoomerang(InOwner, InMaxDistance)`. -/
def ANeonProjectile.InitializeBoomerang (p : ANeonProjectile) (InOwner : Option Nat)
    (InMaxDistance : ℚ) : ANeonProjectile :=
  { p with
    bIsBoomerang := true
    BoomerangOwner := InOwner
    MaxTravelDistance := InMaxDistance
    BoomerangStartLocation := p.ActorLocation
    BoomerangPhase := EProjectilePhase.Outgoing
    HitActorsThisPhase := []
    ProjectileMovement :=
      match p.ProjectileMovement with
      | some m =>
          some { m with
                 bIsHomingProjectile := false
                 HomingAccelerationMagnitude := 0
                 InitialSpeed := 2000
                 MaxSpeed := 2000
                 ProjectileGravityScale := 0 }
      | none => none }

/-- The state the constructor `ANeonProjectile::ANeonProjectile()` and the
member initialisers of `NeonProjectile.h` give a projectile spawned at
`SpawnLocation` with owner `Owner` (`ctor`, because the structure itself
carries the class name).  The effect classes are unset until a designer
assigns them; `BoomerangStartLocation` has no initialiser in the source and is
given the zero vector here. -/
def ANeonProjectile.ctor (SpawnLocation : FVector) (Owner : Option Nat) : ANeonProjectile :=
  { ActorLocation := SpawnLocation
    Owner := Owner
    bActorIsBeingDestroyed := false
    ProjectileMovement :=
      some { InitialSpeed := 2000
             MaxSpeed := 2000
             bRotationFollowsVelocity := true
             ProjectileGravityScale := 0
             bIsHomingProjectile := false
             HomingAccelerationMagnitude := 0
             HomingTargetComponent := none }
    DamageEffectClass := none
    CorruptionEffectClass := none
    bIsBoomerang := false
    BoomerangOwner := none
    MaxTravelDistance := 1000
    BoomerangStartLocation := { X := 0, Y := 0, Z := 0 }
    BoomerangPhase := EProjectilePhase.Outgoing
    HitActorsThisPhase := [] }

/-- A boomerang in flight, for concrete cases: a projectile spawned at
`Origin` by `OwnerActor`, initialised with `InitializeBoomerang`, that has
since moved to `Position`, is in phase `Phase` and has hit `Hits` in it. -/
def boomerangAt (Origin Position : FVector) (OwnerActor : Nat) (MaxDistance : ℚ)
    (Phase : EProjectilePhase) (Hits : List Nat) : ANeonProjectile :=
  { (ANeonProjectile.ctor Origin (some OwnerActor)).InitializeBoomerang
      (some OwnerActor) MaxDistance with
    ActorLocation := Position
    BoomerangPhase := Phase
    HitActorsThisPhase := Hits }

/-- One call `TargetASC->ApplyGameplayEffectSpecToSelf(...)` that
`ApplyGameplayEffectToTarget` makes: the actor the effect is applied to and
the effect class.  (The effect context, built from the projectile and its
owner, is not recorded.) -/
structure FEffectApplication where
  TargetActor : Nat
  EffectClass : Nat
deriving DecidableEq, Repr

/-- Method `ANeonProjectile::ApplyGameplayEffectToTarget(TargetActor,
EffectClass)`: the effect applications it makes.  `HasASC` tells for every
actor whether `GetAbilitySystemComponent` finds a component on it.  Nothing is
applied when the target or the class is null or the target has no component;
`MakeOutgoingSpec` yields a valid handle for every non-null class. -/
def ANeonProjectile.ApplyGameplayEffectToTarget (HasASC : Nat → Bool)
    (TargetActor : Option Nat) (EffectClass : Option Nat) : List FEffectApplication :=
  match TargetActor, EffectClass with
  | some Target, some Class =>
    if HasASC Target then [{ TargetActor := Target, EffectClass := Class }] else []
  | _, _ => []

/-- Method `ANeonProjectile::HandleCollisionLogic(OtherActor)`: the projectile
after the call and the effect applications made, in order.
`HitActorsThisPhase.Add` is `List.insert` (a set holds no element twice). -/
def ANeonProjectile.HandleCollisionLogic (HasASC : Nat → Bool) (p : ANeonProjectile)
    (OtherActor : Option Nat) : ANeonProjectile × List FEffectApplication :=
  match OtherActor with
  | none => (p, [])
  | some Other =>
    if p.Owner = some Other then (p, [])
    else if !p.bIsBoomerang then
      (p.Destroy,
        if p.DamageEffectClass.isSome then
          ANeonProjectile.ApplyGameplayEffectToTarget HasASC (some Other) p.DamageEffectClass
        else [])
    else if Other ∈ p.HitActorsThisPhase then (p, [])
    else if !HasASC Other then (p, [])
    else
      let p1 := { p with HitActorsThisPhase := p.HitActorsThisPhase.insert Other }
      match p.BoomerangPhase with
      | EProjectilePhase.Outgoing =>
        (p1,
          if p.CorruptionEffectClass.isSome then
            ANeonProjectile.ApplyGameplayEffectToTarget HasASC (some Other)
              p.CorruptionEffectClass
          else [])
      | EProjectilePhase.Returning =>
        (p1,
          if p.DamageEffectClass.isSome then
            ANeonProjectile.ApplyGameplayEffectToTarget HasASC (some Other) p.DamageEffectClass
          else [])

/-- Method `ANeonProjectile::OnProjectileOverlap`: routes the other actor to
`HandleCollisionLogic`; the remaining parameters are not read. -/
def ANeonProjectile.OnProjectileOverlap (HasASC : Nat → Bool) (p : ANeonProjectile)
    (OtherActor : Option Nat) : ANeonProjectile × List FEffectApplication :=
  ANeonProjectile.HandleCollisionLogic HasASC p OtherActor

/-- Method `ANeonProjectile::OnProjectileHit`, with the two parameters it
reads: `OtherActor` and `Hit.bBlockingHit`.  The first branch starts with a
`UE_LOG` whose argument is `OtherActor->GetName()`; with a null `OtherActor`
that is a null dereference and the call has no result (`none`).  The function
applies no gameplay effect on any path. -/
def ANeonProjectile.OnProjectileHit (p : ANeonProjectile) (OtherActor : Option Nat)
    (bBlockingHit : Bool) : Option ANeonProjectile :=
  if p.bIsBoomerang && decide (p.BoomerangPhase = EProjectilePhase.Outgoing)
      && bBlockingHit then
    match OtherActor with
    | none => none
    | some _ =>
      some { p with
             BoomerangPhase := EProjectilePhase.Returning
             HitActorsThisPhase := []
             ProjectileMovement :=
               match p.ProjectileMovement, p.BoomerangOwner with
               | some m, some OwnerActor => some (m.EnableHoming OwnerActor)
               | pm, _ => pm }
  else if !p.bIsBoomerang then some p.Destroy
  else some p

/-- An event the host delivers to a projectile, with what the handler reads
from the world at that moment: a tick (after the movement component has moved
the projectile to `Location`), a hit reported by `OnComponentHit`, an overlap
reported by `OnComponentBeginOverlap`. -/
inductive ProjectileEvent where
  | Tick (Location : FVector) (ActorLocationOf : Nat → FVector)
  | Hit (OtherActor : Option Nat) (bBlockingHit : Bool)
  | Overlap (HasASC : Nat → Bool) (OtherActor : Option Nat)

/-- The handler the host runs for an event: the projectile after it and the
effect applications it made, or `none` when the handler has no result. -/
def ProjectileEvent.handle (p : ANeonProjectile) :
    ProjectileEvent → Option (ANeonProjectile × List FEffectApplication)
  | ProjectileEvent.Tick Location ActorLocationOf =>
    some (ANeonProjectile.Tick ActorLocationOf { p with ActorLocation := Location }, [])
  | ProjectileEvent.Hit OtherActor bBlockingHit =>
    match p.OnProjectileHit OtherActor bBlockingHit with
    | some p1 => some (p1, [])
    | none => none
  | ProjectileEvent.Overlap HasASC OtherActor =>
    some (ANeonProjectile.OnProjectileOverlap HasASC p OtherActor)

/-- Delivery of an event to a projectile: the handler of the event runs.  No
handler of the source tests whether `Destroy()` has already been called, so an
event delivered to a destroyed projectile is handled like any other. -/
def ProjectileEvent.deliver (p : ANeonProjectile) (e : ProjectileEvent) :
    Option (ANeonProjectile × List FEffectApplication) :=
  e.handle p

/-- Deliver a finite sequence of events, first to last: the final projectile
(`none` when a handler had no result, which ends the run) and all effect
applications made, in order. -/
def ProjectileEvent.run (p : ANeonProjectile) :
    List ProjectileEvent → Option ANeonProjectile × List FEffectApplication
  | [] => (some p, [])
  | e :: es =>
    match e.deliver p with
    | none => (none, [])
    | some (p1, apps) => ((ProjectileEvent.run p1 es).1, apps ++ (ProjectileEvent.run p1 es).2)

/-- The host delivers every event of the sequence to a projectile on which
`Destroy()` has not been called before: the projectile is live when each event
arrives.  This is the engine contract for a destroyed actor (its components
are unregistered, it receives no further tick or collision event); it is a
condition on the sequence, the handlers do not enforce it. -/
def ProjectileEvent.DeliveredWhileLive (p : ANeonProjectile) : List ProjectileEvent → Prop
  | [] => True
  | e :: es =>
    p.bActorIsBeingDestroyed = false ∧
      match e.deliver p with
      | none => True
      | some r => ProjectileEvent.DeliveredWhileLive r.1 es

/-- A boomerang with both effect classes assigned (damage 70, corruption 71),
for concrete cases: owned and thrown by `OwnerActor` from the origin with a
maximum of 1000, now at (500,0,0). -/
def armedBoomerang (OwnerActor : Nat) (Phase : EProjectilePhase) (Hits : List Nat) :
    ANeonProjectile :=
  { boomerangAt { X := 0, Y := 0, Z := 0 } { X := 500, Y := 0, Z := 0 } OwnerActor 1000
      Phase Hits with
    DamageEffectClass := some 70
    CorruptionEffectClass := some 71 }

/-- A standard projectile with both effect classes assigned (damage 70,
corruption 71), for concrete cases: spawned at the origin with owner
`OwnerActor`. -/
def armedStandard (OwnerActor : Nat) : ANeonProjectile :=
  { ANeonProjectile.ctor { X := 0, Y := 0, Z := 0 } (some OwnerActor) with
    DamageEffectClass := some 70
    CorruptionEffectClass := some 71 }

/-! ## Execution of output modifiers and phase traces -/

/-- Engine helper `FAggregator::StaticExecModOnBaseValue(BaseValue, ModifierOp,
EvaluatedMagnitude)`: the value an attribute gets from a modifier, computed in
`float` (`+=`, `*=`, `/=`).  A division by a magnitude that is nearly zero
leaves the value unchanged. -/
def FAggregator.StaticExecModOnBaseValue (BaseValue : ℚ) (ModifierOp : EGameplayModOp)
    (EvaluatedMagnitude : ℚ) : ℚ :=
  match ModifierOp with
  | EGameplayModOp.Additive => F32.add BaseValue EvaluatedMagnitude
  | EGameplayModOp.Multiplicitive => F32.mul BaseValue EvaluatedMagnitude
  | EGameplayModOp.Division =>
    if FMath.IsNearlyZero EvaluatedMagnitude then BaseValue
    else F32.div BaseValue EvaluatedMagnitude
  | EGameplayModOp.Override => EvaluatedMagnitude

/-- Execution of one output modifier by the effect pipeline of the engine, in
the order the specification gives: the new value is computed from the stored
one, filtered by `PreAttributeChange` and committed, and then
`PostGameplayEffectExecute` runs with the modifier as its data.  The result
is the attribute set and the `OnDamageTaken` broadcasts made. -/
def UNeonAttributeSet.ExecuteMod (s : UNeonAttributeSet)
    (ModEvalData : FGameplayModifierEvaluatedData) :
    UNeonAttributeSet × List FOnDamageTaken :=
  let NewValue :=
    FAggregator.StaticExecModOnBaseValue (s.GetNumericValue ModEvalData.Attribute)
      ModEvalData.ModifierOp ModEvalData.Magnitude
  let committed :=
    s.SetNumericValue ModEvalData.Attribute
      (UNeonAttributeSet.PreAttributeChange ModEvalData.Attribute NewValue)
  UNeonAttributeSet.PostGameplayEffectExecute { EvaluatedData := ModEvalData } committed

/-- Execution of all output modifiers of a calculation, first to last: the
final attribute set and all broadcasts, in order. -/
def UNeonAttributeSet.ExecuteOutput (s : UNeonAttributeSet) :
    List FGameplayModifierEvaluatedData → UNeonAttributeSet × List FOnDamageTaken
  | [] => (s, [])
  | m :: ms =>
    ((UNeonAttributeSet.ExecuteOutput (s.ExecuteMod m).1 ms).1,
      (s.ExecuteMod m).2 ++ (UNeonAttributeSet.ExecuteOutput (s.ExecuteMod m).1 ms).2)

/-- The phase of the projectile after each event of a run, in order (the list
ends where the run ends). -/
def ProjectileEvent.phases (p : ANeonProjectile) :
    List ProjectileEvent → List EProjectilePhase
  | [] => []
  | e :: es =>
    match e.deliver p with
    | none => []
    | some r => r.1.BoomerangPhase :: ProjectileEvent.phases r.1 es

/-! ### Lemmas on floating-point rounding -/

theorem IEEE.quantum_pos (prec : ℕ) (emin : ℤ) (x : ℚ) : 0 < IEEE.quantum prec emin x := by
  unfold IEEE.quantum
  positivity

theorem IEEE.floor_le_roundEven (t : ℚ) : ⌊t⌋ ≤ IEEE.roundEven t := by
  unfold IEEE.roundEven
  split_ifs <;> omega

theorem IEEE.roundEven_le_floor_add_one (t : ℚ) : IEEE.roundEven t ≤ ⌊t⌋ + 1 := by
  unfold IEEE.roundEven
  split_ifs <;> omega

theorem IEEE.roundEven_intCast (N : ℤ) : IEEE.roundEven (N : ℚ) = N := by
  unfold IEEE.roundEven
  simp

theorem IEEE.le_roundEven (t : ℚ) (N : ℤ) (h : (N : ℚ) ≤ t) : N ≤ IEEE.roundEven t :=
  le_trans (Int.le_floor.mpr h) (IEEE.floor_le_roundEven t)

theorem IEEE.roundEven_le (t : ℚ) (N : ℤ) (h : t ≤ (N : ℚ)) : IEEE.roundEven t ≤ N := by
  rcases eq_or_lt_of_le h with h | h
  · rw [h, IEEE.roundEven_intCast]
  · have : ⌊t⌋ < N := Int.floor_lt.mpr h
    have := IEEE.roundEven_le_floor_add_one t
    omega

/-- The rounded integer is within one half of the number. -/
theorem IEEE.abs_roundEven_sub_le (t : ℚ) : |(IEEE.roundEven t : ℚ) - t| ≤ 1 / 2 := by
  have h1 := Int.floor_le t
  have h2 := Int.lt_floor_add_one t
  unfold IEEE.roundEven
  rw [abs_le]
  split_ifs with a b c
  · constructor <;> linarith
  · push_cast
    constructor <;> linarith
  · have : t - ⌊t⌋ = 1 / 2 := le_antisymm (not_lt.mp b) (not_lt.mp a)
    constructor <;> linarith
  · have : t - ⌊t⌋ = 1 / 2 := le_antisymm (not_lt.mp b) (not_lt.mp a)
    push_cast
    constructor <;> linarith

theorem IEEE.roundEven_eq_of_abs_sub_lt (t : ℚ) (N : ℤ) (h : |t - N| < 1 / 2) :
    IEEE.roundEven t = N := by
  rw [abs_lt] at h
  have h3 := IEEE.abs_roundEven_sub_le t
  rw [abs_le] at h3
  have h4 : ((IEEE.roundEven t : ℤ) : ℚ) - N < 1 := by linarith [h.1, h.2, h3.1, h3.2]
  have h5 : ((N : ℤ) : ℚ) - IEEE.roundEven t < 1 := by linarith [h.1, h.2, h3.1, h3.2]
  have h6 : IEEE.roundEven t - N < 1 := by exact_mod_cast h4
  have h7 : N - IEEE.roundEven t < 1 := by exact_mod_cast h5
  omega

theorem IEEE.log_eq (b : ℕ) (hb : 1 < b) (r : ℚ) (e : ℤ) (h1 : (b : ℚ) ^ e ≤ r)
    (h2 : r < (b : ℚ) ^ (e + 1)) : Int.log b r = e := by
  have hr : 0 < r := lt_of_lt_of_le (by positivity) h1
  have h3 := (Int.zpow_le_iff_le_log hb hr).mp h1
  have h4 := (Int.lt_zpow_iff_log_lt hb hr).mp h2
  omega

theorem IEEE.round_zero (prec : ℕ) (emin : ℤ) : IEEE.round prec emin 0 = 0 := by
  unfold IEEE.round
  simp [IEEE.roundEven]

theorem IEEE.round_nonneg (prec : ℕ) (emin : ℤ) (x : ℚ) (h : 0 ≤ x) :
    0 ≤ IEEE.round prec emin x := by
  unfold IEEE.round
  have hq := IEEE.quantum_pos prec emin x
  have : (0 : ℤ) ≤ IEEE.roundEven (x / IEEE.quantum prec emin x) :=
    IEEE.le_roundEven _ 0 (by simpa using div_nonneg h hq.le)
  have : (0 : ℚ) ≤ (IEEE.roundEven (x / IEEE.quantum prec emin x) : ℚ) := by exact_mod_cast this
  positivity

theorem IEEE.round_nonpos (prec : ℕ) (emin : ℤ) (x : ℚ) (h : x ≤ 0) :
    IEEE.round prec emin x ≤ 0 := by
  unfold IEEE.round
  have hq := IEEE.quantum_pos prec emin x
  have : IEEE.roundEven (x / IEEE.quantum prec emin x) ≤ (0 : ℤ) :=
    IEEE.roundEven_le _ 0 (by simpa using div_nonpos_of_nonpos_of_nonneg h hq.le)
  have : (IEEE.roundEven (x / IEEE.quantum prec emin x) : ℚ) ≤ (0 : ℚ) := by exact_mod_cast this
  exact mul_nonpos_of_nonpos_of_nonneg this hq.le

/-- A value of the format is a whole multiple of the spacing of the binade
`2 ^ e`, or lies below that binade (which is then a normal one). -/
theorem IEEE.IsRepr.multiple_or_small (prec : ℕ) (emin : ℤ) (f : ℚ)
    (hf : IEEE.IsRepr prec emin f) (e : ℤ) :
    (∃ N : ℤ, f = N * (2 : ℚ) ^ max (e - ((prec : ℤ) - 1)) emin) ∨
    (|f| < (2 : ℚ) ^ e ∧ max (e - ((prec : ℤ) - 1)) emin = e - ((prec : ℤ) - 1)) := by
  obtain ⟨m, z, hz, hm, rfl⟩ := hf
  by_cases hk : max (e - ((prec : ℤ) - 1)) emin ≤ z
  · left
    obtain ⟨d, hd⟩ := Int.eq_ofNat_of_zero_le (sub_nonneg.mpr hk)
    refine ⟨m * 2 ^ d, ?_⟩
    have hz' : z = (d : ℤ) + max (e - ((prec : ℤ) - 1)) emin := by omega
    rw [hz', zpow_add₀ (by norm_num), zpow_natCast]
    push_cast
    ring
  · right
    have hk' : z < max (e - ((prec : ℤ) - 1)) emin := not_le.mp hk
    have hmax : max (e - ((prec : ℤ) - 1)) emin = e - ((prec : ℤ) - 1) := by
      apply max_eq_left
      by_contra hc
      have := max_eq_right (le_of_lt (not_le.mp hc))
      omega
    refine ⟨?_, hmax⟩
    rw [hmax] at hk'
    rw [abs_mul, abs_of_pos (show (0 : ℚ) < 2 ^ z by positivity)]
    have hm' : |(m : ℚ)| < (2 : ℚ) ^ (prec : ℤ) := by
      rw [zpow_natCast]
      exact_mod_cast hm
    calc |(m : ℚ)| * (2 : ℚ) ^ z < (2 : ℚ) ^ (prec : ℤ) * (2 : ℚ) ^ z :=
          mul_lt_mul_of_pos_right hm' (by positivity)
      _ = (2 : ℚ) ^ ((prec : ℤ) + z) := by rw [zpow_add₀ (by norm_num)]
      _ ≤ (2 : ℚ) ^ e := zpow_le_zpow_right₀ (by norm_num) (by omega)

/-- A value of the format of magnitude at least `2 ^ e` is a whole multiple of
the spacing of the binade `2 ^ e`. -/
theorem IEEE.IsRepr.multiple_zpow (prec : ℕ) (emin : ℤ) (f : ℚ)
    (hf : IEEE.IsRepr prec emin f) (e : ℤ) (he : (2 : ℚ) ^ e ≤ |f|) :
    ∃ N : ℤ, f = N * (2 : ℚ) ^ max (e - ((prec : ℤ) - 1)) emin := by
  rcases IEEE.IsRepr.multiple_or_small prec emin f hf e with h | ⟨h, -⟩
  · exact h
  · exact absurd he (not_le.mpr h)

theorem IEEE.zpow_log_le_abs (x : ℚ) (hx : x ≠ 0) : (2 : ℚ) ^ Int.log 2 |x| ≤ |x| := by
  have h1 := Int.zpow_log_le_self (b := 2) (by norm_num) (abs_pos.mpr hx)
  have h1' : ((2 : ℕ) : ℚ) ^ Int.log 2 |x| ≤ |x| := h1
  push_cast at h1'
  exact h1'

theorem IEEE.abs_lt_zpow_log_succ (x : ℚ) : |x| < (2 : ℚ) ^ (Int.log 2 |x| + 1) := by
  have h1 := Int.lt_zpow_succ_log_self (b := 2) (by norm_num) |x|
  have h1' : |x| < ((2 : ℕ) : ℚ) ^ (Int.log 2 |x| + 1) := h1
  push_cast at h1'
  exact h1'

/-- A value of the format that is at least as large in magnitude as `x` is a
whole multiple of the spacing at `x`. -/
theorem IEEE.IsRepr.multiple (prec : ℕ) (emin : ℤ) (f x : ℚ) (hf : IEEE.IsRepr prec emin f)
    (hx : x ≠ 0) (h : |x| ≤ |f|) : ∃ N : ℤ, f = N * IEEE.quantum prec emin x :=
  IEEE.IsRepr.multiple_zpow prec emin f hf (Int.log 2 |x|)
    (le_trans (IEEE.zpow_log_le_abs x hx) h)

/-- Rounding leaves a value of the format unchanged. -/
theorem IEEE.round_of_isRepr (prec : ℕ) (emin : ℤ) (f : ℚ) (hf : IEEE.IsRepr prec emin f) :
    IEEE.round prec emin f = f := by
  by_cases h0 : f = 0
  · rw [h0, IEEE.round_zero]
  · obtain ⟨N, hN⟩ := IEEE.IsRepr.multiple prec emin f f hf h0 le_rfl
    have hq := IEEE.quantum_pos prec emin f
    unfold IEEE.round
    have : f / IEEE.quantum prec emin f = N := by
      rw [div_eq_iff hq.ne']
      exact hN
    rw [this, IEEE.roundEven_intCast]
    exact hN.symm

/-- Rounding does not cross a value of the format from below. -/
theorem IEEE.round_le_of_le (prec : ℕ) (emin : ℤ) (f x : ℚ) (hf : IEEE.IsRepr prec emin f)
    (h0 : 0 ≤ f) (h : x ≤ f) : IEEE.round prec emin x ≤ f := by
  rcases le_or_lt x 0 with hx | hx
  · exact le_trans (IEEE.round_nonpos prec emin x hx) h0
  · have habs : |x| ≤ |f| := by
      rw [abs_of_pos hx, abs_of_nonneg h0]
      exact h
    obtain ⟨N, hN⟩ := IEEE.IsRepr.multiple prec emin f x hf hx.ne' habs
    have hq := IEEE.quantum_pos prec emin x
    unfold IEEE.round
    have h1 : x / IEEE.quantum prec emin x ≤ (N : ℚ) := by
      rw [div_le_iff₀ hq]
      rw [← hN]
      exact h
    have h2 : IEEE.roundEven (x / IEEE.quantum prec emin x) ≤ N := IEEE.roundEven_le _ N h1
    have h3 : (IEEE.roundEven (x / IEEE.quantum prec emin x) : ℚ) ≤ (N : ℚ) := by
      exact_mod_cast h2
    rw [hN]
    exact mul_le_mul_of_nonneg_right h3 hq.le

/-- Rounding does not cross a value of the format from above. -/
theorem IEEE.le_round_of_le (prec : ℕ) (emin : ℤ) (f x : ℚ) (hf : IEEE.IsRepr prec emin f)
    (h0 : 0 ≤ f) (h : f ≤ x) : f ≤ IEEE.round prec emin x := by
  rcases eq_or_lt_of_le h0 with hf0 | hf0
  · rw [← hf0]
    exact IEEE.round_nonneg prec emin x (le_trans h0 h)
  · have hx : 0 < x := lt_of_lt_of_le hf0 h
    have hq := IEEE.quantum_pos prec emin x
    have hlog := IEEE.zpow_log_le_abs x hx.ne'
    rw [abs_of_pos hx] at hlog
    rcases IEEE.IsRepr.multiple_or_small prec emin f hf (Int.log 2 x) with ⟨N, hN⟩ | ⟨hlt, hmax⟩
    · have hN' : f = (N : ℚ) * IEEE.quantum prec emin x := by
        unfold IEEE.quantum
        rw [abs_of_pos hx]
        exact hN
      unfold IEEE.round
      have h1 : (N : ℚ) ≤ x / IEEE.quantum prec emin x := by
        rw [le_div_iff₀ hq, ← hN']
        exact h
      have h2 := IEEE.le_roundEven _ _ h1
      have h3 : (N : ℚ) ≤ (IEEE.roundEven (x / IEEE.quantum prec emin x) : ℚ) := by
        exact_mod_cast h2
      rw [hN']
      exact mul_le_mul_of_nonneg_right h3 hq.le
    · have hqe : IEEE.quantum prec emin x = (2 : ℚ) ^ (Int.log 2 x - ((prec : ℤ) - 1)) := by
        unfold IEEE.quantum
        rw [abs_of_pos hx, hmax]
      have h1 : (2 : ℚ) ^ Int.log 2 x ≤ IEEE.round prec emin x := by
        obtain ⟨d, hd⟩ : ∃ d : ℕ, prec = d + 1 := by
          rcases Nat.eq_zero_or_pos prec with hp | hp
          · exfalso
            obtain ⟨m, z, hz, hm, hfm⟩ := hf
            rw [hp] at hm
            have hm0 : m = 0 := by
              have := abs_nonneg m
              have hm1 : |m| < 1 := by simpa using hm
              have : |m| = 0 := by omega
              exact abs_eq_zero.mp this
            rw [hm0] at hfm
            simp at hfm
            linarith
          · exact ⟨prec - 1, by omega⟩
        have hpow2 : (2 : ℚ) ^ Int.log 2 x = ((2 ^ d : ℤ) : ℚ) * IEEE.quantum prec emin x := by
          rw [hqe, hd]
          push_cast
          rw [← zpow_natCast, ← zpow_add₀ (by norm_num)]
          congr 1
          ring
        have h1 : ((2 ^ d : ℤ) : ℚ) ≤ x / IEEE.quantum prec emin x := by
          rw [le_div_iff₀ hq, ← hpow2]
          exact hlog
        have h2 := IEEE.le_roundEven _ _ h1
        have h3 : ((2 ^ d : ℤ) : ℚ) ≤ (IEEE.roundEven (x / IEEE.quantum prec emin x) : ℚ) := by
          exact_mod_cast h2
        rw [hpow2]
        unfold IEEE.round
        exact mul_le_mul_of_nonneg_right h3 hq.le
      have hf' : f < (2 : ℚ) ^ Int.log 2 x := lt_of_le_of_lt (le_abs_self f) hlt
      exact le_trans hf'.le h1

/-- What `IEEE.sqrt` computes: with `q` the spacing, the result is `n * q` or
`(n + 1) * q` for the `n` with `(n q)² ≤ s < ((n + 1) q)²`, whichever side of
the midpoint `s` is on. -/
theorem IEEE.sqrt_spec (prec : ℕ) (emin : ℤ) (s : ℚ) (hs : 0 ≤ s) :
    ∃ n : ℕ,
      ((n : ℚ) * (2 : ℚ) ^ max (Int.log 4 s - ((prec : ℤ) - 1)) emin) ^ 2 ≤ s ∧
      s < (((n : ℚ) + 1) * (2 : ℚ) ^ max (Int.log 4 s - ((prec : ℤ) - 1)) emin) ^ 2 ∧
      ((IEEE.sqrt prec emin s = n * (2 : ℚ) ^ max (Int.log 4 s - ((prec : ℤ) - 1)) emin ∧
          s ≤ (((n : ℚ) + 1 / 2) * (2 : ℚ) ^ max (Int.log 4 s - ((prec : ℤ) - 1)) emin) ^ 2) ∨
        (IEEE.sqrt prec emin s =
            ((n : ℚ) + 1) * (2 : ℚ) ^ max (Int.log 4 s - ((prec : ℤ) - 1)) emin ∧
          (((n : ℚ) + 1 / 2) * (2 : ℚ) ^ max (Int.log 4 s - ((prec : ℤ) - 1)) emin) ^ 2 ≤ s)) := by
  generalize hq : (2 : ℚ) ^ max (Int.log 4 s - ((prec : ℤ) - 1)) emin = q
  have hq0 : 0 < q := by rw [← hq]; positivity
  have hqq : 0 < q * q := mul_pos hq0 hq0
  have ht0 : 0 ≤ s / (q * q) := div_nonneg hs hqq.le
  have hts : s = s / (q * q) * (q * q) := by field_simp
  have hn1 : ((Nat.sqrt ⌊s / (q * q)⌋₊ : ℕ) : ℚ) ^ 2 ≤ s / (q * q) := by
    have h := Nat.sqrt_le' ⌊s / (q * q)⌋₊
    have h' : ((Nat.sqrt ⌊s / (q * q)⌋₊ ^ 2 : ℕ) : ℚ) ≤ (⌊s / (q * q)⌋₊ : ℚ) := by
      exact_mod_cast h
    push_cast at h'
    exact le_trans h' (Nat.floor_le ht0)
  have hn2 : s / (q * q) < ((Nat.sqrt ⌊s / (q * q)⌋₊ : ℕ) + 1 : ℚ) ^ 2 := by
    have h := Nat.lt_succ_sqrt' ⌊s / (q * q)⌋₊
    have h2 := (Nat.floor_lt ht0).mp h
    push_cast at h2
    exact h2
  refine ⟨Nat.sqrt ⌊s / (q * q)⌋₊, ?_, ?_, ?_⟩
  · rw [mul_pow, pow_two q]
    calc _ ≤ s / (q * q) * (q * q) := mul_le_mul_of_nonneg_right hn1 hqq.le
      _ = s := hts.symm
  · rw [mul_pow, pow_two q]
    calc s = s / (q * q) * (q * q) := hts
      _ < _ := mul_lt_mul_of_pos_right hn2 hqq
  · have hsq : IEEE.sqrt prec emin s =
        if s / (q * q) < ((Nat.sqrt ⌊s / (q * q)⌋₊ : ℚ) + 1 / 2) ^ 2 then
          (Nat.sqrt ⌊s / (q * q)⌋₊ : ℚ) * q
        else if ((Nat.sqrt ⌊s / (q * q)⌋₊ : ℚ) + 1 / 2) ^ 2 < s / (q * q) then
          ((Nat.sqrt ⌊s / (q * q)⌋₊ : ℚ) + 1) * q
        else if Nat.sqrt ⌊s / (q * q)⌋₊ % 2 = 0 then (Nat.sqrt ⌊s / (q * q)⌋₊ : ℚ) * q
        else ((Nat.sqrt ⌊s / (q * q)⌋₊ : ℚ) + 1) * q := by
      unfold IEEE.sqrt
      simp only [hq]
    rw [hsq]
    have key : ∀ c : ℚ, (c * q) ^ 2 = c ^ 2 * (q * q) := fun c => by ring
    split_ifs with a b c
    · left
      refine ⟨rfl, ?_⟩
      rw [key, hts]
      rw [← hts]
      calc s = s / (q * q) * (q * q) := hts
        _ ≤ _ := mul_le_mul_of_nonneg_right a.le hqq.le
    · right
      refine ⟨rfl, ?_⟩
      rw [key]
      calc _ ≤ s / (q * q) * (q * q) := mul_le_mul_of_nonneg_right b.le hqq.le
        _ = s := hts.symm
    · left
      refine ⟨rfl, ?_⟩
      rw [key]
      calc s = s / (q * q) * (q * q) := hts
        _ ≤ _ := mul_le_mul_of_nonneg_right (not_lt.mp b) hqq.le
    · right
      refine ⟨rfl, ?_⟩
      rw [key]
      calc _ ≤ s / (q * q) * (q * q) := mul_le_mul_of_nonneg_right (not_lt.mp a) hqq.le
        _ = s := hts.symm

theorem IEEE.sqrt_nonneg (prec : ℕ) (emin : ℤ) (s : ℚ) : 0 ≤ IEEE.sqrt prec emin s := by
  unfold IEEE.sqrt
  simp only []
  split_ifs <;> positivity

theorem IEEE.sqrt_of_nonpos (prec : ℕ) (emin : ℤ) (s : ℚ) (hs : s ≤ 0) :
    IEEE.sqrt prec emin s = 0 := by
  have hlog : Int.log 4 s = 0 := Int.log_of_right_le_zero 4 hs
  unfold IEEE.sqrt
  simp only [hlog]
  have ht : s / ((2 : ℚ) ^ max (0 - ((prec : ℤ) - 1)) emin *
      (2 : ℚ) ^ max (0 - ((prec : ℤ) - 1)) emin) ≤ 0 :=
    div_nonpos_of_nonpos_of_nonneg hs (by positivity)
  have hfl : ⌊s / ((2 : ℚ) ^ max (0 - ((prec : ℤ) - 1)) emin *
      (2 : ℚ) ^ max (0 - ((prec : ℤ) - 1)) emin)⌋₊ = 0 := Nat.floor_eq_zero.mpr (by linarith)
  rw [hfl]
  have : Nat.sqrt 0 = 0 := by decide
  rw [this]
  have hc : s / ((2 : ℚ) ^ max (0 - ((prec : ℤ) - 1)) emin *
      (2 : ℚ) ^ max (0 - ((prec : ℤ) - 1)) emin) < (((0 : ℕ) : ℚ) + 1 / 2) ^ 2 :=
    lt_of_le_of_lt ht (by norm_num)
  rw [if_pos hc]
  simp

theorem IEEE.zpow_four (e : ℤ) : (4 : ℚ) ^ e = ((2 : ℚ) ^ e) ^ 2 := by
  rw [← zpow_natCast, ← zpow_mul, mul_comm, zpow_mul]
  norm_num

theorem IEEE.zpow_log_four_le (s : ℚ) (hs : 0 < s) : ((2 : ℚ) ^ Int.log 4 s) ^ 2 ≤ s := by
  have h1 := Int.zpow_log_le_self (b := 4) (by norm_num) hs
  have h1' : ((4 : ℕ) : ℚ) ^ Int.log 4 s ≤ s := h1
  push_cast at h1'
  rw [IEEE.zpow_four] at h1'
  exact h1'

theorem IEEE.lt_zpow_log_four_succ (s : ℚ) : s < ((2 : ℚ) ^ (Int.log 4 s + 1)) ^ 2 := by
  have h1 := Int.lt_zpow_succ_log_self (b := 4) (by norm_num) s
  have h1' : s < ((4 : ℕ) : ℚ) ^ (Int.log 4 s + 1) := h1
  push_cast at h1'
  rw [IEEE.zpow_four] at h1'
  exact h1'

/-- The rounded square root is at least every non-negative value of the format
whose square is at most the argument. -/
theorem IEEE.le_sqrt_of_sq_le (prec : ℕ) (emin : ℤ) (f s : ℚ) (hf : IEEE.IsRepr prec emin f)
    (h0 : 0 ≤ f) (h : f * f ≤ s) : f ≤ IEEE.sqrt prec emin s := by
  rcases eq_or_lt_of_le h0 with hf0 | hf0
  · rw [← hf0]
    exact IEEE.sqrt_nonneg prec emin s
  · have hs : 0 < s := lt_of_lt_of_le (mul_pos hf0 hf0) h
    obtain ⟨n, hn1, hn2, hres⟩ := IEEE.sqrt_spec prec emin s hs.le
    have hq0 : (0 : ℚ) < (2 : ℚ) ^ max (Int.log 4 s - ((prec : ℤ) - 1)) emin := by positivity
    have hnq : (n : ℚ) * (2 : ℚ) ^ max (Int.log 4 s - ((prec : ℤ) - 1)) emin ≤
        IEEE.sqrt prec emin s := by
      rcases hres with ⟨hr, -⟩ | ⟨hr, -⟩
      · rw [hr]
      · rw [hr]
        exact mul_le_mul_of_nonneg_right (by linarith) hq0.le
    refine le_trans ?_ hnq
    rcases IEEE.IsRepr.multiple_or_small prec emin f hf (Int.log 4 s) with ⟨N, hN⟩ | ⟨hlt, hmax⟩
    · -- f = N q with N² q² ≤ s < (n+1)² q², so N ≤ n
      have hlt : (f) ^ 2 < (((n : ℚ) + 1) *
          (2 : ℚ) ^ max (Int.log 4 s - ((prec : ℤ) - 1)) emin) ^ 2 := by
        rw [pow_two f]
        exact lt_of_le_of_lt h hn2
      have hlt2 : f < ((n : ℚ) + 1) *
          (2 : ℚ) ^ max (Int.log 4 s - ((prec : ℤ) - 1)) emin :=
        lt_of_pow_lt_pow_left₀ 2 (by positivity) hlt
      rw [hN] at hlt2
      have hlt3 : (N : ℚ) < (n : ℚ) + 1 := lt_of_mul_lt_mul_right hlt2 hq0.le
      have hlt4 : N < (n : ℤ) + 1 := by exact_mod_cast hlt3
      have hle : N ≤ (n : ℤ) := by omega
      have hle' : (N : ℚ) ≤ (n : ℚ) := by exact_mod_cast hle
      rw [hN]
      exact mul_le_mul_of_nonneg_right hle' hq0.le
    · -- f < 2 ^ e ≤ n q
      rw [abs_of_pos hf0] at hlt
      refine le_trans hlt.le ?_
      have h4 := IEEE.zpow_log_four_le s hs
      have hlt : ((2 : ℚ) ^ Int.log 4 s) ^ 2 < (((n : ℚ) + 1) *
          (2 : ℚ) ^ max (Int.log 4 s - ((prec : ℤ) - 1)) emin) ^ 2 := lt_of_le_of_lt h4 hn2
      have hlt2 : (2 : ℚ) ^ Int.log 4 s < ((n : ℚ) + 1) *
          (2 : ℚ) ^ max (Int.log 4 s - ((prec : ℤ) - 1)) emin :=
        lt_of_pow_lt_pow_left₀ 2 (by positivity) hlt
      rw [hmax] at hlt2 ⊢
      obtain ⟨d, hd⟩ : ∃ d : ℕ, prec = d + 1 := by
        rcases Nat.eq_zero_or_pos prec with hp | hp
        · exfalso
          obtain ⟨m, z, hz, hm, hfm⟩ := hf
          rw [hp] at hm
          have hm0 : m = 0 := by
            have := abs_nonneg m
            have hm1 : |m| < 1 := by simpa using hm
            have : |m| = 0 := by omega
            exact abs_eq_zero.mp this
          rw [hm0] at hfm
          simp at hfm
          linarith
        · exact ⟨prec - 1, by omega⟩
      have hpow : (2 : ℚ) ^ Int.log 4 s =
          ((2 ^ d : ℤ) : ℚ) * (2 : ℚ) ^ (Int.log 4 s - ((prec : ℤ) - 1)) := by
        rw [hd]
        push_cast
        rw [← zpow_natCast, ← zpow_add₀ (by norm_num)]
        congr 1
        ring
      have hq1 : (0 : ℚ) < (2 : ℚ) ^ (Int.log 4 s - ((prec : ℤ) - 1)) := by positivity
      rw [hpow] at hlt2 ⊢
      have hlt3 : ((2 ^ d : ℤ) : ℚ) < (n : ℚ) + 1 := lt_of_mul_lt_mul_right hlt2 hq1.le
      have hlt4 : (2 ^ d : ℤ) < (n : ℤ) + 1 := by exact_mod_cast hlt3
      have hle : (2 ^ d : ℤ) ≤ (n : ℤ) := by omega
      have hle' : ((2 ^ d : ℤ) : ℚ) ≤ (n : ℚ) := by exact_mod_cast hle
      exact mul_le_mul_of_nonneg_right hle' hq1.le

/-- The rounded square root is at most every non-negative value of the format
whose square is at least the argument. -/
theorem IEEE.sqrt_le_of_le_sq (prec : ℕ) (emin : ℤ) (f s : ℚ) (hf : IEEE.IsRepr prec emin f)
    (h0 : 0 ≤ f) (h : s ≤ f * f) : IEEE.sqrt prec emin s ≤ f := by
  rcases le_or_lt s 0 with hs | hs
  · rw [IEEE.sqrt_of_nonpos prec emin s hs]
    exact h0
  · obtain ⟨n, hn1, hn2, hres⟩ := IEEE.sqrt_spec prec emin s hs.le
    have hq0 : (0 : ℚ) < (2 : ℚ) ^ max (Int.log 4 s - ((prec : ℤ) - 1)) emin := by positivity
    have h4 := IEEE.zpow_log_four_le s hs
    have hfe : (2 : ℚ) ^ Int.log 4 s ≤ |f| := by
      rw [abs_of_nonneg h0]
      have : ((2 : ℚ) ^ Int.log 4 s) ^ 2 ≤ f ^ 2 := by
        rw [pow_two f]
        exact le_trans h4 h
      exact le_of_pow_le_pow_left₀ (by norm_num) h0 this
    obtain ⟨N, hN⟩ := IEEE.IsRepr.multiple_zpow prec emin f hf (Int.log 4 s) hfe
    rcases hres with ⟨hr, -⟩ | ⟨hr, hmid⟩
    · rw [hr]
      have hle : ((n : ℚ) * (2 : ℚ) ^ max (Int.log 4 s - ((prec : ℤ) - 1)) emin) ^ 2 ≤ f ^ 2 := by
        rw [pow_two f]
        exact le_trans hn1 h
      exact le_of_pow_le_pow_left₀ (by norm_num) h0 hle
    · rw [hr]
      have hle : (((n : ℚ) + 1 / 2) *
          (2 : ℚ) ^ max (Int.log 4 s - ((prec : ℤ) - 1)) emin) ^ 2 ≤ f ^ 2 := by
        rw [pow_two f]
        exact le_trans hmid h
      have hle2 := le_of_pow_le_pow_left₀ (by norm_num : (2 : ℕ) ≠ 0) h0 hle
      rw [hN] at hle2 ⊢
      have hle3 : (n : ℚ) + 1 / 2 ≤ (N : ℚ) := le_of_mul_le_mul_right hle2 hq0
      have hlt : (n : ℚ) < (N : ℚ) := by linarith
      have hlt' : (n : ℤ) < N := by exact_mod_cast hlt
      have hle4 : (n : ℤ) + 1 ≤ N := by omega
      have hle5 : (n : ℚ) + 1 ≤ (N : ℚ) := by exact_mod_cast hle4
      exact mul_le_mul_of_nonneg_right hle5 hq0.le

/-- The rounded square root of the square of a non-negative value of the format
is that value. -/
theorem IEEE.sqrt_mul_self (prec : ℕ) (emin : ℤ) (f : ℚ) (hf : IEEE.IsRepr prec emin f)
    (h0 : 0 ≤ f) : IEEE.sqrt prec emin (f * f) = f :=
  le_antisymm (IEEE.sqrt_le_of_le_sq prec emin f (f * f) hf h0 le_rfl)
    (IEEE.le_sqrt_of_sq_le prec emin f (f * f) hf h0 le_rfl)

/-- Evaluation of a rounding: in the binade `2 ^ e ≤ |x| < 2 ^ (e + 1)` with
spacing `2 ^ k`, a multiple `N * 2 ^ k` nearer to `x` than half the spacing is
the rounded value. -/
theorem IEEE.round_eq_of_abs_sub_lt (prec : ℕ) (emin : ℤ) (x : ℚ) (e k N : ℤ)
    (h1 : (2 : ℚ) ^ e ≤ |x|) (h2 : |x| < (2 : ℚ) ^ (e + 1))
    (hk : k = max (e - ((prec : ℤ) - 1)) emin)
    (h : |x - N * (2 : ℚ) ^ k| < (2 : ℚ) ^ k / 2) :
    IEEE.round prec emin x = N * (2 : ℚ) ^ k := by
  have hlog : Int.log 2 |x| = e := IEEE.log_eq 2 (by norm_num) |x| e (by exact_mod_cast h1)
    (by exact_mod_cast h2)
  have hq : IEEE.quantum prec emin x = (2 : ℚ) ^ k := by
    unfold IEEE.quantum
    rw [hlog, hk]
  unfold IEEE.round
  rw [hq]
  have hk0 : (0 : ℚ) < (2 : ℚ) ^ k := by positivity
  have hnear : |x / (2 : ℚ) ^ k - (N : ℚ)| < 1 / 2 := by
    have : x / (2 : ℚ) ^ k - (N : ℚ) = (x - N * (2 : ℚ) ^ k) / (2 : ℚ) ^ k := by
      field_simp
      ring
    rw [this, abs_div, abs_of_pos hk0, div_lt_iff₀ hk0]
    linarith
  rw [IEEE.roundEven_eq_of_abs_sub_lt _ N hnear]

theorem IEEE.isRepr_intCast (prec : ℕ) (emin : ℤ) (n : ℤ) (hemin : emin ≤ 0)
    (h : |n| < 2 ^ prec) : IEEE.IsRepr prec emin (n : ℚ) :=
  ⟨n, 0, hemin, h, by simp⟩

theorem IEEE.isRepr_zero (prec : ℕ) (emin : ℤ) : IEEE.IsRepr prec emin 0 :=
  ⟨0, emin, le_rfl, by positivity, by simp⟩


/-- The spacing around a value other than 0 is at most `2 ^ (1 - prec)` times
its magnitude, or the least spacing. -/
theorem IEEE.quantum_le (prec : ℕ) (emin : ℤ) (x : ℚ) (hx : x ≠ 0) :
    IEEE.quantum prec emin x ≤ |x| * (2 : ℚ) ^ (1 - (prec : ℤ)) + (2 : ℚ) ^ emin := by
  unfold IEEE.quantum
  rcases le_total (Int.log 2 |x| - ((prec : ℤ) - 1)) emin with h | h
  · rw [max_eq_right h]
    have : (0 : ℚ) ≤ |x| * (2 : ℚ) ^ (1 - (prec : ℤ)) := by positivity
    linarith
  · rw [max_eq_left h]
    have h2 : (0 : ℚ) < (2 : ℚ) ^ emin := by positivity
    have hlog := IEEE.zpow_log_le_abs x hx
    have : (2 : ℚ) ^ (Int.log 2 |x| - ((prec : ℤ) - 1)) =
        (2 : ℚ) ^ Int.log 2 |x| * (2 : ℚ) ^ (1 - (prec : ℤ)) := by
      rw [← zpow_add₀ (by norm_num)]
      congr 1
      ring
    rw [this]
    have h3 : (0 : ℚ) < (2 : ℚ) ^ (1 - (prec : ℤ)) := by positivity
    have := mul_le_mul_of_nonneg_right hlog h3.le
    linarith

/-- The rounding error is at most half the spacing. -/
theorem IEEE.abs_round_sub_le_quantum (prec : ℕ) (emin : ℤ) (x : ℚ) :
    |IEEE.round prec emin x - x| ≤ IEEE.quantum prec emin x / 2 := by
  have hq := IEEE.quantum_pos prec emin x
  have h := IEEE.abs_roundEven_sub_le (x / IEEE.quantum prec emin x)
  unfold IEEE.round
  have : (IEEE.roundEven (x / IEEE.quantum prec emin x) : ℚ) * IEEE.quantum prec emin x - x =
      ((IEEE.roundEven (x / IEEE.quantum prec emin x) : ℚ) - x / IEEE.quantum prec emin x) *
        IEEE.quantum prec emin x := by
    field_simp
  rw [this, abs_mul, abs_of_pos hq]
  have := mul_le_mul_of_nonneg_right h hq.le
  linarith

/-- The rounding error: a relative part of `2 ^ (-prec)` and an absolute part
of half the least spacing. -/
theorem IEEE.abs_round_sub_le (prec : ℕ) (emin : ℤ) (x : ℚ) :
    |IEEE.round prec emin x - x| ≤
      |x| * (2 : ℚ) ^ (-(prec : ℤ)) + (2 : ℚ) ^ (emin - 1) := by
  by_cases hx : x = 0
  · subst hx
    rw [IEEE.round_zero]
    simp only [sub_zero, abs_zero, zero_mul, zero_add]
    positivity
  have h1 := IEEE.abs_round_sub_le_quantum prec emin x
  have h2 := IEEE.quantum_le prec emin x hx
  have e1 : (2 : ℚ) ^ (-(prec : ℤ)) = (2 : ℚ) ^ (1 - (prec : ℤ)) / 2 := by
    rw [sub_eq_add_neg, zpow_add₀ (by norm_num), zpow_one]
    ring
  have e2 : (2 : ℚ) ^ (emin - 1) = (2 : ℚ) ^ emin / 2 := by
    rw [zpow_sub₀ (by norm_num), zpow_one]
  rw [e1, e2]
  linarith

/-- A positive value of the format is at least the least spacing, and at least
the spacing around it. -/
theorem IEEE.IsRepr.quantum_le_self (prec : ℕ) (emin : ℤ) (f : ℚ)
    (hf : IEEE.IsRepr prec emin f) (h0 : 0 < f) : IEEE.quantum prec emin f ≤ f := by
  obtain ⟨N, hN⟩ := IEEE.IsRepr.multiple prec emin f f hf h0.ne' le_rfl
  have hq := IEEE.quantum_pos prec emin f
  have hN0 : (0 : ℚ) < (N : ℚ) := by
    by_contra hc
    have : (N : ℚ) * IEEE.quantum prec emin f ≤ 0 :=
      mul_nonpos_of_nonpos_of_nonneg (not_lt.mp hc) hq.le
    linarith
  have hN1 : (1 : ℤ) ≤ N := by
    have : (0 : ℤ) < N := by exact_mod_cast hN0
    omega
  have hN2 : (1 : ℚ) ≤ (N : ℚ) := by exact_mod_cast hN1
  calc IEEE.quantum prec emin f = 1 * IEEE.quantum prec emin f := (one_mul _).symm
    _ ≤ (N : ℚ) * IEEE.quantum prec emin f := mul_le_mul_of_nonneg_right hN2 hq.le
    _ = f := hN.symm

/-- A value of the format is below `2 ^ prec` times the spacing around it. -/
theorem IEEE.lt_zpow_mul_quantum (prec : ℕ) (emin : ℤ) (x : ℚ) :
    |x| < (2 : ℚ) ^ (prec : ℤ) * IEEE.quantum prec emin x := by
  have h1 := IEEE.abs_lt_zpow_log_succ x
  have h2 : (2 : ℚ) ^ (Int.log 2 |x| + 1) =
      (2 : ℚ) ^ (prec : ℤ) * (2 : ℚ) ^ (Int.log 2 |x| - ((prec : ℤ) - 1)) := by
    rw [← zpow_add₀ (by norm_num)]
    congr 1
    ring
  have h3 : (2 : ℚ) ^ (Int.log 2 |x| - ((prec : ℤ) - 1)) ≤ IEEE.quantum prec emin x := by
    unfold IEEE.quantum
    exact zpow_le_zpow_right₀ (by norm_num) (le_max_left _ _)
  calc |x| < (2 : ℚ) ^ (Int.log 2 |x| + 1) := h1
    _ = (2 : ℚ) ^ (prec : ℤ) * (2 : ℚ) ^ (Int.log 2 |x| - ((prec : ℤ) - 1)) := h2
    _ ≤ _ := mul_le_mul_of_nonneg_left h3 (by positivity)

/-- Rounding a number that is below a positive value `f` of the format by at
most an eighth of the spacing around `f` gives at least `f`. -/
theorem IEEE.le_round_of_near (prec : ℕ) (emin : ℤ) (f x : ℚ) (hf : IEEE.IsRepr prec emin f)
    (h0 : 0 < f) (h : f - IEEE.quantum prec emin f / 8 ≤ x) : f ≤ IEEE.round prec emin x := by
  rcases le_or_lt f x with hfx | hxf
  · exact IEEE.le_round_of_le prec emin f x hf h0.le hfx
  · have hqf := IEEE.quantum_pos prec emin f
    have hqle := IEEE.IsRepr.quantum_le_self prec emin f hf h0
    have hx0 : 0 < x := by linarith
    have hqx := IEEE.quantum_pos prec emin x
    obtain ⟨N, hN⟩ := IEEE.IsRepr.multiple prec emin f x hf hx0.ne' (by
      rw [abs_of_pos hx0, abs_of_pos h0]
      exact hxf.le)
    -- the spacing around x is at least half the spacing around f
    have hlogf := IEEE.zpow_log_le_abs f h0.ne'
    rw [abs_of_pos h0] at hlogf
    have hlog : Int.log 2 |f| - 1 ≤ Int.log 2 |x| := by
      rw [abs_of_pos h0, abs_of_pos hx0]
      have : ((2 : ℕ) : ℚ) ^ (Int.log 2 f - 1) ≤ x := by
        push_cast
        rw [zpow_sub₀ (by norm_num), zpow_one]
        linarith
      exact (Int.zpow_le_iff_le_log (by norm_num) hx0).mp this
    have hq2 : IEEE.quantum prec emin f / 2 ≤ IEEE.quantum prec emin x := by
      unfold IEEE.quantum
      have : (2 : ℚ) ^ max (Int.log 2 |f| - ((prec : ℤ) - 1)) emin / 2 =
          (2 : ℚ) ^ (max (Int.log 2 |f| - ((prec : ℤ) - 1)) emin - 1) := by
        rw [zpow_sub₀ (by norm_num), zpow_one]
      rw [this]
      apply zpow_le_zpow_right₀ (by norm_num)
      rcases le_total (Int.log 2 |f| - ((prec : ℤ) - 1)) emin with hc | hc
      · rw [max_eq_right hc]
        have := le_max_right (Int.log 2 |x| - ((prec : ℤ) - 1)) emin
        omega
      · rw [max_eq_left hc]
        have := le_max_left (Int.log 2 |x| - ((prec : ℤ) - 1)) emin
        omega
    have hnear : |x / IEEE.quantum prec emin x - (N : ℚ)| < 1 / 2 := by
      have hfq : f / IEEE.quantum prec emin x = (N : ℚ) := by
        rw [div_eq_iff hqx.ne']
        exact hN
      have : x / IEEE.quantum prec emin x - (N : ℚ) = (x - f) / IEEE.quantum prec emin x := by
        rw [sub_div, hfq]
      rw [this, abs_div, abs_of_pos hqx, div_lt_iff₀ hqx, abs_lt]
      constructor <;> linarith
    unfold IEEE.round
    rw [IEEE.roundEven_eq_of_abs_sub_lt _ N hnear, ← hN]

/-- Rounding a number that is above a positive value `f` of the format by at
most an eighth of the spacing around `f` gives at most `f`. -/
theorem IEEE.round_le_of_near (prec : ℕ) (emin : ℤ) (f x : ℚ) (hf : IEEE.IsRepr prec emin f)
    (h0 : 0 < f) (h : x ≤ f + IEEE.quantum prec emin f / 8) : IEEE.round prec emin x ≤ f := by
  rcases le_or_lt x f with hxf | hfx
  · exact IEEE.round_le_of_le prec emin f x hf h0.le hxf
  · have hqf := IEEE.quantum_pos prec emin f
    have hx0 : 0 < x := lt_trans h0 hfx
    obtain ⟨N, hN⟩ := IEEE.IsRepr.multiple prec emin f f hf h0.ne' le_rfl
    -- x lies in the binade of f
    have hlogf := IEEE.zpow_log_le_abs f h0.ne'
    have hlogf' := IEEE.abs_lt_zpow_log_succ f
    rw [abs_of_pos h0] at hlogf hlogf'
    have hk : max (Int.log 2 f - ((prec : ℤ) - 1)) emin ≤ Int.log 2 f := by
      apply max_le
      · have : (0 : ℤ) ≤ (prec : ℤ) := Int.natCast_nonneg prec
        obtain ⟨m, z, hz, hm, hfm⟩ := hf
        have hp : 1 ≤ prec := by
          by_contra hc
          have hp0 : prec = 0 := by omega
          rw [hp0] at hm
          have hm1 : |m| < 1 := by simpa using hm
          have := abs_nonneg m
          have hm0 : m = 0 := abs_eq_zero.mp (by omega)
          rw [hm0] at hfm
          simp at hfm
          linarith
        omega
      · obtain ⟨m, z, hz, hm, hfm⟩ := hf
        have hm0 : (0 : ℚ) < (m : ℚ) := by
          by_contra hc
          have : (m : ℚ) * (2 : ℚ) ^ z ≤ 0 :=
            mul_nonpos_of_nonpos_of_nonneg (not_lt.mp hc) (by positivity)
          linarith
        have hm1 : (1 : ℤ) ≤ m := by
          have : (0 : ℤ) < m := by exact_mod_cast hm0
          omega
        have hm2 : (1 : ℚ) ≤ (m : ℚ) := by exact_mod_cast hm1
        have hz2 : (2 : ℚ) ^ emin ≤ f := by
          calc (2 : ℚ) ^ emin ≤ (2 : ℚ) ^ z := zpow_le_zpow_right₀ (by norm_num) hz
            _ = 1 * (2 : ℚ) ^ z := (one_mul _).symm
            _ ≤ (m : ℚ) * (2 : ℚ) ^ z := mul_le_mul_of_nonneg_right hm2 (by positivity)
            _ = f := hfm.symm
        have : ((2 : ℕ) : ℚ) ^ emin ≤ f := by
          push_cast
          exact hz2
        exact (Int.zpow_le_iff_le_log (by norm_num) h0).mp this
    obtain ⟨d, hd⟩ := Int.eq_ofNat_of_zero_le (sub_nonneg.mpr hk)
    have hqf' : IEEE.quantum prec emin f =
        (2 : ℚ) ^ max (Int.log 2 f - ((prec : ℤ) - 1)) emin := by
      unfold IEEE.quantum
      rw [abs_of_pos h0]
    have hpow : (2 : ℚ) ^ (Int.log 2 f + 1) =
        ((2 ^ (d + 1) : ℤ) : ℚ) * IEEE.quantum prec emin f := by
      rw [hqf']
      push_cast
      rw [← zpow_natCast, ← zpow_add₀ (by norm_num)]
      congr 1
      push_cast
      omega
    have hNlt : (N : ℚ) < ((2 ^ (d + 1) : ℤ) : ℚ) := by
      have : (N : ℚ) * IEEE.quantum prec emin f <
          ((2 ^ (d + 1) : ℤ) : ℚ) * IEEE.quantum prec emin f := by
        rw [← hN, ← hpow]
        exact hlogf'
      exact lt_of_mul_lt_mul_right this hqf.le
    have hNlt' : N < (2 ^ (d + 1) : ℤ) := by exact_mod_cast hNlt
    have hNle : N + 1 ≤ (2 ^ (d + 1) : ℤ) := by omega
    have hNle' : (N : ℚ) + 1 ≤ ((2 ^ (d + 1) : ℤ) : ℚ) := by exact_mod_cast hNle
    have hx2 : x < (2 : ℚ) ^ (Int.log 2 f + 1) := by
      rw [hpow]
      have := mul_le_mul_of_nonneg_right hNle' hqf.le
      have e : ((N : ℚ) + 1) * IEEE.quantum prec emin f = f + IEEE.quantum prec emin f := by
        linear_combination (-1 : ℚ) * hN
      linarith
    have hlogx : Int.log 2 |x| = Int.log 2 |f| := by
      rw [abs_of_pos hx0, abs_of_pos h0]
      exact IEEE.log_eq 2 (by norm_num) x (Int.log 2 f) (by push_cast; linarith)
        (by push_cast; exact hx2)
    have hqx : IEEE.quantum prec emin x = IEEE.quantum prec emin f := by
      unfold IEEE.quantum
      rw [hlogx]
    have hnear : |x / IEEE.quantum prec emin x - (N : ℚ)| < 1 / 2 := by
      have hfq : f / IEEE.quantum prec emin f = (N : ℚ) := by
        rw [div_eq_iff hqf.ne']
        exact hN
      have : x / IEEE.quantum prec emin x - (N : ℚ) = (x - f) / IEEE.quantum prec emin f := by
        rw [hqx, sub_div, hfq]
      rw [this, abs_div, abs_of_pos hqf, div_lt_iff₀ hqf, abs_lt]
      constructor <;> linarith
    unfold IEEE.round
    rw [IEEE.roundEven_eq_of_abs_sub_lt _ N hnear, hqx, ← hN]

/-- Conversion to `float` leaves a `float` unchanged. -/
theorem F32.round_of_isFloat (f : ℚ) (hf : F32.IsFloat f) : F32.round f = f :=
  IEEE.round_of_isRepr 24 (-149) f hf

/-- Conversion to `double` leaves a `double` unchanged. -/
theorem F64.round_of_isDouble (f : ℚ) (hf : F64.IsDouble f) : F64.round f = f :=
  IEEE.round_of_isRepr 53 (-1074) f hf

theorem F32.isFloat_intCast (n : ℤ) (h : |n| < 2 ^ 24) : F32.IsFloat (n : ℚ) :=
  IEEE.isRepr_intCast 24 (-149) n (by norm_num) h

theorem F32.round_float_intCast (n : ℤ) (h : |n| < 2 ^ 24) : F32.round (n : ℚ) = n :=
  F32.round_of_isFloat _ (F32.isFloat_intCast n h)

theorem F32.round_zero_eq : F32.round 0 = 0 := IEEE.round_zero 24 (-149)

/-- The error of a conversion to `float`: a relative part of `2 ^ (-24)` and an
absolute part of `2 ^ (-150)`. -/
theorem F32.abs_round_float_sub_le (x : ℚ) :
    |F32.round x - x| ≤ |x| * (1 / 16777216) + (2 : ℚ) ^ (-150 : ℤ) := by
  have h := IEEE.abs_round_sub_le 24 (-149) x
  have e1 : (2 : ℚ) ^ (-((24 : ℕ) : ℤ)) = 1 / 16777216 := by norm_num
  have e2 : ((-149 : ℤ) - 1) = -150 := by norm_num
  rw [e1, e2] at h
  exact h

theorem F64.round_double_zero : F64.round 0 = 0 := IEEE.round_zero 53 (-1074)

/-- The `double` square root of the square of a non-negative `double` is that
`double`. -/
theorem F64.sqrt_double_mul_self (f : ℚ) (hf : F64.IsDouble f) (h0 : 0 ≤ f) :
    F64.sqrt (f * f) = f :=
  IEEE.sqrt_mul_self 53 (-1074) f hf h0

/-! ### Helper lemmas on the engine arithmetic -/

theorem FMath.Max_eq_max (A B : ℚ) : FMath.Max A B = max A B := by
  unfold FMath.Max
  split_ifs with h
  · exact (max_eq_left h.le).symm
  · exact (max_eq_right (not_lt.mp h)).symm

theorem FMath.Min_eq_min (A B : ℚ) : FMath.Min A B = min A B := by
  unfold FMath.Min
  split_ifs with h
  · exact (min_eq_left h.le).symm
  · exact (min_eq_right (not_lt.mp h)).symm

theorem FMath.Abs_eq_abs (A : ℚ) : FMath.Abs A = |A| := by
  unfold FMath.Abs
  split_ifs with h
  · exact (abs_of_neg h).symm
  · exact (abs_of_nonneg (not_lt.mp h)).symm

theorem FMath.Clamp_nonneg (X MaxValue : ℚ) : 0 ≤ FMath.Clamp X 0 MaxValue := by
  unfold FMath.Clamp
  rw [FMath.Max_eq_max]
  exact le_max_right _ _

theorem FMath.Clamp_le (X MaxValue : ℚ) (h : 0 ≤ MaxValue) :
    FMath.Clamp X 0 MaxValue ≤ MaxValue := by
  unfold FMath.Clamp
  rw [FMath.Max_eq_max, FMath.Min_eq_min]
  exact max_le (min_le_right _ _) h

/-- For `MinValue ≤ MaxValue` the clamp is the three-way choice
`X < MinValue ? MinValue : X < MaxValue ? X : MaxValue`. -/
theorem FMath.Clamp_eq_ite (X MinValue MaxValue : ℚ) (h : MinValue ≤ MaxValue) :
    FMath.Clamp X MinValue MaxValue =
      if X < MinValue then MinValue else if X < MaxValue then X else MaxValue := by
  unfold FMath.Clamp FMath.Max FMath.Min
  split_ifs <;> first | rfl | linarith

theorem FMath.Clamp_of_mem (X MaxValue : ℚ) (h0 : 0 ≤ X) (h1 : X ≤ MaxValue) :
    FMath.Clamp X 0 MaxValue = X := by
  unfold FMath.Clamp
  rw [FMath.Max_eq_max, FMath.Min_eq_min, min_eq_left h1, max_eq_left h0]


/-! ## Theorems: NeonAttributeSet -/

/-- C1: after `PostGameplayEffectExecute` handles a mutation of Health, Neon,
Stamina or UltimateCharge, the stored value of that stat lies between 0 and
its maximum, whatever value was stored before and whatever the magnitude,
provided the maximum is non-negative (at least 1 for Health). -/
theorem postChange_clamps_stat (s : UNeonAttributeSet) (Magnitude : ℚ) :
    (1 ≤ s.MaxHealth →
      0 ≤ (UNeonAttributeSet.PostGameplayEffectExecute
            (modData FGameplayAttribute.Health Magnitude) s).1.Health ∧
      (UNeonAttributeSet.PostGameplayEffectExecute
            (modData FGameplayAttribute.Health Magnitude) s).1.Health ≤
        (UNeonAttributeSet.PostGameplayEffectExecute
            (modData FGameplayAttribute.Health Magnitude) s).1.MaxHealth) ∧
    (0 ≤ s.MaxNeon →
      0 ≤ (UNeonAttributeSet.PostGameplayEffectExecute
            (modData FGameplayAttribute.Neon Magnitude) s).1.Neon ∧
      (UNeonAttributeSet.PostGameplayEffectExecute
            (modData FGameplayAttribute.Neon Magnitude) s).1.Neon ≤
        (UNeonAttributeSet.PostGameplayEffectExecute
            (modData FGameplayAttribute.Neon Magnitude) s).1.MaxNeon) ∧
    (0 ≤ s.MaxStamina →
      0 ≤ (UNeonAttributeSet.PostGameplayEffectExecute
            (modData FGameplayAttribute.Stamina Magnitude) s).1.Stamina ∧
      (UNeonAttributeSet.PostGameplayEffectExecute
            (modData FGameplayAttribute.Stamina Magnitude) s).1.Stamina ≤
        (UNeonAttributeSet.PostGameplayEffectExecute
            (modData FGameplayAttribute.Stamina Magnitude) s).1.MaxStamina) ∧
    (0 ≤ s.MaxUltimateCharge →
      0 ≤ (UNeonAttributeSet.PostGameplayEffectExecute
            (modData FGameplayAttribute.UltimateCharge Magnitude) s).1.UltimateCharge ∧
      (UNeonAttributeSet.PostGameplayEffectExecute
            (modData FGameplayAttribute.UltimateCharge Magnitude) s).1.UltimateCharge ≤
        (UNeonAttributeSet.PostGameplayEffectExecute
            (modData FGameplayAttribute.UltimateCharge Magnitude) s).1.MaxUltimateCharge) := by
  refine ⟨fun h => ?_, fun h => ?_, fun h => ?_, fun h => ?_⟩
  · have h0 : (0 : ℚ) ≤ s.MaxHealth := le_trans zero_le_one h
    by_cases hm : Magnitude < 0 <;>
      simp [UNeonAttributeSet.PostGameplayEffectExecute, modData, UNeonAttributeSet.SetHealth,
        hm, FMath.Clamp_nonneg, FMath.Clamp_le _ _ h0]
  · simp [UNeonAttributeSet.PostGameplayEffectExecute, modData, UNeonAttributeSet.SetNeon,
      FMath.Clamp_nonneg, FMath.Clamp_le _ _ h]
  · simp [UNeonAttributeSet.PostGameplayEffectExecute, modData, UNeonAttributeSet.SetStamina,
      FMath.Clamp_nonneg, FMath.Clamp_le _ _ h]
  · simp [UNeonAttributeSet.PostGameplayEffectExecute, modData,
      UNeonAttributeSet.SetUltimateCharge, FMath.Clamp_nonneg, FMath.Clamp_le _ _ h]

/-- C2: `PostGameplayEffectExecute` broadcasts `OnDamageTaken` exactly when
the modified attribute is Health and the evaluated magnitude is strictly
negative; it then broadcasts once, with the absolute value of the magnitude
and the owning actor.  In every other case it broadcasts nothing. -/
theorem postChange_damageTaken_iff (Data : FGameplayEffectModCallbackData)
    (s : UNeonAttributeSet) :
    ((UNeonAttributeSet.PostGameplayEffectExecute Data s).2 ≠ [] ↔
      (Data.EvaluatedData.Attribute = FGameplayAttribute.Health ∧
        Data.EvaluatedData.Magnitude < 0)) ∧
    ((UNeonAttributeSet.PostGameplayEffectExecute Data s).2 =
      if Data.EvaluatedData.Attribute = FGameplayAttribute.Health ∧
          Data.EvaluatedData.Magnitude < 0 then
        [{ DamageAmount := |Data.EvaluatedData.Magnitude|, DamagedActor := s.OwningActor }]
      else []) := by
  by_cases ha : Data.EvaluatedData.Attribute = FGameplayAttribute.Health <;>
    by_cases hm : Data.EvaluatedData.Magnitude < 0 <;>
    simp [UNeonAttributeSet.PostGameplayEffectExecute, UNeonAttributeSet.SetHealth, ha, hm,
      FMath.Abs_eq_abs]

/-- Witness for C1: a Health of 250 committed above a maximum of 100, and a
Health of -30 committed below 0, are both brought back into range. -/
theorem postChange_clamps_stat_witness :
    (1 : ℚ) ≤ ({ UNeonAttributeSet.ctor 0 with Health := 250 } : UNeonAttributeSet).MaxHealth ∧
    (0 ≤ (UNeonAttributeSet.PostGameplayEffectExecute
            (modData FGameplayAttribute.Health 150)
            { UNeonAttributeSet.ctor 0 with Health := 250 }).1.Health ∧
      (UNeonAttributeSet.PostGameplayEffectExecute
            (modData FGameplayAttribute.Health 150)
            { UNeonAttributeSet.ctor 0 with Health := 250 }).1.Health ≤
        (UNeonAttributeSet.PostGameplayEffectExecute
            (modData FGameplayAttribute.Health 150)
            { UNeonAttributeSet.ctor 0 with Health := 250 }).1.MaxHealth) :=
  ⟨by simp [UNeonAttributeSet.ctor],
   (postChange_clamps_stat { UNeonAttributeSet.ctor 0 with Health := 250 } 150).1
     (by simp [UNeonAttributeSet.ctor])⟩

/-! ## Theorems: NeonDamageExecCalculation -/

/-- The product `10.0f * 2.5f` is 25. -/
theorem F32.mul_ten_combo : F32.mul 10 (5 / 2) = 25 := by
  have h := F32.round_float_intCast 25 (by norm_num)
  unfold F32.mul
  norm_num at h ⊢
  exact h

/-- The product `16777215.0f * 2.5f` is 41943036: the exact product 41943037.5
lies between the neighbouring `float` values 41943036 and 41943040. -/
theorem F32.mul_combo_rounds : F32.mul 16777215 (5 / 2) = 41943036 := by
  have h := IEEE.round_eq_of_abs_sub_lt 24 (-149) (16777215 * (5 / 2)) 25 2 10485759
    (by norm_num [abs_of_pos]) (by norm_num [abs_of_pos]) (by norm_num) (by norm_num [abs_lt])
  unfold F32.mul F32.round
  rw [h]
  norm_num

/-- Counterexample to C3 as stated: for the base damage 16777215 (a `float`,
`2 ^ 24 - 1`) on a corrupted target with Neon-typed damage the final damage is
41943036, not the base times 2.5 (41943037.5): the product is rounded to
`float`. -/
theorem combo_product_is_rounded :
    UNeonDamageExecCalculation.bIsTargetCorrupted
        (resolveParams (some 16777215) true true) = true ∧
    UNeonDamageExecCalculation.bIsNeonDamage (resolveParams (some 16777215) true true) = true ∧
    UNeonDamageExecCalculation.BaseDamage (resolveParams (some 16777215) true true) =
      16777215 ∧
    F32.IsFloat 16777215 ∧
    UNeonDamageExecCalculation.FinalDamage (resolveParams (some 16777215) true true) =
      41943036 ∧
    UNeonDamageExecCalculation.FinalDamage (resolveParams (some 16777215) true true) ≠
      UNeonDamageExecCalculation.BaseDamage (resolveParams (some 16777215) true true) *
        (5 / 2) := by
  have hc : UNeonDamageExecCalculation.bIsTargetCorrupted
      (resolveParams (some 16777215) true true) = true := by
    simp [UNeonDamageExecCalculation.bIsTargetCorrupted, resolveParams]
  have hn : UNeonDamageExecCalculation.bIsNeonDamage
      (resolveParams (some 16777215) true true) = true := by
    simp [UNeonDamageExecCalculation.bIsNeonDamage, resolveParams]
  have hb : UNeonDamageExecCalculation.BaseDamage (resolveParams (some 16777215) true true) =
      16777215 := by
    norm_num [UNeonDamageExecCalculation.BaseDamage,
      FGameplayEffectSpec.GetSetByCallerMagnitude, resolveParams]
  have hf : UNeonDamageExecCalculation.FinalDamage (resolveParams (some 16777215) true true) =
      41943036 := by
    rw [UNeonDamageExecCalculation.FinalDamage]
    simp only [hc, hn, hb, Bool.and_self, if_true]
    exact F32.mul_combo_rounds
  refine ⟨hc, hn, hb, ?_, hf, ?_⟩
  · have h := F32.isFloat_intCast 16777215 (by norm_num)
    norm_num at h
    exact h
  · rw [hf, hb]
    norm_num

/-- C3 (amended): when the target is corrupted and the damage is Neon-typed,
the final damage of the calculation is the `float` product of the base damage
(after the fallback) and 2.5, that is the exact product rounded to the nearest
`float`; it equals the exact product whenever that product is a `float`, and
differs from it by at most one part in `2 ^ 24` of it (and `2 ^ (-150)`).  For
each of the three other combinations of the two flags the final damage is the
base damage itself.  With a base of 10 the results are 25, 10 and 10.  (The
product is taken within the finite range of `float`.) -/
theorem combo_rule (ExecutionParams : FGameplayEffectCustomExecutionParameters) :
    (UNeonDamageExecCalculation.bIsTargetCorrupted ExecutionParams = true →
      UNeonDamageExecCalculation.bIsNeonDamage ExecutionParams = true →
      |UNeonDamageExecCalculation.BaseDamage ExecutionParams * (5 / 2)| ≤ F32.MAX →
      UNeonDamageExecCalculation.FinalDamage ExecutionParams =
          F32.round (UNeonDamageExecCalculation.BaseDamage ExecutionParams * (5 / 2)) ∧
        (F32.IsFloat (UNeonDamageExecCalculation.BaseDamage ExecutionParams * (5 / 2)) →
          UNeonDamageExecCalculation.FinalDamage ExecutionParams =
            UNeonDamageExecCalculation.BaseDamage ExecutionParams * (5 / 2)) ∧
        |UNeonDamageExecCalculation.FinalDamage ExecutionParams -
            UNeonDamageExecCalculation.BaseDamage ExecutionParams * (5 / 2)| ≤
          |UNeonDamageExecCalculation.BaseDamage ExecutionParams * (5 / 2)| * (1 / 16777216) +
            (2 : ℚ) ^ (-150 : ℤ)) ∧
    (UNeonDamageExecCalculation.bIsTargetCorrupted ExecutionParams = true →
      UNeonDamageExecCalculation.bIsNeonDamage ExecutionParams = false →
      UNeonDamageExecCalculation.FinalDamage ExecutionParams =
        UNeonDamageExecCalculation.BaseDamage ExecutionParams) ∧
    (UNeonDamageExecCalculation.bIsTargetCorrupted ExecutionParams = false →
      UNeonDamageExecCalculation.bIsNeonDamage ExecutionParams = true →
      UNeonDamageExecCalculation.FinalDamage ExecutionParams =
        UNeonDamageExecCalculation.BaseDamage ExecutionParams) ∧
    (UNeonDamageExecCalculation.bIsTargetCorrupted ExecutionParams = false →
      UNeonDamageExecCalculation.bIsNeonDamage ExecutionParams = false →
      UNeonDamageExecCalculation.FinalDamage ExecutionParams =
        UNeonDamageExecCalculation.BaseDamage ExecutionParams) ∧
    UNeonDamageExecCalculation.FinalDamage (resolveParams (some 10) true true) = 25 ∧
    UNeonDamageExecCalculation.FinalDamage (resolveParams (some 10) true false) = 10 ∧
    UNeonDamageExecCalculation.FinalDamage (resolveParams (some 10) false true) = 10 := by
  refine ⟨fun hc hn _ => ?_, fun hc hn => ?_, fun hc hn => ?_, fun hc hn => ?_, ?_, ?_, ?_⟩
  · have hfd : UNeonDamageExecCalculation.FinalDamage ExecutionParams =
        F32.round (UNeonDamageExecCalculation.BaseDamage ExecutionParams * (5 / 2)) := by
      simp [UNeonDamageExecCalculation.FinalDamage, hc, hn, F32.mul]
    refine ⟨hfd, fun hrep => by rw [hfd, F32.round_of_isFloat _ hrep], ?_⟩
    rw [hfd]
    exact F32.abs_round_float_sub_le _
  · simp [UNeonDamageExecCalculation.FinalDamage, hc, hn]
  · simp [UNeonDamageExecCalculation.FinalDamage, hc, hn]
  · simp [UNeonDamageExecCalculation.FinalDamage, hc, hn]
  · norm_num [UNeonDamageExecCalculation.FinalDamage, UNeonDamageExecCalculation.BaseDamage,
      UNeonDamageExecCalculation.bIsTargetCorrupted, UNeonDamageExecCalculation.bIsNeonDamage,
      FGameplayEffectSpec.GetSetByCallerMagnitude, resolveParams, F32.mul_ten_combo]
  · norm_num [UNeonDamageExecCalculation.FinalDamage, UNeonDamageExecCalculation.BaseDamage,
      UNeonDamageExecCalculation.bIsTargetCorrupted, UNeonDamageExecCalculation.bIsNeonDamage,
      FGameplayEffectSpec.GetSetByCallerMagnitude, resolveParams]
  · norm_num [UNeonDamageExecCalculation.FinalDamage, UNeonDamageExecCalculation.BaseDamage,
      UNeonDamageExecCalculation.bIsTargetCorrupted, UNeonDamageExecCalculation.bIsNeonDamage,
      FGameplayEffectSpec.GetSetByCallerMagnitude, resolveParams]

/-- Witness for C3 (amended): a corrupted target hit by Neon damage with base
10; the product 25 is a `float` and is the final damage. -/
theorem combo_rule_witness :
    UNeonDamageExecCalculation.bIsTargetCorrupted (resolveParams (some 10) true true) = true ∧
    UNeonDamageExecCalculation.bIsNeonDamage (resolveParams (some 10) true true) = true ∧
    |UNeonDamageExecCalculation.BaseDamage (resolveParams (some 10) true true) * (5 / 2)| ≤
      F32.MAX ∧
    UNeonDamageExecCalculation.FinalDamage (resolveParams (some 10) true true) =
      F32.round (UNeonDamageExecCalculation.BaseDamage (resolveParams (some 10) true true) *
        (5 / 2)) :=
  have hc : UNeonDamageExecCalculation.bIsTargetCorrupted
      (resolveParams (some 10) true true) = true := by
    simp [UNeonDamageExecCalculation.bIsTargetCorrupted, resolveParams]
  have hn : UNeonDamageExecCalculation.bIsNeonDamage
      (resolveParams (some 10) true true) = true := by
    simp [UNeonDamageExecCalculation.bIsNeonDamage, resolveParams]
  have hr : |UNeonDamageExecCalculation.BaseDamage (resolveParams (some 10) true true) *
      (5 / 2)| ≤ F32.MAX := by
    norm_num [UNeonDamageExecCalculation.BaseDamage,
      FGameplayEffectSpec.GetSetByCallerMagnitude, resolveParams, F32.MAX, abs_of_pos]
  ⟨hc, hn, hr, ((combo_rule (resolveParams (some 10) true true)).1 hc hn hr).1⟩

/-- Counterexample to C4 as stated: a base damage supplied as -1 is not used
as given; the calculation replaces it by 10 and the final damage is 10. -/
theorem supplied_base_not_used_as_given :
    (resolveParams (some (-1)) false false).OwningSpec.SetByCallerTagMagnitudes DataDamage
        = some (-1) ∧
    UNeonDamageExecCalculation.BaseDamage (resolveParams (some (-1)) false false) ≠ -1 ∧
    UNeonDamageExecCalculation.FinalDamage (resolveParams (some (-1)) false false) = 10 := by
  norm_num [UNeonDamageExecCalculation.FinalDamage, UNeonDamageExecCalculation.BaseDamage,
    UNeonDamageExecCalculation.bIsTargetCorrupted, UNeonDamageExecCalculation.bIsNeonDamage,
    FGameplayEffectSpec.GetSetByCallerMagnitude, resolveParams]

/-- C4 (amended): when no base damage is set under `Data.Damage` the base is
10, so the final damage is 10 without the combo and 25 with it; a supplied
base damage other than -1 is used as given. -/
theorem default_base_damage (ExecutionParams : FGameplayEffectCustomExecutionParameters) :
    (ExecutionParams.OwningSpec.SetByCallerTagMagnitudes DataDamage = none →
      UNeonDamageExecCalculation.BaseDamage ExecutionParams = 10 ∧
      ((UNeonDamageExecCalculation.bIsTargetCorrupted ExecutionParams
          && UNeonDamageExecCalculation.bIsNeonDamage ExecutionParams) = false →
        UNeonDamageExecCalculation.FinalDamage ExecutionParams = 10) ∧
      ((UNeonDamageExecCalculation.bIsTargetCorrupted ExecutionParams
          && UNeonDamageExecCalculation.bIsNeonDamage ExecutionParams) = true →
        UNeonDamageExecCalculation.FinalDamage ExecutionParams = 25)) ∧
    (∀ b : ℚ, ExecutionParams.OwningSpec.SetByCallerTagMagnitudes DataDamage = some b →
      b ≠ -1 → UNeonDamageExecCalculation.BaseDamage ExecutionParams = b) := by
  refine ⟨fun hnone => ?_, fun b hb hne => ?_⟩
  · have hbase : UNeonDamageExecCalculation.BaseDamage ExecutionParams = 10 := by
      simp [UNeonDamageExecCalculation.BaseDamage, FGameplayEffectSpec.GetSetByCallerMagnitude,
        hnone]
    refine ⟨hbase, fun hc => ?_, fun hc => ?_⟩
    · simp [UNeonDamageExecCalculation.FinalDamage, hbase, hc]
    · rw [UNeonDamageExecCalculation.FinalDamage]
      simp only [hc, hbase]
      norm_num [F32.mul_ten_combo]
  · simp [UNeonDamageExecCalculation.BaseDamage, FGameplayEffectSpec.GetSetByCallerMagnitude,
      hb, hne]

/-- Witness for C4 (amended): with nothing supplied and no combo the base and
the final damage are 10. -/
theorem default_base_damage_witness :
    (resolveParams none false false).OwningSpec.SetByCallerTagMagnitudes DataDamage = none ∧
    UNeonDamageExecCalculation.BaseDamage (resolveParams none false false) = 10 :=
  ⟨by simp [resolveParams],
   ((default_base_damage (resolveParams none false false)).1 (by simp [resolveParams])).1⟩

/-- C5: the calculation adds exactly one output modifier, additive on Health
with magnitude minus the final damage, when the final damage is positive, and
adds nothing when it is zero or negative; so it submits if and only if the
final damage is positive. -/
theorem resolver_output (ExecutionParams : FGameplayEffectCustomExecutionParameters)
    (OutExecutionOutput : List FGameplayModifierEvaluatedData) :
    (0 < UNeonDamageExecCalculation.FinalDamage ExecutionParams →
      UNeonDamageExecCalculation.Execute_Implementation ExecutionParams OutExecutionOutput =
        OutExecutionOutput ++
          [{ Attribute := FGameplayAttribute.Health
             ModifierOp := EGameplayModOp.Additive
             Magnitude := -UNeonDamageExecCalculation.FinalDamage ExecutionParams }]) ∧
    (UNeonDamageExecCalculation.FinalDamage ExecutionParams ≤ 0 →
      UNeonDamageExecCalculation.Execute_Implementation ExecutionParams OutExecutionOutput =
        OutExecutionOutput) ∧
    (UNeonDamageExecCalculation.Execute_Implementation ExecutionParams OutExecutionOutput ≠
        OutExecutionOutput ↔
      0 < UNeonDamageExecCalculation.FinalDamage ExecutionParams) := by
  by_cases h : 0 < UNeonDamageExecCalculation.FinalDamage ExecutionParams
  · simp [UNeonDamageExecCalculation.Execute_Implementation, h, not_le.mpr h]
  · simp [UNeonDamageExecCalculation.Execute_Implementation, h, not_lt.mp h]

/-- Witness for C5: a base damage of 10 without the combo yields the single
modifier of -10 on Health. -/
theorem resolver_output_witness :
    0 < UNeonDamageExecCalculation.FinalDamage (resolveParams (some 10) false false) ∧
    UNeonDamageExecCalculation.Execute_Implementation (resolveParams (some 10) false false) [] =
      [] ++
        [{ Attribute := FGameplayAttribute.Health
           ModifierOp := EGameplayModOp.Additive
           Magnitude :=
             -UNeonDamageExecCalculation.FinalDamage (resolveParams (some 10) false false) }] :=
  have h : 0 < UNeonDamageExecCalculation.FinalDamage (resolveParams (some 10) false false) := by
    norm_num [UNeonDamageExecCalculation.FinalDamage, UNeonDamageExecCalculation.BaseDamage,
      UNeonDamageExecCalculation.bIsTargetCorrupted, UNeonDamageExecCalculation.bIsNeonDamage,
      FGameplayEffectSpec.GetSetByCallerMagnitude, resolveParams]
  ⟨h, (resolver_output (resolveParams (some 10) false false) []).1 h⟩

/-! ## Theorems: PreAttributeChange -/

/-- C6: `PreAttributeChange` returns `max v 1` for MaxHealth (so exactly 1 for
every proposed value that is 0 or negative), `max v 0` for MaxNeon and
MaxStamina, and the proposed value unchanged for Health, Neon, Stamina and
UltimateCharge. -/
theorem preChange_reference (v : ℚ) :
    UNeonAttributeSet.PreAttributeChange FGameplayAttribute.MaxHealth v = max v 1 ∧
    (v ≤ 0 → UNeonAttributeSet.PreAttributeChange FGameplayAttribute.MaxHealth v = 1) ∧
    UNeonAttributeSet.PreAttributeChange FGameplayAttribute.MaxNeon v = max v 0 ∧
    UNeonAttributeSet.PreAttributeChange FGameplayAttribute.MaxStamina v = max v 0 ∧
    UNeonAttributeSet.PreAttributeChange FGameplayAttribute.Health v = v ∧
    UNeonAttributeSet.PreAttributeChange FGameplayAttribute.Neon v = v ∧
    UNeonAttributeSet.PreAttributeChange FGameplayAttribute.Stamina v = v ∧
    UNeonAttributeSet.PreAttributeChange FGameplayAttribute.UltimateCharge v = v := by
  refine ⟨?_, fun h => ?_, ?_, ?_, ?_, ?_, ?_, ?_⟩
  · simp [UNeonAttributeSet.PreAttributeChange, FMath.Max_eq_max]
  · have h1 : v ≤ 1 := le_trans h zero_le_one
    simp [UNeonAttributeSet.PreAttributeChange, FMath.Max_eq_max, h1]
  · simp [UNeonAttributeSet.PreAttributeChange, FMath.Max_eq_max]
  · simp [UNeonAttributeSet.PreAttributeChange, FMath.Max_eq_max]
  · simp [UNeonAttributeSet.PreAttributeChange]
  · simp [UNeonAttributeSet.PreAttributeChange]
  · simp [UNeonAttributeSet.PreAttributeChange]
  · simp [UNeonAttributeSet.PreAttributeChange]

/-- Witness for C6: a proposed MaxHealth of -3 becomes 1. -/
theorem preChange_reference_witness :
    (-3 : ℚ) ≤ 0 ∧
    UNeonAttributeSet.PreAttributeChange FGameplayAttribute.MaxHealth (-3) = 1 :=
  ⟨by norm_num, (preChange_reference (-3)).2.1 (by norm_num)⟩

/-- C7 (the code at the failing input): `PreAttributeChange` returns a
proposed MaxUltimateCharge of -5 unchanged, not the floor `max (-5) 0 = 0`;
in fact it returns every proposed MaxUltimateCharge unchanged. -/
theorem preChange_maxUltimateCharge_not_floored :
    UNeonAttributeSet.PreAttributeChange FGameplayAttribute.MaxUltimateCharge (-5) = -5 ∧
    UNeonAttributeSet.PreAttributeChange FGameplayAttribute.MaxUltimateCharge (-5)
      ≠ max (-5) 0 ∧
    (∀ v : ℚ, UNeonAttributeSet.PreAttributeChange FGameplayAttribute.MaxUltimateCharge v = v) := by
  refine ⟨?_, ?_, fun v => ?_⟩
  · simp [UNeonAttributeSet.PreAttributeChange]
  · have h : UNeonAttributeSet.PreAttributeChange FGameplayAttribute.MaxUltimateCharge (-5)
        = -5 := by
      simp [UNeonAttributeSet.PreAttributeChange]
    rw [h]
    norm_num
  · simp [UNeonAttributeSet.PreAttributeChange]

/-! ## Theorems: reachable attribute states -/

theorem UNeonAttributeSet.PostGameplayEffectExecute_fst_Health (s : UNeonAttributeSet) (d : ℚ) :
    (UNeonAttributeSet.PostGameplayEffectExecute (modData FGameplayAttribute.Health d) s).1 =
      { s with Health := FMath.Clamp s.Health 0 s.MaxHealth } := by
  by_cases hm : d < 0 <;>
    simp [UNeonAttributeSet.PostGameplayEffectExecute, modData, UNeonAttributeSet.SetHealth, hm]

theorem UNeonAttributeSet.PostGameplayEffectExecute_fst_Neon (s : UNeonAttributeSet) (d : ℚ) :
    (UNeonAttributeSet.PostGameplayEffectExecute (modData FGameplayAttribute.Neon d) s).1 =
      { s with Neon := FMath.Clamp s.Neon 0 s.MaxNeon } := by
  simp [UNeonAttributeSet.PostGameplayEffectExecute, modData, UNeonAttributeSet.SetNeon]

theorem UNeonAttributeSet.PostGameplayEffectExecute_fst_Stamina (s : UNeonAttributeSet) (d : ℚ) :
    (UNeonAttributeSet.PostGameplayEffectExecute (modData FGameplayAttribute.Stamina d) s).1 =
      { s with Stamina := FMath.Clamp s.Stamina 0 s.MaxStamina } := by
  simp [UNeonAttributeSet.PostGameplayEffectExecute, modData, UNeonAttributeSet.SetStamina]

theorem UNeonAttributeSet.PostGameplayEffectExecute_fst_UltimateCharge (s : UNeonAttributeSet)
    (d : ℚ) :
    (UNeonAttributeSet.PostGameplayEffectExecute
        (modData FGameplayAttribute.UltimateCharge d) s).1 =
      { s with UltimateCharge := FMath.Clamp s.UltimateCharge 0 s.MaxUltimateCharge } := by
  simp [UNeonAttributeSet.PostGameplayEffectExecute, modData,
    UNeonAttributeSet.SetUltimateCharge]

/-- A property of states that every admitted mutation preserves holds after
any run of admitted mutations. -/
theorem AttributeMutation.run_preserves (P : UNeonAttributeSet → Prop)
    (Q : AttributeMutation → Prop)
    (hstep : ∀ s m, Q m → P s → P (AttributeMutation.apply s m))
    (ms : List AttributeMutation) :
    ∀ s, (∀ m ∈ ms, Q m) → P s → P (AttributeMutation.run s ms) := by
  induction ms with
  | nil => intro s _ hs; exact hs
  | cons m ms ih =>
    intro s hq hs
    have hm : Q m := hq m (List.mem_cons_self m ms)
    have hrest : ∀ m' ∈ ms, Q m' := fun m' hm' => hq m' (List.mem_cons_of_mem m hm')
    exact ih (AttributeMutation.apply s m) hrest (hstep s m hm hs)

theorem AttributeMutation.apply_Delta_Health (s : UNeonAttributeSet) (d : ℚ) :
    AttributeMutation.apply s (AttributeMutation.Delta FGameplayAttribute.Health d) =
      { s with Health := FMath.Clamp (F32.add s.Health d) 0 s.MaxHealth } := by
  simp [AttributeMutation.apply, UNeonAttributeSet.PostGameplayEffectExecute_fst_Health,
    UNeonAttributeSet.SetNumericValue, UNeonAttributeSet.GetNumericValue,
    UNeonAttributeSet.PreAttributeChange]

theorem AttributeMutation.apply_Delta_Neon (s : UNeonAttributeSet) (d : ℚ) :
    AttributeMutation.apply s (AttributeMutation.Delta FGameplayAttribute.Neon d) =
      { s with Neon := FMath.Clamp (F32.add s.Neon d) 0 s.MaxNeon } := by
  simp [AttributeMutation.apply, UNeonAttributeSet.PostGameplayEffectExecute_fst_Neon,
    UNeonAttributeSet.SetNumericValue, UNeonAttributeSet.GetNumericValue,
    UNeonAttributeSet.PreAttributeChange]

theorem AttributeMutation.apply_Delta_Stamina (s : UNeonAttributeSet) (d : ℚ) :
    AttributeMutation.apply s (AttributeMutation.Delta FGameplayAttribute.Stamina d) =
      { s with Stamina := FMath.Clamp (F32.add s.Stamina d) 0 s.MaxStamina } := by
  simp [AttributeMutation.apply, UNeonAttributeSet.PostGameplayEffectExecute_fst_Stamina,
    UNeonAttributeSet.SetNumericValue, UNeonAttributeSet.GetNumericValue,
    UNeonAttributeSet.PreAttributeChange]

theorem AttributeMutation.apply_Delta_UltimateCharge (s : UNeonAttributeSet) (d : ℚ) :
    AttributeMutation.apply s (AttributeMutation.Delta FGameplayAttribute.UltimateCharge d) =
      { s with
        UltimateCharge := FMath.Clamp (F32.add s.UltimateCharge d) 0 s.MaxUltimateCharge } := by
  simp [AttributeMutation.apply, UNeonAttributeSet.PostGameplayEffectExecute_fst_UltimateCharge,
    UNeonAttributeSet.SetNumericValue, UNeonAttributeSet.GetNumericValue,
    UNeonAttributeSet.PreAttributeChange]

theorem AttributeMutation.apply_WriteMax_MaxHealth (s : UNeonAttributeSet) (v : ℚ) :
    AttributeMutation.apply s (AttributeMutation.WriteMax FGameplayAttribute.MaxHealth v) =
      { s with MaxHealth := max v 1 } := by
  simp [AttributeMutation.apply, UNeonAttributeSet.SetNumericValue,
    UNeonAttributeSet.PreAttributeChange, FMath.Max_eq_max]

theorem AttributeMutation.apply_WriteMax_MaxNeon (s : UNeonAttributeSet) (v : ℚ) :
    AttributeMutation.apply s (AttributeMutation.WriteMax FGameplayAttribute.MaxNeon v) =
      { s with MaxNeon := max v 0 } := by
  simp [AttributeMutation.apply, UNeonAttributeSet.SetNumericValue,
    UNeonAttributeSet.PreAttributeChange, FMath.Max_eq_max]

theorem AttributeMutation.apply_WriteMax_MaxStamina (s : UNeonAttributeSet) (v : ℚ) :
    AttributeMutation.apply s (AttributeMutation.WriteMax FGameplayAttribute.MaxStamina v) =
      { s with MaxStamina := max v 0 } := by
  simp [AttributeMutation.apply, UNeonAttributeSet.SetNumericValue,
    UNeonAttributeSet.PreAttributeChange, FMath.Max_eq_max]

theorem AttributeMutation.apply_WriteMax_MaxUltimateCharge (s : UNeonAttributeSet) (v : ℚ) :
    AttributeMutation.apply s
        (AttributeMutation.WriteMax FGameplayAttribute.MaxUltimateCharge v) =
      { s with MaxUltimateCharge := v } := by
  simp [AttributeMutation.apply, UNeonAttributeSet.SetNumericValue,
    UNeonAttributeSet.PreAttributeChange]

/-- Floors of the three floored maxima and non-negativity of their current
values are preserved by every well-formed mutation. -/
theorem AttributeMutation.apply_preserves_floors (s : UNeonAttributeSet)
    (m : AttributeMutation) (hm : m.WellFormed)
    (hs : (1 ≤ s.MaxHealth ∧ 0 ≤ s.MaxNeon ∧ 0 ≤ s.MaxStamina) ∧
      (0 ≤ s.Health ∧ 0 ≤ s.Neon ∧ 0 ≤ s.Stamina)) :
    (1 ≤ (AttributeMutation.apply s m).MaxHealth ∧ 0 ≤ (AttributeMutation.apply s m).MaxNeon ∧
        0 ≤ (AttributeMutation.apply s m).MaxStamina) ∧
      (0 ≤ (AttributeMutation.apply s m).Health ∧ 0 ≤ (AttributeMutation.apply s m).Neon ∧
        0 ≤ (AttributeMutation.apply s m).Stamina) := by
  obtain ⟨⟨h1, h2, h3⟩, h4, h5, h6⟩ := hs
  cases m with
  | WriteMax a v =>
    cases a <;>
      simp [AttributeMutation.WellFormed, FGameplayAttribute.IsMax] at hm <;>
      simp [AttributeMutation.apply_WriteMax_MaxHealth, AttributeMutation.apply_WriteMax_MaxNeon,
        AttributeMutation.apply_WriteMax_MaxStamina,
        AttributeMutation.apply_WriteMax_MaxUltimateCharge, h1, h2, h3, h4, h5, h6]
  | Delta a d =>
    cases a <;>
      simp [AttributeMutation.WellFormed, FGameplayAttribute.IsMax] at hm <;>
      simp [AttributeMutation.apply_Delta_Health, AttributeMutation.apply_Delta_Neon,
        AttributeMutation.apply_Delta_Stamina, AttributeMutation.apply_Delta_UltimateCharge,
        FMath.Clamp_nonneg, h1, h2, h3, h4, h5, h6]

/-- With no write to MaxUltimateCharge, the ultimate stat keeps a non-negative
maximum and a current value between 0 and that maximum. -/
theorem AttributeMutation.apply_preserves_ultimate (s : UNeonAttributeSet)
    (m : AttributeMutation) (hm : m.WellFormed ∧ ¬ m.WritesMaxUltimateCharge)
    (hs : 0 ≤ s.MaxUltimateCharge ∧ 0 ≤ s.UltimateCharge ∧
      s.UltimateCharge ≤ s.MaxUltimateCharge) :
    0 ≤ (AttributeMutation.apply s m).MaxUltimateCharge ∧
      0 ≤ (AttributeMutation.apply s m).UltimateCharge ∧
      (AttributeMutation.apply s m).UltimateCharge ≤
        (AttributeMutation.apply s m).MaxUltimateCharge := by
  obtain ⟨h1, h2, h3⟩ := hs
  obtain ⟨hwf, hnw⟩ := hm
  cases m with
  | WriteMax a v =>
    cases a <;>
      simp [AttributeMutation.WellFormed, FGameplayAttribute.IsMax,
        AttributeMutation.WritesMaxUltimateCharge] at hwf hnw <;>
      simp [AttributeMutation.apply_WriteMax_MaxHealth, AttributeMutation.apply_WriteMax_MaxNeon,
        AttributeMutation.apply_WriteMax_MaxStamina, h1, h2, h3]
  | Delta a d =>
    cases a <;>
      simp [AttributeMutation.WellFormed, FGameplayAttribute.IsMax] at hwf <;>
      simp [AttributeMutation.apply_Delta_Health, AttributeMutation.apply_Delta_Neon,
        AttributeMutation.apply_Delta_Stamina, AttributeMutation.apply_Delta_UltimateCharge,
        FMath.Clamp_nonneg, FMath.Clamp_le _ _ h1, h1, h2, h3]

/-- Deltas preserve `current ≤ max` for Health, Neon and Stamina as long as
the maxima are non-negative. -/
theorem AttributeMutation.apply_preserves_le_max (s : UNeonAttributeSet)
    (m : AttributeMutation) (hm : m.WellFormed ∧ m.IsDelta)
    (hs : (0 ≤ s.MaxHealth ∧ 0 ≤ s.MaxNeon ∧ 0 ≤ s.MaxStamina) ∧
      (s.Health ≤ s.MaxHealth ∧ s.Neon ≤ s.MaxNeon ∧ s.Stamina ≤ s.MaxStamina)) :
    (0 ≤ (AttributeMutation.apply s m).MaxHealth ∧ 0 ≤ (AttributeMutation.apply s m).MaxNeon ∧
        0 ≤ (AttributeMutation.apply s m).MaxStamina) ∧
      ((AttributeMutation.apply s m).Health ≤ (AttributeMutation.apply s m).MaxHealth ∧
        (AttributeMutation.apply s m).Neon ≤ (AttributeMutation.apply s m).MaxNeon ∧
        (AttributeMutation.apply s m).Stamina ≤ (AttributeMutation.apply s m).MaxStamina) := by
  obtain ⟨⟨h1, h2, h3⟩, h4, h5, h6⟩ := hs
  obtain ⟨hwf, hd⟩ := hm
  cases m with
  | WriteMax a v => exact absurd hd (by simp [AttributeMutation.IsDelta])
  | Delta a d =>
    cases a <;>
      simp [AttributeMutation.WellFormed, FGameplayAttribute.IsMax] at hwf <;>
      simp [AttributeMutation.apply_Delta_Health, AttributeMutation.apply_Delta_Neon,
        AttributeMutation.apply_Delta_Stamina, AttributeMutation.apply_Delta_UltimateCharge,
        FMath.Clamp_le _ _ h1, FMath.Clamp_le _ _ h2, FMath.Clamp_le _ _ h3,
        h1, h2, h3, h4, h5, h6]

/-- Counterexample to C8 as stated: one well-formed mutation from the
constructor defaults, the write of 50 to MaxHealth, leaves Health = 100 above
MaxHealth = 50. -/
theorem stat_invariant_fails_after_max_write :
    (∀ m ∈ [AttributeMutation.WriteMax FGameplayAttribute.MaxHealth 50], m.WellFormed) ∧
    (AttributeMutation.run (UNeonAttributeSet.ctor 0)
        [AttributeMutation.WriteMax FGameplayAttribute.MaxHealth 50]).Health = 100 ∧
    (AttributeMutation.run (UNeonAttributeSet.ctor 0)
        [AttributeMutation.WriteMax FGameplayAttribute.MaxHealth 50]).MaxHealth = 50 ∧
    ¬ ((AttributeMutation.run (UNeonAttributeSet.ctor 0)
          [AttributeMutation.WriteMax FGameplayAttribute.MaxHealth 50]).Health ≤
        (AttributeMutation.run (UNeonAttributeSet.ctor 0)
          [AttributeMutation.WriteMax FGameplayAttribute.MaxHealth 50]).MaxHealth) := by
  refine ⟨?_, ?_, ?_, ?_⟩
  · intro m hm
    rw [List.mem_singleton] at hm
    subst hm
    simp [AttributeMutation.WellFormed, FGameplayAttribute.IsMax]
  · simp [AttributeMutation.run, AttributeMutation.apply_WriteMax_MaxHealth,
      UNeonAttributeSet.ctor]
  · simp [AttributeMutation.run, AttributeMutation.apply_WriteMax_MaxHealth,
      UNeonAttributeSet.ctor]
  · norm_num [AttributeMutation.run, AttributeMutation.apply_WriteMax_MaxHealth,
      UNeonAttributeSet.ctor]

/-- C8 (amended): from the constructor defaults, after any finite sequence of
well-formed mutations (writes to a maximum filtered through
`PreAttributeChange`, deltas to a current value followed by
`PostGameplayEffectExecute`):
MaxHealth ≥ 1, MaxNeon ≥ 0, MaxStamina ≥ 0 and Health, Neon, Stamina ≥ 0;
if no mutation writes MaxUltimateCharge, also MaxUltimateCharge ≥ 0 and
0 ≤ UltimateCharge ≤ MaxUltimateCharge;
if the sequence holds deltas only, current ≤ max for Health, Neon and Stamina;
immediately after a delta to Health, Neon or Stamina that stat is at most
its maximum; and a write to a maximum leaves all four current values as they
were. -/
theorem stat_invariant_reachable (OwningActor : Nat) (ms : List AttributeMutation)
    (hwf : ∀ m ∈ ms, m.WellFormed) :
    ((1 ≤ (AttributeMutation.run (UNeonAttributeSet.ctor OwningActor) ms).MaxHealth ∧
        0 ≤ (AttributeMutation.run (UNeonAttributeSet.ctor OwningActor) ms).MaxNeon ∧
        0 ≤ (AttributeMutation.run (UNeonAttributeSet.ctor OwningActor) ms).MaxStamina) ∧
      (0 ≤ (AttributeMutation.run (UNeonAttributeSet.ctor OwningActor) ms).Health ∧
        0 ≤ (AttributeMutation.run (UNeonAttributeSet.ctor OwningActor) ms).Neon ∧
        0 ≤ (AttributeMutation.run (UNeonAttributeSet.ctor OwningActor) ms).Stamina)) ∧
    ((∀ m ∈ ms, ¬ m.WritesMaxUltimateCharge) →
      0 ≤ (AttributeMutation.run (UNeonAttributeSet.ctor OwningActor) ms).MaxUltimateCharge ∧
      0 ≤ (AttributeMutation.run (UNeonAttributeSet.ctor OwningActor) ms).UltimateCharge ∧
      (AttributeMutation.run (UNeonAttributeSet.ctor OwningActor) ms).UltimateCharge ≤
        (AttributeMutation.run (UNeonAttributeSet.ctor OwningActor) ms).MaxUltimateCharge) ∧
    ((∀ m ∈ ms, m.IsDelta) →
      (AttributeMutation.run (UNeonAttributeSet.ctor OwningActor) ms).Health ≤
        (AttributeMutation.run (UNeonAttributeSet.ctor OwningActor) ms).MaxHealth ∧
      (AttributeMutation.run (UNeonAttributeSet.ctor OwningActor) ms).Neon ≤
        (AttributeMutation.run (UNeonAttributeSet.ctor OwningActor) ms).MaxNeon ∧
      (AttributeMutation.run (UNeonAttributeSet.ctor OwningActor) ms).Stamina ≤
        (AttributeMutation.run (UNeonAttributeSet.ctor OwningActor) ms).MaxStamina) ∧
    (∀ d : ℚ,
      (AttributeMutation.run (UNeonAttributeSet.ctor OwningActor)
          (ms ++ [AttributeMutation.Delta FGameplayAttribute.Health d])).Health ≤
        (AttributeMutation.run (UNeonAttributeSet.ctor OwningActor)
          (ms ++ [AttributeMutation.Delta FGameplayAttribute.Health d])).MaxHealth ∧
      (AttributeMutation.run (UNeonAttributeSet.ctor OwningActor)
          (ms ++ [AttributeMutation.Delta FGameplayAttribute.Neon d])).Neon ≤
        (AttributeMutation.run (UNeonAttributeSet.ctor OwningActor)
          (ms ++ [AttributeMutation.Delta FGameplayAttribute.Neon d])).MaxNeon ∧
      (AttributeMutation.run (UNeonAttributeSet.ctor OwningActor)
          (ms ++ [AttributeMutation.Delta FGameplayAttribute.Stamina d])).Stamina ≤
        (AttributeMutation.run (UNeonAttributeSet.ctor OwningActor)
          (ms ++ [AttributeMutation.Delta FGameplayAttribute.Stamina d])).MaxStamina) ∧
    (∀ (a : FGameplayAttribute) (v : ℚ), a.IsMax = true →
      (AttributeMutation.run (UNeonAttributeSet.ctor OwningActor)
          (ms ++ [AttributeMutation.WriteMax a v])).Health =
        (AttributeMutation.run (UNeonAttributeSet.ctor OwningActor) ms).Health ∧
      (AttributeMutation.run (UNeonAttributeSet.ctor OwningActor)
          (ms ++ [AttributeMutation.WriteMax a v])).Neon =
        (AttributeMutation.run (UNeonAttributeSet.ctor OwningActor) ms).Neon ∧
      (AttributeMutation.run (UNeonAttributeSet.ctor OwningActor)
          (ms ++ [AttributeMutation.WriteMax a v])).Stamina =
        (AttributeMutation.run (UNeonAttributeSet.ctor OwningActor) ms).Stamina ∧
      (AttributeMutation.run (UNeonAttributeSet.ctor OwningActor)
          (ms ++ [AttributeMutation.WriteMax a v])).UltimateCharge =
        (AttributeMutation.run (UNeonAttributeSet.ctor OwningActor) ms).UltimateCharge) := by
  have hfloors :=
    AttributeMutation.run_preserves
      (fun s => (1 ≤ s.MaxHealth ∧ 0 ≤ s.MaxNeon ∧ 0 ≤ s.MaxStamina) ∧
        (0 ≤ s.Health ∧ 0 ≤ s.Neon ∧ 0 ≤ s.Stamina))
      AttributeMutation.WellFormed AttributeMutation.apply_preserves_floors ms
      (UNeonAttributeSet.ctor OwningActor) hwf (by norm_num [UNeonAttributeSet.ctor])
  refine ⟨hfloors, fun hnw => ?_, fun hd => ?_, fun d => ?_, fun a v ha => ?_⟩
  · exact AttributeMutation.run_preserves
      (fun s => 0 ≤ s.MaxUltimateCharge ∧ 0 ≤ s.UltimateCharge ∧
        s.UltimateCharge ≤ s.MaxUltimateCharge)
      (fun m => m.WellFormed ∧ ¬ m.WritesMaxUltimateCharge)
      AttributeMutation.apply_preserves_ultimate ms
      (UNeonAttributeSet.ctor OwningActor) (fun m hm => ⟨hwf m hm, hnw m hm⟩)
      (by norm_num [UNeonAttributeSet.ctor])
  · exact (AttributeMutation.run_preserves
      (fun s => (0 ≤ s.MaxHealth ∧ 0 ≤ s.MaxNeon ∧ 0 ≤ s.MaxStamina) ∧
        (s.Health ≤ s.MaxHealth ∧ s.Neon ≤ s.MaxNeon ∧ s.Stamina ≤ s.MaxStamina))
      (fun m => m.WellFormed ∧ m.IsDelta)
      AttributeMutation.apply_preserves_le_max ms
      (UNeonAttributeSet.ctor OwningActor) (fun m hm => ⟨hwf m hm, hd m hm⟩)
      (by norm_num [UNeonAttributeSet.ctor])).2
  · obtain ⟨⟨h1, h2, h3⟩, -⟩ := hfloors
    have h0 : (0 : ℚ) ≤
        (AttributeMutation.run (UNeonAttributeSet.ctor OwningActor) ms).MaxHealth :=
      le_trans zero_le_one h1
    simp only [AttributeMutation.run, List.foldl_append, List.foldl_cons, List.foldl_nil] at *
    simp [AttributeMutation.apply_Delta_Health, AttributeMutation.apply_Delta_Neon,
      AttributeMutation.apply_Delta_Stamina, FMath.Clamp_le _ _ h0, FMath.Clamp_le _ _ h2,
      FMath.Clamp_le _ _ h3]
  · simp only [AttributeMutation.run, List.foldl_append, List.foldl_cons, List.foldl_nil]
    cases a <;> simp [FGameplayAttribute.IsMax] at ha <;>
      simp [AttributeMutation.apply_WriteMax_MaxHealth, AttributeMutation.apply_WriteMax_MaxNeon,
        AttributeMutation.apply_WriteMax_MaxStamina,
        AttributeMutation.apply_WriteMax_MaxUltimateCharge]

/-- Witness for C8 (amended): a write lowering MaxHealth to 50, then damage of
30 to Health. -/
theorem stat_invariant_reachable_witness :
    (∀ m ∈ [AttributeMutation.WriteMax FGameplayAttribute.MaxHealth 50,
        AttributeMutation.Delta FGameplayAttribute.Health (-30)], m.WellFormed) ∧
    1 ≤ (AttributeMutation.run (UNeonAttributeSet.ctor 0)
        [AttributeMutation.WriteMax FGameplayAttribute.MaxHealth 50,
          AttributeMutation.Delta FGameplayAttribute.Health (-30)]).MaxHealth :=
  have hwf : ∀ m ∈ [AttributeMutation.WriteMax FGameplayAttribute.MaxHealth 50,
      AttributeMutation.Delta FGameplayAttribute.Health (-30)], m.WellFormed := by
    intro m hm
    simp only [List.mem_cons, List.mem_singleton, List.not_mem_nil, or_false] at hm
    rcases hm with rfl | rfl <;> simp [AttributeMutation.WellFormed, FGameplayAttribute.IsMax]
  ⟨hwf, (stat_invariant_reachable 0 _ hwf).1.1.1⟩

/-! ## Theorems: NeonProjectile -/

/-- The error of one `double` operation: a relative part of `2 ^ (-53)` and an
absolute part of `2 ^ (-1075)`. -/
theorem F64.abs_round_double_sub_le (x : ℚ) :
    |F64.round x - x| ≤ |x| * (1 / 9007199254740992) + (2 : ℚ) ^ (-1075 : ℤ) := by
  have h := IEEE.abs_round_sub_le 53 (-1074) x
  have e1 : (2 : ℚ) ^ (-((53 : ℕ) : ℤ)) = 1 / 9007199254740992 := by norm_num
  have e2 : ((-1074 : ℤ) - 1) = -1075 := by norm_num
  rw [e1, e2] at h
  exact h

theorem F64.eta_le : (2 : ℚ) ^ (-1075 : ℤ) ≤ 1 / 36028797018963968 := by
  have h : (2 : ℚ) ^ (-1075 : ℤ) ≤ (2 : ℚ) ^ (-55 : ℤ) :=
    zpow_le_zpow_right₀ (by norm_num) (by norm_num)
  have e : (2 : ℚ) ^ (-55 : ℤ) = 1 / 36028797018963968 := by norm_num
  rw [e] at h
  exact h

/-- The error of squaring a rounded number. -/
theorem F64.sq_error (η x a : ℚ) (hη0 : 0 ≤ η) (hη1 : η ≤ 1 / 36028797018963968)
    (ha : |a - x| ≤ |x| * (1 / 9007199254740992) + η) :
    |a * a - x * x| ≤ x * x * (4 / 9007199254740992) + η := by
  have hy : 0 ≤ |x| := abs_nonneg x
  have hyy : |x| * |x| = x * x := abs_mul_abs_self x
  have hr0 : 0 ≤ |x| * (1 / 9007199254740992) + η := by positivity
  have h1 : |a * a - x * x| = |a - x| * |a + x| := by
    rw [← abs_mul]
    congr 1
    ring
  have h2 : |a + x| ≤ 2 * |x| + (|x| * (1 / 9007199254740992) + η) := by
    have : a + x = (a - x) + 2 * x := by ring
    rw [this]
    calc |(a - x) + 2 * x| ≤ |a - x| + |2 * x| := abs_add _ _
      _ = |a - x| + 2 * |x| := by rw [abs_mul]; norm_num
      _ ≤ _ := by linarith
  have h3 : |a * a - x * x| ≤ (|x| * (1 / 9007199254740992) + η) *
      (2 * |x| + (|x| * (1 / 9007199254740992) + η)) := by
    rw [h1]
    exact mul_le_mul ha h2 (abs_nonneg _) hr0
  have key : x * x * (4 / 9007199254740992) + η -
      (|x| * (1 / 9007199254740992) + η) * (2 * |x| + (|x| * (1 / 9007199254740992) + η)) =
      (1 / 9007199254740992) *
          (|x| - η * (1 + 1 / 9007199254740992) * 9007199254740992) ^ 2 +
        |x| * |x| * (1 / 9007199254740992 - (1 / 9007199254740992) ^ 2) +
        η * (1 - η * (1 + (1 + 1 / 9007199254740992) ^ 2 * 9007199254740992)) := by
    rw [← hyy]
    ring
  have t1 : (0 : ℚ) ≤ (1 / 9007199254740992) *
      (|x| - η * (1 + 1 / 9007199254740992) * 9007199254740992) ^ 2 := by positivity
  have t2 : (0 : ℚ) ≤ |x| * |x| * (1 / 9007199254740992 - (1 / 9007199254740992) ^ 2) := by
    apply mul_nonneg (mul_nonneg hy hy)
    norm_num
  have t3 : (0 : ℚ) ≤ η * (1 - η * (1 + (1 + 1 / 9007199254740992) ^ 2 * 9007199254740992)) := by
    apply mul_nonneg hη0
    have : η * (1 + (1 + 1 / 9007199254740992) ^ 2 * 9007199254740992) ≤
        1 / 36028797018963968 * (1 + (1 + 1 / 9007199254740992) ^ 2 * 9007199254740992) :=
      mul_le_mul_of_nonneg_right hη1 (by norm_num)
    have : (1 : ℚ) / 36028797018963968 *
        (1 + (1 + 1 / 9007199254740992) ^ 2 * 9007199254740992) ≤ 1 := by norm_num
    linarith
  linarith

/-- The error of a rounded square of a rounded number. -/
theorem F64.round_sq_error (η x a A : ℚ) (hη0 : 0 ≤ η) (hη1 : η ≤ 1 / 36028797018963968)
    (ha : |a - x| ≤ |x| * (1 / 9007199254740992) + η)
    (hA : |A - a * a| ≤ |a * a| * (1 / 9007199254740992) + η) :
    |A - x * x| ≤ x * x * (6 / 9007199254740992) + 3 * η := by
  have h1 := F64.sq_error η x a hη0 hη1 ha
  have hxx : 0 ≤ x * x := mul_self_nonneg x
  have haa : |a * a| = a * a := abs_of_nonneg (mul_self_nonneg a)
  rw [haa] at hA
  rw [abs_le] at h1 hA ⊢
  constructor <;> nlinarith [h1.1, h1.2, hA.1, hA.2]

/-- The error of the `double` evaluation of a sum of three squares of
differences. -/
theorem F64.dist_sq_error (η x y z a b c A B C P D : ℚ) (hη0 : 0 ≤ η)
    (hη1 : η ≤ 1 / 36028797018963968)
    (ha : |a - x| ≤ |x| * (1 / 9007199254740992) + η)
    (hb : |b - y| ≤ |y| * (1 / 9007199254740992) + η)
    (hc : |c - z| ≤ |z| * (1 / 9007199254740992) + η)
    (hA : |A - a * a| ≤ |a * a| * (1 / 9007199254740992) + η)
    (hB : |B - b * b| ≤ |b * b| * (1 / 9007199254740992) + η)
    (hC : |C - c * c| ≤ |c * c| * (1 / 9007199254740992) + η)
    (hP : |P - (A + B)| ≤ |A + B| * (1 / 9007199254740992) + η)
    (hD : |D - (P + C)| ≤ |P + C| * (1 / 9007199254740992) + η) :
    |D - (x * x + y * y + z * z)| ≤
      (x * x + y * y + z * z) * (1 / 562949953421312) + 13 * η := by
  have hA' := F64.round_sq_error η x a A hη0 hη1 ha hA
  have hB' := F64.round_sq_error η y b B hη0 hη1 hb hB
  have hC' := F64.round_sq_error η z c C hη0 hη1 hc hC
  have hxx : 0 ≤ x * x := mul_self_nonneg x
  have hyy : 0 ≤ y * y := mul_self_nonneg y
  have hzz : 0 ≤ z * z := mul_self_nonneg z
  rw [abs_le] at hA' hB' hC'
  have hAB : |A + B| ≤ (x * x + y * y) * (1 + 6 / 9007199254740992) + 6 * η := by
    rw [abs_le]
    constructor <;> linarith [hA'.1, hA'.2, hB'.1, hB'.2]
  have hP1 : |P - (A + B)| ≤
      ((x * x + y * y) * (1 + 6 / 9007199254740992) + 6 * η) * (1 / 9007199254740992) + η := by
    have := mul_le_mul_of_nonneg_right hAB (show (0 : ℚ) ≤ 1 / 9007199254740992 by norm_num)
    linarith
  rw [abs_le] at hP1
  have hPC : |P + C| ≤ (x * x + y * y + z * z) * (1 + 8 / 9007199254740992) + 11 * η := by
    rw [abs_le]
    constructor <;> linarith [hA'.1, hA'.2, hB'.1, hB'.2, hC'.1, hC'.2, hP1.1, hP1.2]
  have hD1 : |D - (P + C)| ≤
      ((x * x + y * y + z * z) * (1 + 8 / 9007199254740992) + 11 * η) *
        (1 / 9007199254740992) + η := by
    have := mul_le_mul_of_nonneg_right hPC (show (0 : ℚ) ≤ 1 / 9007199254740992 by norm_num)
    linarith
  rw [abs_le] at hD1
  rw [abs_le]
  constructor <;> linarith [hA'.1, hA'.2, hB'.1, hB'.2, hC'.1, hC'.2, hP1.1, hP1.2,
    hD1.1, hD1.2]

/-- The value `FVector.DistSquared` computes differs from the exact squared
Euclidean distance by at most one part in `2 ^ 49` of it and `13 * 2 ^ (-1075)`. -/
theorem FVector.DistSquared_error (V1 V2 : FVector) :
    |FVector.DistSquared V1 V2 - FVector.EuclideanDistSquared V1 V2| ≤
      FVector.EuclideanDistSquared V1 V2 * (1 / 562949953421312) +
        13 * (2 : ℚ) ^ (-1075 : ℤ) := by
  unfold FVector.DistSquared FVector.EuclideanDistSquared FMath.Square F64.add F64.mul F64.sub
  exact F64.dist_sq_error ((2 : ℚ) ^ (-1075 : ℤ)) _ _ _ _ _ _ _ _ _ _ _ (by positivity)
    F64.eta_le (F64.abs_round_double_sub_le _) (F64.abs_round_double_sub_le _) (F64.abs_round_double_sub_le _)
    (F64.abs_round_double_sub_le _) (F64.abs_round_double_sub_le _) (F64.abs_round_double_sub_le _)
    (F64.abs_round_double_sub_le _) (F64.abs_round_double_sub_le _)

theorem IEEE.zpow_emin_le_quantum (prec : ℕ) (emin : ℤ) (x : ℚ) :
    (2 : ℚ) ^ emin ≤ IEEE.quantum prec emin x := by
  unfold IEEE.quantum
  exact zpow_le_zpow_right₀ (by norm_num) (le_max_right _ _)

/-- For a positive `float` `M` with spacing `q`, the numbers `M - q / 8` and
`M + q / 8` are `double` values. -/
theorem F32.IsFloat.near_isDouble (M : ℚ) (hM : F32.IsFloat M) (h0 : 0 < M) :
    F64.IsDouble (M - IEEE.quantum 24 (-149) M / 8) ∧
    F64.IsDouble (M + IEEE.quantum 24 (-149) M / 8) := by
  obtain ⟨N, hN⟩ := IEEE.IsRepr.multiple 24 (-149) M M hM h0.ne' le_rfl
  have hq := IEEE.quantum_pos 24 (-149) M
  have hlt := IEEE.lt_zpow_mul_quantum 24 (-149) M
  rw [abs_of_pos h0] at hlt
  have hN0 : (0 : ℚ) < (N : ℚ) := by
    by_contra hc
    have : (N : ℚ) * IEEE.quantum 24 (-149) M ≤ 0 :=
      mul_nonpos_of_nonpos_of_nonneg (not_lt.mp hc) hq.le
    linarith
  have hN0' : (0 : ℤ) < N := by exact_mod_cast hN0
  have hN1 : (N : ℚ) < (2 : ℚ) ^ ((24 : ℕ) : ℤ) := by
    have : (N : ℚ) * IEEE.quantum 24 (-149) M <
        (2 : ℚ) ^ ((24 : ℕ) : ℤ) * IEEE.quantum 24 (-149) M := by
      rw [← hN]
      exact hlt
    exact lt_of_mul_lt_mul_right this hq.le
  have hN1' : N < 16777216 := by
    have : (N : ℚ) < ((16777216 : ℤ) : ℚ) := by
      have e : (2 : ℚ) ^ ((24 : ℕ) : ℤ) = ((16777216 : ℤ) : ℚ) := by norm_num
      rw [← e]
      exact hN1
    exact_mod_cast this
  obtain ⟨k, hk, hqk⟩ : ∃ k : ℤ, -149 ≤ k ∧ IEEE.quantum 24 (-149) M = (2 : ℚ) ^ k :=
    ⟨_, le_max_right _ _, rfl⟩
  have hq8 : IEEE.quantum 24 (-149) M / 8 = (2 : ℚ) ^ (k - 3) := by
    rw [hqk, zpow_sub₀ (by norm_num)]
    norm_num
  constructor
  · refine ⟨8 * N - 1, k - 3, by omega, ?_, ?_⟩
    · rw [abs_of_pos (by omega)]
      norm_num
      omega
    · rw [← hq8]
      push_cast
      linear_combination hN
  · refine ⟨8 * N + 1, k - 3, by omega, ?_, ?_⟩
    · rw [abs_of_pos (by omega)]
      norm_num
      omega
    · rw [← hq8]
      push_cast
      linear_combination hN

/-- A positive `float` is at least `2 ^ (-149)`, and its spacing is more than
one part in `2 ^ 24` of it. -/
theorem F32.IsFloat.bounds (M : ℚ) (hM : F32.IsFloat M) (h0 : 0 < M) :
    (1 : ℚ) / 2 ^ 149 ≤ M ∧ M / 16777216 < IEEE.quantum 24 (-149) M ∧
      IEEE.quantum 24 (-149) M ≤ M := by
  have hq := IEEE.quantum_pos 24 (-149) M
  have hlt := IEEE.lt_zpow_mul_quantum 24 (-149) M
  rw [abs_of_pos h0] at hlt
  have hqle := IEEE.IsRepr.quantum_le_self 24 (-149) M hM h0
  have hmin := IEEE.zpow_emin_le_quantum 24 (-149) M
  have e1 : (2 : ℚ) ^ (-149 : ℤ) = 1 / 2 ^ 149 := by
    rw [zpow_neg, one_div]
    norm_cast
  have e2 : (2 : ℚ) ^ ((24 : ℕ) : ℤ) = 16777216 := by norm_num
  rw [e1] at hmin
  rw [e2] at hlt
  refine ⟨le_trans hmin hqle, ?_, hqle⟩
  rw [div_lt_iff₀ (by norm_num)]
  linarith

theorem F64.thirteen_eta_le : 13 * (2 : ℚ) ^ (-1075 : ℤ) ≤
    (1 / 2 ^ 149) * (1 / 2 ^ 149) * (1 / 134217728) := by
  have h : (2 : ℚ) ^ (-1075 : ℤ) ≤ (2 : ℚ) ^ (-329 : ℤ) :=
    zpow_le_zpow_right₀ (by norm_num) (by norm_num)
  have e : (2 : ℚ) ^ (-329 : ℤ) = (1 / 2 ^ 149) * (1 / 2 ^ 149) * (1 / 134217728) * (1 / 16) := by
    rw [zpow_neg, ← one_div]
    norm_num
  rw [e] at h
  have : (0 : ℚ) ≤ (1 / 2 ^ 149) * (1 / 2 ^ 149) * (1 / 134217728) := by positivity
  linarith

/-- Lower bound: when the Euclidean distance of two points is at least a
`float` `M`, the distance the engine computes, stored in a `float`, is at
least `M`. -/
theorem FVector.le_round_Dist (V1 V2 : FVector) (M : ℚ) (hM : F32.IsFloat M) (h0 : 0 ≤ M)
    (h : M * M ≤ FVector.EuclideanDistSquared V1 V2) :
    M ≤ F32.round (FVector.Dist V1 V2) := by
  rcases eq_or_lt_of_le h0 with h0' | h0'
  · rw [← h0']
    exact IEEE.round_nonneg 24 (-149) _ (IEEE.sqrt_nonneg 53 (-1074) _)
  · obtain ⟨hMmin, hql, hqu⟩ := F32.IsFloat.bounds M hM h0'
    have hT := (F32.IsFloat.near_isDouble M hM h0').1
    have herr := FVector.DistSquared_error V1 V2
    rw [abs_le] at herr
    have hη := F64.thirteen_eta_le
    have hT0 : 0 ≤ M - IEEE.quantum 24 (-149) M / 8 := by linarith
    have hT1 : M - IEEE.quantum 24 (-149) M / 8 ≤ M * (1 - 1 / 134217728) := by linarith
    have hsq : (M - IEEE.quantum 24 (-149) M / 8) * (M - IEEE.quantum 24 (-149) M / 8) ≤
        (M * (1 - 1 / 134217728)) * (M * (1 - 1 / 134217728)) :=
      mul_le_mul hT1 hT1 hT0 (le_trans hT0 hT1)
    have hMM : (1 / 2 ^ 149) * (1 / 2 ^ 149) ≤ M * M :=
      mul_le_mul hMmin hMmin (by positivity) h0'.le
    have hTT : (M - IEEE.quantum 24 (-149) M / 8) * (M - IEEE.quantum 24 (-149) M / 8) ≤
        FVector.DistSquared V1 V2 := by
      have e : (M * (1 - 1 / 134217728)) * (M * (1 - 1 / 134217728)) =
          M * M * ((1 - 1 / 134217728) * (1 - 1 / 134217728)) := by ring
      have hS0 : 0 ≤ FVector.EuclideanDistSquared V1 V2 := le_trans (mul_self_nonneg M) h
      have hc : M * M * ((1 - 1 / 134217728) * (1 - 1 / 134217728)) ≤
          M * M * (1 - 1 / 562949953421312) - M * M * (1 / 134217728) := by
        have hm := mul_self_nonneg M
        nlinarith
      have h3 := mul_le_mul_of_nonneg_right hMM (show (0 : ℚ) ≤ 1 / 134217728 by norm_num)
      have h4 := mul_le_mul_of_nonneg_right h
        (show (0 : ℚ) ≤ 1 - 1 / 562949953421312 by norm_num)
      linarith [herr.1]
    have hd : M - IEEE.quantum 24 (-149) M / 8 ≤ FVector.Dist V1 V2 :=
      IEEE.le_sqrt_of_sq_le 53 (-1074) _ _ hT hT0 hTT
    exact IEEE.le_round_of_near 24 (-149) M _ hM h0' hd

/-- Upper bound: when the Euclidean distance of two points is at most a
`float` `L`, the distance the engine computes, stored in a `float`, is at
most `L`. -/
theorem FVector.round_Dist_le (V1 V2 : FVector) (L : ℚ) (hL : F32.IsFloat L) (h0 : 0 ≤ L)
    (h : FVector.EuclideanDistSquared V1 V2 ≤ L * L) :
    F32.round (FVector.Dist V1 V2) ≤ L := by
  rcases eq_or_lt_of_le h0 with h0' | h0'
  · -- the two points coincide
    have hS : FVector.EuclideanDistSquared V1 V2 ≤ 0 := by
      rw [← h0'] at h
      simpa using h
    unfold FVector.EuclideanDistSquared at hS
    have hx : V2.X - V1.X = 0 := by
      have := mul_self_nonneg (V2.X - V1.X)
      have := mul_self_nonneg (V2.Y - V1.Y)
      have := mul_self_nonneg (V2.Z - V1.Z)
      exact mul_self_eq_zero.mp (by linarith)
    have hy : V2.Y - V1.Y = 0 := by
      have := mul_self_nonneg (V2.X - V1.X)
      have := mul_self_nonneg (V2.Y - V1.Y)
      have := mul_self_nonneg (V2.Z - V1.Z)
      exact mul_self_eq_zero.mp (by linarith)
    have hz : V2.Z - V1.Z = 0 := by
      have := mul_self_nonneg (V2.X - V1.X)
      have := mul_self_nonneg (V2.Y - V1.Y)
      have := mul_self_nonneg (V2.Z - V1.Z)
      exact mul_self_eq_zero.mp (by linarith)
    have hr : F64.round 0 = 0 := IEEE.round_zero 53 (-1074)
    have hd : FVector.Dist V1 V2 = 0 := by
      unfold FVector.Dist FVector.DistSquared FMath.Square FMath.Sqrt F64.add F64.mul F64.sub
      rw [hx, hy, hz, hr]
      simp only [mul_zero, add_zero, hr]
      exact IEEE.sqrt_of_nonpos 53 (-1074) 0 le_rfl
    rw [hd, ← h0']
    exact le_of_eq (IEEE.round_zero 24 (-149))
  · obtain ⟨hMmin, hql, hqu⟩ := F32.IsFloat.bounds L hL h0'
    have hT := (F32.IsFloat.near_isDouble L hL h0').2
    have hq := IEEE.quantum_pos 24 (-149) L
    have herr := FVector.DistSquared_error V1 V2
    rw [abs_le] at herr
    have hη := F64.thirteen_eta_le
    have hT0 : 0 ≤ L + IEEE.quantum 24 (-149) L / 8 := by linarith
    have hT1 : L * (1 + 1 / 134217728) ≤ L + IEEE.quantum 24 (-149) L / 8 := by linarith
    have hL1 : 0 ≤ L * (1 + 1 / 134217728) := by positivity
    have hsq : (L * (1 + 1 / 134217728)) * (L * (1 + 1 / 134217728)) ≤
        (L + IEEE.quantum 24 (-149) L / 8) * (L + IEEE.quantum 24 (-149) L / 8) :=
      mul_le_mul hT1 hT1 hL1 hT0
    have hMM : (1 / 2 ^ 149) * (1 / 2 ^ 149) ≤ L * L :=
      mul_le_mul hMmin hMmin (by positivity) h0'.le
    have hTT : FVector.DistSquared V1 V2 ≤
        (L + IEEE.quantum 24 (-149) L / 8) * (L + IEEE.quantum 24 (-149) L / 8) := by
      have hc : L * L * (1 + 1 / 562949953421312) + L * L * (1 / 134217728) ≤
          (L * (1 + 1 / 134217728)) * (L * (1 + 1 / 134217728)) := by
        have hm := mul_self_nonneg L
        nlinarith
      have h3 := mul_le_mul_of_nonneg_right hMM (show (0 : ℚ) ≤ 1 / 134217728 by norm_num)
      have h4 := mul_le_mul_of_nonneg_right h
        (show (0 : ℚ) ≤ 1 + 1 / 562949953421312 by norm_num)
      have h5 := mul_le_mul_of_nonneg_right h
        (show (0 : ℚ) ≤ 1 / 562949953421312 by norm_num)
      linarith [herr.2]
    have hd : FVector.Dist V1 V2 ≤ L + IEEE.quantum 24 (-149) L / 8 :=
      IEEE.sqrt_le_of_le_sq 53 (-1074) _ _ hT hT0 hTT
    exact IEEE.round_le_of_near 24 (-149) L _ hL h0' hd


theorem FVector.EuclideanDistSquared_nonneg (V1 V2 : FVector) :
    0 ≤ FVector.EuclideanDistSquared V1 V2 := by
  unfold FVector.EuclideanDistSquared
  exact add_nonneg (add_nonneg (mul_self_nonneg _) (mul_self_nonneg _)) (mul_self_nonneg _)

/-- The distance stored in a `float` is not negative. -/
theorem FVector.round_Dist_nonneg (V1 V2 : FVector) : 0 ≤ F32.round (FVector.Dist V1 V2) :=
  IEEE.round_nonneg 24 (-149) _ (IEEE.sqrt_nonneg 53 (-1074) _)

/-- When the Euclidean distance of two points is at least the `float` `D`, the
test `FVector.DistGE` for `D` succeeds. -/
theorem FVector.DistGE_of_euclidean (V1 V2 : FVector) (D : ℚ) (hD : F32.IsFloat D)
    (h : (D : ℝ) ≤ Real.sqrt ((FVector.EuclideanDistSquared V1 V2 : ℚ) : ℝ)) :
    FVector.DistGE V1 V2 D = true := by
  unfold FVector.DistGE
  rw [decide_eq_true_iff]
  rcases le_or_lt D 0 with hD0 | hD0
  · exact le_trans hD0 (FVector.round_Dist_nonneg V1 V2)
  · have hD' : (0 : ℝ) < (D : ℝ) := by exact_mod_cast hD0
    rw [Real.le_sqrt' hD', sq] at h
    have h' : D * D ≤ FVector.EuclideanDistSquared V1 V2 := by exact_mod_cast h
    exact FVector.le_round_Dist V1 V2 D hD hD0.le h'

/-- When the Euclidean distance of two points is at most a `float` `L`, the
distance stored in a `float` is at most `L`. -/
theorem FVector.round_Dist_le_of_euclidean (V1 V2 : FVector) (L : ℚ) (hL : F32.IsFloat L)
    (h : Real.sqrt ((FVector.EuclideanDistSquared V1 V2 : ℚ) : ℝ) ≤ (L : ℝ)) :
    F32.round (FVector.Dist V1 V2) ≤ L := by
  have hL0' : (0 : ℝ) ≤ (L : ℝ) := le_trans (Real.sqrt_nonneg _) h
  have hL0 : 0 ≤ L := by exact_mod_cast hL0'
  rw [Real.sqrt_le_left hL0', sq] at h
  have h' : FVector.EuclideanDistSquared V1 V2 ≤ L * L := by exact_mod_cast h
  exact FVector.round_Dist_le V1 V2 L hL hL0 h'

/-- When the Euclidean distance of two points is at most a `float` below `D`,
the test `FVector.DistGE` for `D` fails. -/
theorem FVector.DistGE_false_of_euclidean (V1 V2 : FVector) (D L : ℚ) (hL : F32.IsFloat L)
    (hLD : L < D)
    (h : Real.sqrt ((FVector.EuclideanDistSquared V1 V2 : ℚ) : ℝ) ≤ (L : ℝ)) :
    FVector.DistGE V1 V2 D = false := by
  unfold FVector.DistGE
  rw [decide_eq_false_iff_not, not_le]
  exact lt_of_le_of_lt (FVector.round_Dist_le_of_euclidean V1 V2 L hL h) hLD

/-- When the Euclidean distance of two points is at most a `float` below `D`,
the test `FVector.DistLT` for `D` succeeds. -/
theorem FVector.DistLT_of_euclidean (V1 V2 : FVector) (D L : ℚ) (hL : F32.IsFloat L)
    (hLD : L < D)
    (h : Real.sqrt ((FVector.EuclideanDistSquared V1 V2 : ℚ) : ℝ) ≤ (L : ℝ)) :
    FVector.DistLT V1 V2 D = true := by
  unfold FVector.DistLT
  rw [decide_eq_true_iff]
  exact lt_of_le_of_lt (FVector.round_Dist_le_of_euclidean V1 V2 L hL h) hLD

/-- When the Euclidean distance of two points is at least the `float` `D`, the
test `FVector.DistLT` for `D` fails. -/
theorem FVector.DistLT_false_of_euclidean (V1 V2 : FVector) (D : ℚ) (hD : F32.IsFloat D)
    (h : (D : ℝ) ≤ Real.sqrt ((FVector.EuclideanDistSquared V1 V2 : ℚ) : ℝ)) :
    FVector.DistLT V1 V2 D = false := by
  have hge := FVector.DistGE_of_euclidean V1 V2 D hD h
  unfold FVector.DistGE at hge
  rw [decide_eq_true_iff] at hge
  unfold FVector.DistLT
  rw [decide_eq_false_iff_not, not_lt]
  exact hge

/-- The Euclidean distance of two points on a line parallel to the X axis. -/
theorem FVector.sqrt_euclidean_axis (V1 V2 : FVector) (x : ℚ) (hX : V2.X - V1.X = x)
    (hY : V2.Y - V1.Y = 0) (hZ : V2.Z - V1.Z = 0) :
    Real.sqrt ((FVector.EuclideanDistSquared V1 V2 : ℚ) : ℝ) = ((|x| : ℚ) : ℝ) := by
  unfold FVector.EuclideanDistSquared
  rw [hX, hY, hZ]
  simp only [mul_zero, add_zero]
  push_cast
  exact Real.sqrt_mul_self_eq_abs _

/-- The distance the engine computes for two points on a line parallel to the
X axis is exact when the difference of the X coordinates and its square are
`double` values. -/
theorem FVector.Dist_axis (V1 V2 : FVector) (x : ℚ) (hX : V2.X - V1.X = x)
    (hY : V2.Y - V1.Y = 0) (hZ : V2.Z - V1.Z = 0) (hx : F64.IsDouble x)
    (hxx : F64.IsDouble (x * x)) : FVector.Dist V1 V2 = |x| := by
  have habs : F64.IsDouble |x| := by
    obtain ⟨m, z, hz, hm, hfm⟩ := hx
    refine ⟨|m|, z, hz, by rw [abs_abs]; exact hm, ?_⟩
    rw [hfm, abs_mul, abs_of_pos (show (0 : ℚ) < 2 ^ z by positivity), Int.cast_abs]
  have hsq : |x| * |x| = x * x := abs_mul_abs_self x
  unfold FVector.Dist FVector.DistSquared FMath.Square FMath.Sqrt F64.add F64.mul F64.sub
  rw [hX, hY, hZ, F64.round_double_zero, F64.round_of_isDouble x hx]
  simp only [mul_zero, add_zero, F64.round_double_zero]
  rw [F64.round_of_isDouble _ hxx, F64.round_of_isDouble _ hxx,
    F64.round_of_isDouble _ hxx, ← hsq]
  exact F64.sqrt_double_mul_self _ habs (abs_nonneg x)

/-- The distance of a point from itself is computed as 0. -/
theorem FVector.round_Dist_self (V : FVector) : F32.round (FVector.Dist V V) = 0 := by
  rw [FVector.Dist_axis V V 0 (sub_self _) (sub_self _) (sub_self _)
    (IEEE.isRepr_zero 53 (-1074)) (by rw [mul_zero]; exact IEEE.isRepr_zero 53 (-1074)),
    abs_zero]
  exact F32.round_zero_eq

/-- The `float` nearest to `1000 - 2 ^ (-16)` is 1000. -/
theorem F32.round_below_1000 : F32.round (65535999 / 65536) = 1000 := by
  have h := IEEE.round_eq_of_abs_sub_lt 24 (-149) (65535999 / 65536) 9 (-14) 16384000
    (by norm_num [abs_of_pos]) (by norm_num [abs_of_pos]) (by norm_num) (by norm_num [abs_lt])
  unfold F32.round
  rw [h]
  norm_num

/-- The `float` nearest to `100 - 2 ^ (-19)` is 100. -/
theorem F32.round_below_100 : F32.round (52428799 / 524288) = 100 := by
  have h := IEEE.round_eq_of_abs_sub_lt 24 (-149) (52428799 / 524288) 6 (-17) 13107200
    (by norm_num [abs_of_pos]) (by norm_num [abs_of_pos]) (by norm_num) (by norm_num [abs_lt])
  unfold F32.round
  rw [h]
  norm_num

theorem F32.isFloat_ofNat (n : ℕ) (h : n < 2 ^ 24) : F32.IsFloat (n : ℚ) := by
  have := F32.isFloat_intCast (n : ℤ) (by
    rw [abs_of_nonneg (Int.natCast_nonneg n)]
    exact_mod_cast h)
  exact_mod_cast this

/-- A tick of a boomerang with a valid owner in phase Outgoing for which the
distance test succeeds. -/
theorem ANeonProjectile.Tick_outgoing_switch (ActorLocationOf : Nat → FVector)
    (p : ANeonProjectile) (OwnerActor : Nat) (hb : p.bIsBoomerang = true)
    (ho : p.BoomerangOwner = some OwnerActor)
    (hp : p.BoomerangPhase = EProjectilePhase.Outgoing)
    (hd : FVector.DistGE p.BoomerangStartLocation p.ActorLocation p.MaxTravelDistance = true) :
    ANeonProjectile.Tick ActorLocationOf p =
      { p with
        BoomerangPhase := EProjectilePhase.Returning
        HitActorsThisPhase := []
        ProjectileMovement := p.ProjectileMovement.map (fun m => m.EnableHoming OwnerActor) } := by
  cases hpm : p.ProjectileMovement <;>
    simp [ANeonProjectile.Tick, hb, ho, hp, hd, hpm]

/-- A tick of a boomerang with a valid owner in phase Outgoing for which the
distance test fails. -/
theorem ANeonProjectile.Tick_outgoing_stay (ActorLocationOf : Nat → FVector)
    (p : ANeonProjectile) (OwnerActor : Nat) (hb : p.bIsBoomerang = true)
    (ho : p.BoomerangOwner = some OwnerActor)
    (hp : p.BoomerangPhase = EProjectilePhase.Outgoing)
    (hd : FVector.DistGE p.BoomerangStartLocation p.ActorLocation p.MaxTravelDistance = false) :
    ANeonProjectile.Tick ActorLocationOf p = p := by
  simp [ANeonProjectile.Tick, hb, ho, hp, hd]

/-- A tick of a boomerang with a valid owner in phase Returning, by the
outcome of the distance test. -/
theorem ANeonProjectile.Tick_returning_eq (ActorLocationOf : Nat → FVector)
    (p : ANeonProjectile) (OwnerActor : Nat) (hb : p.bIsBoomerang = true)
    (ho : p.BoomerangOwner = some OwnerActor)
    (hp : p.BoomerangPhase = EProjectilePhase.Returning) :
    ANeonProjectile.Tick ActorLocationOf p =
      if FVector.DistLT p.ActorLocation (ActorLocationOf OwnerActor) 100 then p.Destroy
      else p := by
  simp [ANeonProjectile.Tick, hb, ho, hp]

/-- Counterexample to C9 as stated: a boomerang thrown from the origin with a
maximum of 1000 is at (999.9999847412109375, 0, 0), at a Euclidean distance
below 1000.  The distance is computed as that value, the local `float`
variable `DistanceTraveled` receives the nearest `float`, which is 1000, and
the tick switches the phase to Returning and empties the hit set. -/
theorem tick_outgoing_switches_below_max :
    (boomerangAt { X := 0, Y := 0, Z := 0 } { X := 65535999 / 65536, Y := 0, Z := 0 } 1 1000
        EProjectilePhase.Outgoing [7]).bIsBoomerang = true ∧
    (boomerangAt { X := 0, Y := 0, Z := 0 } { X := 65535999 / 65536, Y := 0, Z := 0 } 1 1000
        EProjectilePhase.Outgoing [7]).BoomerangOwner = some 1 ∧
    (boomerangAt { X := 0, Y := 0, Z := 0 } { X := 65535999 / 65536, Y := 0, Z := 0 } 1 1000
        EProjectilePhase.Outgoing [7]).BoomerangPhase = EProjectilePhase.Outgoing ∧
    Real.sqrt ((FVector.EuclideanDistSquared { X := 0, Y := 0, Z := 0 }
        { X := 65535999 / 65536, Y := 0, Z := 0 } : ℚ) : ℝ) < 1000 ∧
    FVector.Dist { X := 0, Y := 0, Z := 0 } { X := 65535999 / 65536, Y := 0, Z := 0 } =
      65535999 / 65536 ∧
    F32.round (FVector.Dist { X := 0, Y := 0, Z := 0 }
      { X := 65535999 / 65536, Y := 0, Z := 0 }) = 1000 ∧
    (ANeonProjectile.Tick (fun _ => { X := 0, Y := 0, Z := 0 })
      (boomerangAt { X := 0, Y := 0, Z := 0 } { X := 65535999 / 65536, Y := 0, Z := 0 } 1 1000
        EProjectilePhase.Outgoing [7])).BoomerangPhase = EProjectilePhase.Returning ∧
    (ANeonProjectile.Tick (fun _ => { X := 0, Y := 0, Z := 0 })
      (boomerangAt { X := 0, Y := 0, Z := 0 } { X := 65535999 / 65536, Y := 0, Z := 0 } 1 1000
        EProjectilePhase.Outgoing [7])).HitActorsThisPhase = [] ∧
    ANeonProjectile.Tick (fun _ => { X := 0, Y := 0, Z := 0 })
      (boomerangAt { X := 0, Y := 0, Z := 0 } { X := 65535999 / 65536, Y := 0, Z := 0 } 1 1000
        EProjectilePhase.Outgoing [7]) ≠
      boomerangAt { X := 0, Y := 0, Z := 0 } { X := 65535999 / 65536, Y := 0, Z := 0 } 1 1000
        EProjectilePhase.Outgoing [7] := by
  have hdist : FVector.Dist { X := 0, Y := 0, Z := 0 }
      { X := 65535999 / 65536, Y := 0, Z := 0 } = 65535999 / 65536 := by
    rw [FVector.Dist_axis { X := 0, Y := 0, Z := 0 } { X := 65535999 / 65536, Y := 0, Z := 0 }
      (65535999 / 65536) (by norm_num) (by norm_num) (by norm_num)
      ⟨65535999, -16, by norm_num, by norm_num, by norm_num⟩
      ⟨65535999 * 65535999, -32, by norm_num, by norm_num, by norm_num⟩]
    norm_num [abs_of_pos]
  have hround : F32.round (FVector.Dist { X := 0, Y := 0, Z := 0 }
      { X := 65535999 / 65536, Y := 0, Z := 0 }) = 1000 := by
    rw [hdist]
    exact F32.round_below_1000
  have hd : FVector.DistGE
      (boomerangAt { X := 0, Y := 0, Z := 0 } { X := 65535999 / 65536, Y := 0, Z := 0 } 1 1000
        EProjectilePhase.Outgoing [7]).BoomerangStartLocation
      (boomerangAt { X := 0, Y := 0, Z := 0 } { X := 65535999 / 65536, Y := 0, Z := 0 } 1 1000
        EProjectilePhase.Outgoing [7]).ActorLocation
      (boomerangAt { X := 0, Y := 0, Z := 0 } { X := 65535999 / 65536, Y := 0, Z := 0 } 1 1000
        EProjectilePhase.Outgoing [7]).MaxTravelDistance = true := by
    show FVector.DistGE { X := 0, Y := 0, Z := 0 } { X := 65535999 / 65536, Y := 0, Z := 0 }
      1000 = true
    unfold FVector.DistGE
    rw [hround]
    decide
  have hT := ANeonProjectile.Tick_outgoing_switch (fun _ => { X := 0, Y := 0, Z := 0 })
    (boomerangAt { X := 0, Y := 0, Z := 0 } { X := 65535999 / 65536, Y := 0, Z := 0 } 1 1000
      EProjectilePhase.Outgoing [7]) 1 rfl rfl rfl hd
  refine ⟨rfl, rfl, rfl, ?_, hdist, hround, ?_, ?_, ?_⟩
  · rw [FVector.sqrt_euclidean_axis { X := 0, Y := 0, Z := 0 }
      { X := 65535999 / 65536, Y := 0, Z := 0 } (65535999 / 65536)
      (by norm_num) (by norm_num) (by norm_num)]
    norm_num [abs_of_pos]
  · rw [hT]
  · rw [hT]
  · rw [hT]
    intro h
    have h2 := congrArg ANeonProjectile.BoomerangPhase h
    exact absurd h2 (by decide)

/-- C9 (amended): for a boomerang with a valid owner in phase Outgoing, a tick
switches the phase to Returning exactly when the distance from the start
location to the current location, as the engine computes it in `double` and
the source stores it in a `float`, is at least `MaxTravelDistance`.  On the
switch the hit set is emptied and the movement component gets homing toward
the owner; nothing else changes.  Otherwise the state is unchanged.  In terms
of the Euclidean distance (`MaxTravelDistance` being a `float`): the switch
happens whenever the Euclidean distance is at least `MaxTravelDistance`, and
the state is unchanged whenever the Euclidean distance is at most some `float`
below `MaxTravelDistance`.  At the boundary (origin (0,0,0), maximum 1000,
position (1000,0,0)) the switch happens and a hit recorded while Outgoing is
cleared. -/
theorem tick_outgoing (ActorLocationOf : Nat → FVector) (p : ANeonProjectile)
    (OwnerActor : Nat) :
    (p.bIsBoomerang = true → p.BoomerangOwner = some OwnerActor →
      p.BoomerangPhase = EProjectilePhase.Outgoing →
      (((ANeonProjectile.Tick ActorLocationOf p).BoomerangPhase = EProjectilePhase.Returning ↔
          p.MaxTravelDistance ≤
            F32.round (FVector.Dist p.BoomerangStartLocation p.ActorLocation)) ∧
        (p.MaxTravelDistance ≤
            F32.round (FVector.Dist p.BoomerangStartLocation p.ActorLocation) →
          (ANeonProjectile.Tick ActorLocationOf p).HitActorsThisPhase = [] ∧
          (∀ m, p.ProjectileMovement = some m →
            ∃ m1, (ANeonProjectile.Tick ActorLocationOf p).ProjectileMovement = some m1 ∧
              m1.bIsHomingProjectile = true ∧ m1.HomingTargetComponent = some OwnerActor ∧
              m1.HomingAccelerationMagnitude = 8000) ∧
          ANeonProjectile.Tick ActorLocationOf p =
            { p with
              BoomerangPhase := EProjectilePhase.Returning
              HitActorsThisPhase := []
              ProjectileMovement :=
                p.ProjectileMovement.map (fun m => m.EnableHoming OwnerActor) }) ∧
        (F32.round (FVector.Dist p.BoomerangStartLocation p.ActorLocation)
            < p.MaxTravelDistance →
          ANeonProjectile.Tick ActorLocationOf p = p) ∧
        (F32.IsFloat p.MaxTravelDistance →
          (p.MaxTravelDistance : ℝ) ≤ Real.sqrt
            ((FVector.EuclideanDistSquared p.BoomerangStartLocation p.ActorLocation : ℚ) : ℝ) →
          (ANeonProjectile.Tick ActorLocationOf p).BoomerangPhase =
            EProjectilePhase.Returning) ∧
        (∀ L : ℚ, F32.IsFloat L → L < p.MaxTravelDistance →
          Real.sqrt
            ((FVector.EuclideanDistSquared p.BoomerangStartLocation p.ActorLocation : ℚ) : ℝ)
              ≤ (L : ℝ) →
          ANeonProjectile.Tick ActorLocationOf p = p))) ∧
    ((ANeonProjectile.Tick ActorLocationOf
        (boomerangAt { X := 0, Y := 0, Z := 0 } { X := 1000, Y := 0, Z := 0 } 1 1000
          EProjectilePhase.Outgoing [7])).BoomerangPhase = EProjectilePhase.Returning ∧
      (ANeonProjectile.Tick ActorLocationOf
        (boomerangAt { X := 0, Y := 0, Z := 0 } { X := 1000, Y := 0, Z := 0 } 1 1000
          EProjectilePhase.Outgoing [7])).HitActorsThisPhase = [] ∧
      ((ANeonProjectile.Tick ActorLocationOf
        (boomerangAt { X := 0, Y := 0, Z := 0 } { X := 1000, Y := 0, Z := 0 } 1 1000
          EProjectilePhase.Outgoing [7])).ProjectileMovement.map
            (fun m => (m.bIsHomingProjectile, m.HomingTargetComponent))) =
        some (true, some 1)) := by
  refine ⟨fun hb ho hp => ?_, ?_⟩
  · have hswitch := ANeonProjectile.Tick_outgoing_switch ActorLocationOf p OwnerActor hb ho hp
    have hstay := ANeonProjectile.Tick_outgoing_stay ActorLocationOf p OwnerActor hb ho hp
    have hge_iff : FVector.DistGE p.BoomerangStartLocation p.ActorLocation
        p.MaxTravelDistance = true ↔
        p.MaxTravelDistance ≤
          F32.round (FVector.Dist p.BoomerangStartLocation p.ActorLocation) := by
      unfold FVector.DistGE
      exact decide_eq_true_iff
    refine ⟨?_, fun hge => ?_, fun hlt => ?_, fun hM hE => ?_, fun L hL hLM hE => ?_⟩
    · by_cases hd : FVector.DistGE p.BoomerangStartLocation p.ActorLocation
          p.MaxTravelDistance = true
      · rw [hswitch hd]
        exact ⟨fun _ => hge_iff.mp hd, fun _ => rfl⟩
      · have hd' : FVector.DistGE p.BoomerangStartLocation p.ActorLocation
            p.MaxTravelDistance = false := by simpa using hd
        rw [hstay hd', hp]
        exact ⟨fun h => (by cases h), fun hge => absurd (hge_iff.mpr hge) hd⟩
    · have hT := hswitch (hge_iff.mpr hge)
      refine ⟨by rw [hT], fun m hm => ?_, hT⟩
      refine ⟨m.EnableHoming OwnerActor, ?_, rfl, rfl, rfl⟩
      rw [hT]
      simp [hm]
    · apply hstay
      rw [← Bool.not_eq_true, hge_iff]
      exact not_le.mpr hlt
    · rw [hswitch (FVector.DistGE_of_euclidean _ _ _ hM hE)]
    · exact hstay (FVector.DistGE_false_of_euclidean _ _ _ L hL hLM hE)
  · have hd : FVector.DistGE
        (boomerangAt { X := 0, Y := 0, Z := 0 } { X := 1000, Y := 0, Z := 0 } 1 1000
          EProjectilePhase.Outgoing [7]).BoomerangStartLocation
        (boomerangAt { X := 0, Y := 0, Z := 0 } { X := 1000, Y := 0, Z := 0 } 1 1000
          EProjectilePhase.Outgoing [7]).ActorLocation
        (boomerangAt { X := 0, Y := 0, Z := 0 } { X := 1000, Y := 0, Z := 0 } 1 1000
          EProjectilePhase.Outgoing [7]).MaxTravelDistance = true := by
      show FVector.DistGE { X := 0, Y := 0, Z := 0 } { X := 1000, Y := 0, Z := 0 } 1000 = true
      apply FVector.DistGE_of_euclidean _ _ _
        (by exact_mod_cast F32.isFloat_ofNat 1000 (by norm_num))
      rw [FVector.sqrt_euclidean_axis { X := 0, Y := 0, Z := 0 }
        { X := 1000, Y := 0, Z := 0 } 1000 (by norm_num) (by norm_num) (by norm_num)]
      norm_num [abs_of_pos]
    rw [ANeonProjectile.Tick_outgoing_switch ActorLocationOf _ 1 rfl rfl rfl hd]
    exact ⟨rfl, rfl, rfl⟩

/-- Witness for C9 (amended): a boomerang 500 units from its origin with a
maximum of 1000 is left unchanged by a tick; its Euclidean distance is at most
the `float` 500, which is below the maximum. -/
theorem tick_outgoing_witness :
    ((boomerangAt { X := 0, Y := 0, Z := 0 } { X := 500, Y := 0, Z := 0 } 1 1000
        EProjectilePhase.Outgoing [7]).bIsBoomerang = true ∧
      (boomerangAt { X := 0, Y := 0, Z := 0 } { X := 500, Y := 0, Z := 0 } 1 1000
        EProjectilePhase.Outgoing [7]).BoomerangOwner = some 1 ∧
      (boomerangAt { X := 0, Y := 0, Z := 0 } { X := 500, Y := 0, Z := 0 } 1 1000
        EProjectilePhase.Outgoing [7]).BoomerangPhase = EProjectilePhase.Outgoing) ∧
    ANeonProjectile.Tick (fun _ => { X := 0, Y := 0, Z := 0 })
        (boomerangAt { X := 0, Y := 0, Z := 0 } { X := 500, Y := 0, Z := 0 } 1 1000
          EProjectilePhase.Outgoing [7]) =
      boomerangAt { X := 0, Y := 0, Z := 0 } { X := 500, Y := 0, Z := 0 } 1 1000
        EProjectilePhase.Outgoing [7] :=
  ⟨⟨rfl, rfl, rfl⟩,
   ((tick_outgoing (fun _ => { X := 0, Y := 0, Z := 0 })
      (boomerangAt { X := 0, Y := 0, Z := 0 } { X := 500, Y := 0, Z := 0 } 1 1000
        EProjectilePhase.Outgoing [7]) 1).1 rfl rfl rfl).2.2.2.2 500
     (by exact_mod_cast F32.isFloat_ofNat 500 (by norm_num))
     (by norm_num [boomerangAt, ANeonProjectile.InitializeBoomerang, ANeonProjectile.ctor])
     (by
       have h := FVector.sqrt_euclidean_axis { X := 0, Y := 0, Z := 0 }
         { X := 500, Y := 0, Z := 0 } 500 (by norm_num) (by norm_num) (by norm_num)
       have e : (boomerangAt { X := 0, Y := 0, Z := 0 } { X := 500, Y := 0, Z := 0 } 1 1000
           EProjectilePhase.Outgoing [7]).BoomerangStartLocation = { X := 0, Y := 0, Z := 0 } :=
         rfl
       have e2 : (boomerangAt { X := 0, Y := 0, Z := 0 } { X := 500, Y := 0, Z := 0 } 1 1000
           EProjectilePhase.Outgoing [7]).ActorLocation = { X := 500, Y := 0, Z := 0 } := rfl
       rw [e, e2, h]
       norm_num [abs_of_pos])⟩

/-- Counterexample to C10 as stated: a returning boomerang whose owner stands
at the origin is at (99.9999980926513671875, 0, 0), at a Euclidean distance
strictly below 100.  The distance is computed as that value, the local `float`
variable `DistanceToOwner` receives the nearest `float`, which is 100, the
test `< 100.f` fails and the tick does not destroy the projectile. -/
theorem tick_returning_survives_below_100 :
    (boomerangAt { X := 0, Y := 0, Z := 0 } { X := 52428799 / 524288, Y := 0, Z := 0 } 1 1000
        EProjectilePhase.Returning [7]).bIsBoomerang = true ∧
    (boomerangAt { X := 0, Y := 0, Z := 0 } { X := 52428799 / 524288, Y := 0, Z := 0 } 1 1000
        EProjectilePhase.Returning [7]).BoomerangOwner = some 1 ∧
    (boomerangAt { X := 0, Y := 0, Z := 0 } { X := 52428799 / 524288, Y := 0, Z := 0 } 1 1000
        EProjectilePhase.Returning [7]).BoomerangPhase = EProjectilePhase.Returning ∧
    (boomerangAt { X := 0, Y := 0, Z := 0 } { X := 52428799 / 524288, Y := 0, Z := 0 } 1 1000
        EProjectilePhase.Returning [7]).bActorIsBeingDestroyed = false ∧
    Real.sqrt ((FVector.EuclideanDistSquared { X := 52428799 / 524288, Y := 0, Z := 0 }
        { X := 0, Y := 0, Z := 0 } : ℚ) : ℝ) < 100 ∧
    FVector.Dist { X := 52428799 / 524288, Y := 0, Z := 0 } { X := 0, Y := 0, Z := 0 } =
      52428799 / 524288 ∧
    F32.round (FVector.Dist { X := 52428799 / 524288, Y := 0, Z := 0 }
      { X := 0, Y := 0, Z := 0 }) = 100 ∧
    ANeonProjectile.Tick (fun _ => { X := 0, Y := 0, Z := 0 })
      (boomerangAt { X := 0, Y := 0, Z := 0 } { X := 52428799 / 524288, Y := 0, Z := 0 } 1 1000
        EProjectilePhase.Returning [7]) =
      boomerangAt { X := 0, Y := 0, Z := 0 } { X := 52428799 / 524288, Y := 0, Z := 0 } 1 1000
        EProjectilePhase.Returning [7] ∧
    (ANeonProjectile.Tick (fun _ => { X := 0, Y := 0, Z := 0 })
      (boomerangAt { X := 0, Y := 0, Z := 0 } { X := 52428799 / 524288, Y := 0, Z := 0 } 1 1000
        EProjectilePhase.Returning [7])).bActorIsBeingDestroyed = false := by
  have hdist : FVector.Dist { X := 52428799 / 524288, Y := 0, Z := 0 }
      { X := 0, Y := 0, Z := 0 } = 52428799 / 524288 := by
    rw [FVector.Dist_axis { X := 52428799 / 524288, Y := 0, Z := 0 } { X := 0, Y := 0, Z := 0 }
      (-(52428799 / 524288)) (by norm_num) (by norm_num) (by norm_num)
      ⟨-52428799, -19, by norm_num, by norm_num, by norm_num⟩
      ⟨52428799 * 52428799, -38, by norm_num, by norm_num, by norm_num⟩]
    norm_num [abs_of_pos]
  have hround : F32.round (FVector.Dist { X := 52428799 / 524288, Y := 0, Z := 0 }
      { X := 0, Y := 0, Z := 0 }) = 100 := by
    rw [hdist]
    exact F32.round_below_100
  have hd : FVector.DistLT { X := 52428799 / 524288, Y := 0, Z := 0 }
      { X := 0, Y := 0, Z := 0 } 100 = false := by
    unfold FVector.DistLT
    rw [hround]
    decide
  have hT : ANeonProjectile.Tick (fun _ => { X := 0, Y := 0, Z := 0 })
      (boomerangAt { X := 0, Y := 0, Z := 0 } { X := 52428799 / 524288, Y := 0, Z := 0 } 1 1000
        EProjectilePhase.Returning [7]) =
      boomerangAt { X := 0, Y := 0, Z := 0 } { X := 52428799 / 524288, Y := 0, Z := 0 } 1 1000
        EProjectilePhase.Returning [7] := by
    rw [ANeonProjectile.Tick_returning_eq _ _ 1 rfl rfl rfl]
    have e : (boomerangAt { X := 0, Y := 0, Z := 0 }
        { X := 52428799 / 524288, Y := 0, Z := 0 } 1 1000
        EProjectilePhase.Returning [7]).ActorLocation =
        { X := 52428799 / 524288, Y := 0, Z := 0 } := rfl
    rw [e, hd]
    rfl
  refine ⟨rfl, rfl, rfl, rfl, ?_, hdist, hround, hT, ?_⟩
  · rw [FVector.sqrt_euclidean_axis { X := 52428799 / 524288, Y := 0, Z := 0 }
      { X := 0, Y := 0, Z := 0 } (-(52428799 / 524288))
      (by norm_num) (by norm_num) (by norm_num)]
    norm_num [abs_of_pos]
  · rw [hT]
    rfl

/-- C10 (amended): for a boomerang with a valid owner in phase Returning, a
tick destroys the projectile exactly when the distance from its location to
the owner's location, as the engine computes it in `double` and the source
stores it in a `float`, is strictly below 100; otherwise the state is
unchanged.  The phase and the hit set never change.  In terms of the Euclidean
distance: the projectile is not destroyed whenever the Euclidean distance is
at least 100, and it is destroyed whenever the Euclidean distance is at most
some `float` below 100 (the largest one is 100 - 2 ^ (-17)).  With the owner
at (0,0,0) the projectile is destroyed at (50,0,0), and is not destroyed at
(150,0,0) nor at distance exactly 100. -/
theorem tick_returning (ActorLocationOf : Nat → FVector) (p : ANeonProjectile)
    (OwnerActor : Nat) :
    (p.bIsBoomerang = true → p.BoomerangOwner = some OwnerActor →
      p.BoomerangPhase = EProjectilePhase.Returning →
      ((F32.round (FVector.Dist p.ActorLocation (ActorLocationOf OwnerActor)) < 100 →
          ANeonProjectile.Tick ActorLocationOf p = p.Destroy) ∧
        (100 ≤ F32.round (FVector.Dist p.ActorLocation (ActorLocationOf OwnerActor)) →
          ANeonProjectile.Tick ActorLocationOf p = p) ∧
        (p.bActorIsBeingDestroyed = false →
          ((ANeonProjectile.Tick ActorLocationOf p).bActorIsBeingDestroyed = true ↔
            F32.round (FVector.Dist p.ActorLocation (ActorLocationOf OwnerActor)) < 100)) ∧
        (ANeonProjectile.Tick ActorLocationOf p).BoomerangPhase = EProjectilePhase.Returning ∧
        (ANeonProjectile.Tick ActorLocationOf p).HitActorsThisPhase = p.HitActorsThisPhase ∧
        ((100 : ℝ) ≤ Real.sqrt
            ((FVector.EuclideanDistSquared p.ActorLocation (ActorLocationOf OwnerActor) : ℚ)
              : ℝ) →
          ANeonProjectile.Tick ActorLocationOf p = p) ∧
        (∀ L : ℚ, F32.IsFloat L → L < 100 →
          Real.sqrt
            ((FVector.EuclideanDistSquared p.ActorLocation (ActorLocationOf OwnerActor) : ℚ)
              : ℝ) ≤ (L : ℝ) →
          ANeonProjectile.Tick ActorLocationOf p = p.Destroy) ∧
        (Real.sqrt
            ((FVector.EuclideanDistSquared p.ActorLocation (ActorLocationOf OwnerActor) : ℚ)
              : ℝ) ≤ 100 - 1 / 131072 →
          ANeonProjectile.Tick ActorLocationOf p = p.Destroy))) ∧
    ((ANeonProjectile.Tick (fun _ => { X := 0, Y := 0, Z := 0 })
        (boomerangAt { X := 0, Y := 0, Z := 0 } { X := 50, Y := 0, Z := 0 } 1 1000
          EProjectilePhase.Returning [7])).bActorIsBeingDestroyed = true ∧
      (ANeonProjectile.Tick (fun _ => { X := 0, Y := 0, Z := 0 })
        (boomerangAt { X := 0, Y := 0, Z := 0 } { X := 150, Y := 0, Z := 0 } 1 1000
          EProjectilePhase.Returning [7])).bActorIsBeingDestroyed = false ∧
      (ANeonProjectile.Tick (fun _ => { X := 0, Y := 0, Z := 0 })
        (boomerangAt { X := 0, Y := 0, Z := 0 } { X := 100, Y := 0, Z := 0 } 1 1000
          EProjectilePhase.Returning [7])).bActorIsBeingDestroyed = false ∧
      (ANeonProjectile.Tick (fun _ => { X := 0, Y := 0, Z := 0 })
        (boomerangAt { X := 0, Y := 0, Z := 0 } { X := 60, Y := 80, Z := 0 } 1 1000
          EProjectilePhase.Returning [7])).bActorIsBeingDestroyed = false) := by
  have h100 : F32.IsFloat 100 := by exact_mod_cast F32.isFloat_ofNat 100 (by norm_num)
  have key : ∀ (q : ANeonProjectile) (A : Nat → FVector) (o : Nat),
      q.bIsBoomerang = true → q.BoomerangOwner = some o →
      q.BoomerangPhase = EProjectilePhase.Returning →
      ((F32.round (FVector.Dist q.ActorLocation (A o)) < 100 →
          ANeonProjectile.Tick A q = q.Destroy) ∧
        (100 ≤ F32.round (FVector.Dist q.ActorLocation (A o)) →
          ANeonProjectile.Tick A q = q) ∧
        ((100 : ℝ) ≤ Real.sqrt
            ((FVector.EuclideanDistSquared q.ActorLocation (A o) : ℚ) : ℝ) →
          ANeonProjectile.Tick A q = q) ∧
        (∀ L : ℚ, F32.IsFloat L → L < 100 →
          Real.sqrt ((FVector.EuclideanDistSquared q.ActorLocation (A o) : ℚ) : ℝ) ≤ (L : ℝ) →
          ANeonProjectile.Tick A q = q.Destroy)) := by
    intro q A o hb ho hp
    have hT := ANeonProjectile.Tick_returning_eq A q o hb ho hp
    have hlt_iff : FVector.DistLT q.ActorLocation (A o) 100 = true ↔
        F32.round (FVector.Dist q.ActorLocation (A o)) < 100 := by
      unfold FVector.DistLT
      exact decide_eq_true_iff
    refine ⟨fun hlt => ?_, fun hge => ?_, fun hE => ?_, fun L hL hL100 hE => ?_⟩
    · rw [hT, if_pos (hlt_iff.mpr hlt)]
    · rw [hT, if_neg (fun h => absurd (hlt_iff.mp h) (not_lt.mpr hge))]
    · have hE' : ((100 : ℚ) : ℝ) ≤ Real.sqrt
          ((FVector.EuclideanDistSquared q.ActorLocation (A o) : ℚ) : ℝ) := by
        simpa using hE
      rw [hT, FVector.DistLT_false_of_euclidean _ _ 100 h100 hE']
      rfl
    · rw [hT, FVector.DistLT_of_euclidean _ _ 100 L hL hL100 hE]
      rfl
  refine ⟨fun hb ho hp => ?_, ?_⟩
  · obtain ⟨k1, k2, k3, k4⟩ := key p ActorLocationOf OwnerActor hb ho hp
    refine ⟨k1, k2, fun hlive => ?_, ?_, ?_, k3, k4, fun hE => ?_⟩
    · rcases lt_or_le (F32.round (FVector.Dist p.ActorLocation (ActorLocationOf OwnerActor)))
          100 with hlt | hge
      · rw [k1 hlt]
        exact ⟨fun _ => hlt, fun _ => rfl⟩
      · rw [k2 hge, hlive]
        exact ⟨fun h => (by cases h), fun hlt => absurd hlt (not_lt.mpr hge)⟩
    · rcases lt_or_le (F32.round (FVector.Dist p.ActorLocation (ActorLocationOf OwnerActor)))
          100 with hlt | hge
      · rw [k1 hlt]
        exact hp
      · rw [k2 hge]
        exact hp
    · rcases lt_or_le (F32.round (FVector.Dist p.ActorLocation (ActorLocationOf OwnerActor)))
          100 with hlt | hge
      · rw [k1 hlt]
        rfl
      · rw [k2 hge]
    · refine k4 (13107199 / 131072) ⟨13107199, -17, by norm_num, by norm_num, by norm_num⟩
        (by norm_num) ?_
      have e : (((13107199 / 131072 : ℚ)) : ℝ) = 100 - 1 / 131072 := by norm_num
      rw [e]
      exact hE
  · refine ⟨?_, ?_, ?_, ?_⟩
    · have h := (key (boomerangAt { X := 0, Y := 0, Z := 0 } { X := 50, Y := 0, Z := 0 } 1 1000
          EProjectilePhase.Returning [7]) (fun _ => { X := 0, Y := 0, Z := 0 }) 1
          rfl rfl rfl).2.2.2 50 (by exact_mod_cast F32.isFloat_ofNat 50 (by norm_num))
          (by norm_num) (by
            have e : (boomerangAt { X := 0, Y := 0, Z := 0 } { X := 50, Y := 0, Z := 0 } 1 1000
                EProjectilePhase.Returning [7]).ActorLocation = { X := 50, Y := 0, Z := 0 } :=
              rfl
            rw [e, FVector.sqrt_euclidean_axis { X := 50, Y := 0, Z := 0 }
              { X := 0, Y := 0, Z := 0 } (-50) (by norm_num) (by norm_num) (by norm_num)]
            norm_num [abs_of_neg])
      rw [h]
      rfl
    · have h := (key (boomerangAt { X := 0, Y := 0, Z := 0 } { X := 150, Y := 0, Z := 0 } 1 1000
          EProjectilePhase.Returning [7]) (fun _ => { X := 0, Y := 0, Z := 0 }) 1
          rfl rfl rfl).2.2.1 (by
            have e : (boomerangAt { X := 0, Y := 0, Z := 0 } { X := 150, Y := 0, Z := 0 } 1 1000
                EProjectilePhase.Returning [7]).ActorLocation = { X := 150, Y := 0, Z := 0 } :=
              rfl
            rw [e, FVector.sqrt_euclidean_axis { X := 150, Y := 0, Z := 0 }
              { X := 0, Y := 0, Z := 0 } (-150) (by norm_num) (by norm_num) (by norm_num)]
            norm_num [abs_of_neg])
      rw [h]
      rfl
    · have h := (key (boomerangAt { X := 0, Y := 0, Z := 0 } { X := 100, Y := 0, Z := 0 } 1 1000
          EProjectilePhase.Returning [7]) (fun _ => { X := 0, Y := 0, Z := 0 }) 1
          rfl rfl rfl).2.2.1 (by
            have e : (boomerangAt { X := 0, Y := 0, Z := 0 } { X := 100, Y := 0, Z := 0 } 1 1000
                EProjectilePhase.Returning [7]).ActorLocation = { X := 100, Y := 0, Z := 0 } :=
              rfl
            rw [e, FVector.sqrt_euclidean_axis { X := 100, Y := 0, Z := 0 }
              { X := 0, Y := 0, Z := 0 } (-100) (by norm_num) (by norm_num) (by norm_num)]
            norm_num [abs_of_neg])
      rw [h]
      rfl
    · have h := (key (boomerangAt { X := 0, Y := 0, Z := 0 } { X := 60, Y := 80, Z := 0 } 1 1000
          EProjectilePhase.Returning [7]) (fun _ => { X := 0, Y := 0, Z := 0 }) 1
          rfl rfl rfl).2.2.1 (by
            have e : (boomerangAt { X := 0, Y := 0, Z := 0 } { X := 60, Y := 80, Z := 0 } 1 1000
                EProjectilePhase.Returning [7]).ActorLocation = { X := 60, Y := 80, Z := 0 } :=
              rfl
            rw [e]
            have e2 : ((FVector.EuclideanDistSquared { X := 60, Y := 80, Z := 0 }
                { X := 0, Y := 0, Z := 0 } : ℚ) : ℝ) = (100 : ℝ) * 100 := by
              norm_num [FVector.EuclideanDistSquared]
            rw [e2, Real.sqrt_mul_self (by norm_num)])
      rw [h]
      rfl

/-- Witness for C10 (amended): a returning boomerang 50 units from its owner is
destroyed by a tick; the `float`-stored distance is below 100 because the
Euclidean distance is at most the `float` 50. -/
theorem tick_returning_witness :
    ((boomerangAt { X := 0, Y := 0, Z := 0 } { X := 50, Y := 0, Z := 0 } 1 1000
        EProjectilePhase.Returning [7]).bIsBoomerang = true ∧
      (boomerangAt { X := 0, Y := 0, Z := 0 } { X := 50, Y := 0, Z := 0 } 1 1000
        EProjectilePhase.Returning [7]).BoomerangOwner = some 1 ∧
      (boomerangAt { X := 0, Y := 0, Z := 0 } { X := 50, Y := 0, Z := 0 } 1 1000
        EProjectilePhase.Returning [7]).BoomerangPhase = EProjectilePhase.Returning) ∧
    ANeonProjectile.Tick (fun _ => { X := 0, Y := 0, Z := 0 })
        (boomerangAt { X := 0, Y := 0, Z := 0 } { X := 50, Y := 0, Z := 0 } 1 1000
          EProjectilePhase.Returning [7]) =
      (boomerangAt { X := 0, Y := 0, Z := 0 } { X := 50, Y := 0, Z := 0 } 1 1000
        EProjectilePhase.Returning [7]).Destroy :=
  ⟨⟨rfl, rfl, rfl⟩,
   ((tick_returning (fun _ => { X := 0, Y := 0, Z := 0 })
      (boomerangAt { X := 0, Y := 0, Z := 0 } { X := 50, Y := 0, Z := 0 } 1 1000
        EProjectilePhase.Returning [7]) 1).1 rfl rfl rfl).2.2.2.2.2.2.1 50
     (by exact_mod_cast F32.isFloat_ofNat 50 (by norm_num)) (by norm_num)
     (by
       have e : (boomerangAt { X := 0, Y := 0, Z := 0 } { X := 50, Y := 0, Z := 0 } 1 1000
           EProjectilePhase.Returning [7]).ActorLocation = { X := 50, Y := 0, Z := 0 } := rfl
       rw [e, FVector.sqrt_euclidean_axis { X := 50, Y := 0, Z := 0 }
         { X := 0, Y := 0, Z := 0 } (-50) (by norm_num) (by norm_num) (by norm_num)]
       norm_num [abs_of_neg])⟩


/-! ## Theorems: collision handling -/

theorem ANeonProjectile.ApplyGameplayEffectToTarget_some (HasASC : Nat → Bool) (a c : Nat)
    (h : HasASC a = true) :
    ANeonProjectile.ApplyGameplayEffectToTarget HasASC (some a) (some c) =
      [{ TargetActor := a, EffectClass := c }] := by
  simp [ANeonProjectile.ApplyGameplayEffectToTarget, h]

theorem ANeonProjectile.ApplyGameplayEffectToTarget_noASC (HasASC : Nat → Bool) (a : Nat)
    (cls : Option Nat) (h : HasASC a = false) :
    ANeonProjectile.ApplyGameplayEffectToTarget HasASC (some a) cls = [] := by
  cases cls <;> simp [ANeonProjectile.ApplyGameplayEffectToTarget, h]

/-- Every application `ApplyGameplayEffectToTarget` makes carries the target
and the class it was called with. -/
theorem ANeonProjectile.mem_ApplyGameplayEffectToTarget (HasASC : Nat → Bool) (a : Nat)
    (cls : Option Nat) (x : FEffectApplication)
    (hx : x ∈ ANeonProjectile.ApplyGameplayEffectToTarget HasASC (some a) cls) :
    x.TargetActor = a ∧ cls = some x.EffectClass := by
  cases cls with
  | none => simp [ANeonProjectile.ApplyGameplayEffectToTarget] at hx
  | some c =>
    by_cases h : HasASC a = true
    · simp [ANeonProjectile.ApplyGameplayEffectToTarget, h] at hx
      subst hx
      exact ⟨rfl, rfl⟩
    · simp [ANeonProjectile.ApplyGameplayEffectToTarget, h] at hx

theorem ANeonProjectile.HandleCollisionLogic_none (HasASC : Nat → Bool) (p : ANeonProjectile) :
    ANeonProjectile.HandleCollisionLogic HasASC p none = (p, []) := rfl

theorem ANeonProjectile.HandleCollisionLogic_owner (HasASC : Nat → Bool) (p : ANeonProjectile)
    (a : Nat) (h : p.Owner = some a) :
    ANeonProjectile.HandleCollisionLogic HasASC p (some a) = (p, []) := by
  simp [ANeonProjectile.HandleCollisionLogic, h]

theorem ANeonProjectile.HandleCollisionLogic_standard (HasASC : Nat → Bool)
    (p : ANeonProjectile) (a : Nat) (ho : p.Owner ≠ some a) (hb : p.bIsBoomerang = false) :
    ANeonProjectile.HandleCollisionLogic HasASC p (some a) =
      (p.Destroy, ANeonProjectile.ApplyGameplayEffectToTarget HasASC (some a)
        p.DamageEffectClass) := by
  cases hd : p.DamageEffectClass <;>
    simp [ANeonProjectile.HandleCollisionLogic, ho, hb, hd,
      ANeonProjectile.ApplyGameplayEffectToTarget]

theorem ANeonProjectile.HandleCollisionLogic_already_hit (HasASC : Nat → Bool)
    (p : ANeonProjectile) (a : Nat) (hb : p.bIsBoomerang = true)
    (hin : a ∈ p.HitActorsThisPhase) :
    ANeonProjectile.HandleCollisionLogic HasASC p (some a) = (p, []) := by
  by_cases ho : p.Owner = some a
  · exact ANeonProjectile.HandleCollisionLogic_owner HasASC p a ho
  · simp [ANeonProjectile.HandleCollisionLogic, ho, hb, hin]

theorem ANeonProjectile.HandleCollisionLogic_noASC (HasASC : Nat → Bool)
    (p : ANeonProjectile) (a : Nat) (hb : p.bIsBoomerang = true) (hasc : HasASC a = false) :
    ANeonProjectile.HandleCollisionLogic HasASC p (some a) = (p, []) := by
  by_cases ho : p.Owner = some a
  · exact ANeonProjectile.HandleCollisionLogic_owner HasASC p a ho
  · by_cases hin : a ∈ p.HitActorsThisPhase
    · exact ANeonProjectile.HandleCollisionLogic_already_hit HasASC p a hb hin
    · simp [ANeonProjectile.HandleCollisionLogic, ho, hb, hin, hasc]

theorem ANeonProjectile.HandleCollisionLogic_register (HasASC : Nat → Bool)
    (p : ANeonProjectile) (a : Nat) (hb : p.bIsBoomerang = true) (ho : p.Owner ≠ some a)
    (hasc : HasASC a = true) (hin : a ∉ p.HitActorsThisPhase) :
    ANeonProjectile.HandleCollisionLogic HasASC p (some a) =
      ({ p with HitActorsThisPhase := a :: p.HitActorsThisPhase },
        ANeonProjectile.ApplyGameplayEffectToTarget HasASC (some a)
          (match p.BoomerangPhase with
            | EProjectilePhase.Outgoing => p.CorruptionEffectClass
            | EProjectilePhase.Returning => p.DamageEffectClass)) := by
  cases hp : p.BoomerangPhase <;> cases hc : p.CorruptionEffectClass <;>
    cases hd : p.DamageEffectClass <;>
    simp [ANeonProjectile.HandleCollisionLogic, ho, hb, hin, hasc, hp, hc, hd,
      ANeonProjectile.ApplyGameplayEffectToTarget, List.insert_of_not_mem]

/-- C11: in Boomerang mode, a collision with a present actor that is not the
owner, supports effect application and is not yet in the hit set registers
the actor and applies the corruption effect (if configured) while Outgoing,
the damage effect (if configured) while Returning; it never applies the other
phase's effect, it registers the actor also when the phase's effect is not
configured, and it never destroys the projectile. -/
theorem boomerang_effect_selection (HasASC : Nat → Bool) (p : ANeonProjectile) (a : Nat) :
    p.bIsBoomerang = true → p.Owner ≠ some a → HasASC a = true →
    a ∉ p.HitActorsThisPhase →
    ((ANeonProjectile.HandleCollisionLogic HasASC p (some a)).1 =
        { p with HitActorsThisPhase := a :: p.HitActorsThisPhase } ∧
      a ∈ (ANeonProjectile.HandleCollisionLogic HasASC p (some a)).1.HitActorsThisPhase ∧
      (ANeonProjectile.HandleCollisionLogic HasASC p (some a)).1.bActorIsBeingDestroyed =
        p.bActorIsBeingDestroyed ∧
      (p.BoomerangPhase = EProjectilePhase.Outgoing →
        (∀ c, p.CorruptionEffectClass = some c →
          (ANeonProjectile.HandleCollisionLogic HasASC p (some a)).2 =
            [{ TargetActor := a, EffectClass := c }]) ∧
        (p.CorruptionEffectClass = none →
          (ANeonProjectile.HandleCollisionLogic HasASC p (some a)).2 = []) ∧
        (∀ d, p.DamageEffectClass = some d → p.CorruptionEffectClass ≠ some d →
          ∀ x ∈ (ANeonProjectile.HandleCollisionLogic HasASC p (some a)).2,
            x.EffectClass ≠ d)) ∧
      (p.BoomerangPhase = EProjectilePhase.Returning →
        (∀ d, p.DamageEffectClass = some d →
          (ANeonProjectile.HandleCollisionLogic HasASC p (some a)).2 =
            [{ TargetActor := a, EffectClass := d }]) ∧
        (p.DamageEffectClass = none →
          (ANeonProjectile.HandleCollisionLogic HasASC p (some a)).2 = []) ∧
        (∀ c, p.CorruptionEffectClass = some c → p.DamageEffectClass ≠ some c →
          ∀ x ∈ (ANeonProjectile.HandleCollisionLogic HasASC p (some a)).2,
            x.EffectClass ≠ c))) := by
  intro hb ho hasc hin
  rw [ANeonProjectile.HandleCollisionLogic_register HasASC p a hb ho hasc hin]
  refine ⟨rfl, List.mem_cons_self _ _, rfl, fun hp => ?_, fun hp => ?_⟩
  · simp only [hp]
    refine ⟨fun c hc => ?_, fun hc => ?_, fun d _ hne x hx => ?_⟩
    · rw [hc]
      exact ANeonProjectile.ApplyGameplayEffectToTarget_some HasASC a c hasc
    · rw [hc]
      rfl
    · intro hxd
      have h := (ANeonProjectile.mem_ApplyGameplayEffectToTarget HasASC a _ x hx).2
      rw [hxd] at h
      exact hne h
  · simp only [hp]
    refine ⟨fun d hd => ?_, fun hd => ?_, fun c _ hne x hx => ?_⟩
    · rw [hd]
      exact ANeonProjectile.ApplyGameplayEffectToTarget_some HasASC a d hasc
    · rw [hd]
      rfl
    · intro hxc
      have h := (ANeonProjectile.mem_ApplyGameplayEffectToTarget HasASC a _ x hx).2
      rw [hxc] at h
      exact hne h

/-- Witness for C11: an outgoing boomerang owned by actor 1 overlaps actor 5,
which has an ability system component and has not been hit. -/
theorem boomerang_effect_selection_witness :
    (armedBoomerang 1 EProjectilePhase.Outgoing []).bIsBoomerang = true ∧
    (ANeonProjectile.HandleCollisionLogic (fun _ => true)
        (armedBoomerang 1 EProjectilePhase.Outgoing []) (some 5)).1 =
      { armedBoomerang 1 EProjectilePhase.Outgoing [] with HitActorsThisPhase := [5] } :=
  ⟨rfl,
   (boomerang_effect_selection (fun _ => true) (armedBoomerang 1 EProjectilePhase.Outgoing [])
      5 rfl (by decide) rfl (by decide)).1⟩

theorem ProjectileEvent.run_cons_some (p : ANeonProjectile)
    (r : ANeonProjectile × List FEffectApplication)
    (e : ProjectileEvent) (es : List ProjectileEvent) (h : e.deliver p = some r) :
    ProjectileEvent.run p (e :: es) =
      ((ProjectileEvent.run r.1 es).1, r.2 ++ (ProjectileEvent.run r.1 es).2) := by
  obtain ⟨p1, apps⟩ := r
  simp [ProjectileEvent.run, h]

theorem ProjectileEvent.run_cons_none (p : ANeonProjectile)
    (e : ProjectileEvent) (es : List ProjectileEvent) (h : e.deliver p = none) :
    ProjectileEvent.run p (e :: es) = (none, []) := by
  simp [ProjectileEvent.run, h]

theorem ProjectileEvent.deliver_Overlap (HasASC : Nat → Bool) (p : ANeonProjectile)
    (o : Option Nat) :
    (ProjectileEvent.Overlap HasASC o).deliver p =
      some (ANeonProjectile.HandleCollisionLogic HasASC p o) := by
  simp [ProjectileEvent.deliver, ProjectileEvent.handle, ANeonProjectile.OnProjectileOverlap]

/-- In Boomerang mode a collision either is ignored or registers the actor and
calls `ApplyGameplayEffectToTarget` with the class of the current phase. -/
theorem ANeonProjectile.HandleCollisionLogic_boomerang_cases (HasASC : Nat → Bool)
    (p : ANeonProjectile) (b : Nat) (hb : p.bIsBoomerang = true) :
    ANeonProjectile.HandleCollisionLogic HasASC p (some b) = (p, []) ∨
    (b ∉ p.HitActorsThisPhase ∧ p.Owner ≠ some b ∧ HasASC b = true ∧
      ANeonProjectile.HandleCollisionLogic HasASC p (some b) =
        ({ p with HitActorsThisPhase := b :: p.HitActorsThisPhase },
          ANeonProjectile.ApplyGameplayEffectToTarget HasASC (some b)
            (match p.BoomerangPhase with
              | EProjectilePhase.Outgoing => p.CorruptionEffectClass
              | EProjectilePhase.Returning => p.DamageEffectClass))) := by
  by_cases ho : p.Owner = some b
  · exact Or.inl (ANeonProjectile.HandleCollisionLogic_owner HasASC p b ho)
  · by_cases hin : b ∈ p.HitActorsThisPhase
    · exact Or.inl (ANeonProjectile.HandleCollisionLogic_already_hit HasASC p b hb hin)
    · by_cases hasc : HasASC b = true
      · exact Or.inr ⟨hin, ho, hasc,
          ANeonProjectile.HandleCollisionLogic_register HasASC p b hb ho hasc hin⟩
      · exact Or.inl (ANeonProjectile.HandleCollisionLogic_noASC HasASC p b hb
          (by simpa using hasc))

/-- Applications to another actor do not count for actor `a`. -/
theorem ANeonProjectile.filter_ApplyGameplayEffectToTarget_ne (HasASC : Nat → Bool)
    (a b : Nat) (cls : Option Nat) (hne : b ≠ a) :
    (ANeonProjectile.ApplyGameplayEffectToTarget HasASC (some b) cls).filter
      (fun x => decide (x.TargetActor = a)) = [] := by
  rw [List.filter_eq_nil_iff]
  intro x hx
  have h := (ANeonProjectile.mem_ApplyGameplayEffectToTarget HasASC b cls x hx).1
  simp [h, hne]

/-- Once an actor is in the hit set of a live boomerang, overlaps alone never
apply an effect to it again. -/
theorem ProjectileEvent.run_overlaps_already_hit (a : Nat) (es : List ProjectileEvent) :
    ∀ p : ANeonProjectile, p.bIsBoomerang = true → p.bActorIsBeingDestroyed = false →
      a ∈ p.HitActorsThisPhase →
      (∀ e ∈ es, ∃ HasASC o, e = ProjectileEvent.Overlap HasASC o) →
      (ProjectileEvent.run p es).2.filter (fun x => decide (x.TargetActor = a)) = [] := by
  induction es with
  | nil => intro p _ _ _ _; rfl
  | cons e es ih =>
    intro p hb hlive hin hall
    obtain ⟨HasASC, o, rfl⟩ := hall e (List.mem_cons_self _ _)
    have hrest : ∀ e ∈ es, ∃ HasASC o, e = ProjectileEvent.Overlap HasASC o :=
      fun e he => hall e (List.mem_cons_of_mem _ he)
    rw [ProjectileEvent.run_cons_some p _ _ es
      (ProjectileEvent.deliver_Overlap HasASC p o)]
    cases o with
    | none =>
      rw [ANeonProjectile.HandleCollisionLogic_none]
      simpa using ih p hb hlive hin hrest
    | some b =>
      rcases ANeonProjectile.HandleCollisionLogic_boomerang_cases HasASC p b hb with
        h | ⟨hbin, -, -, h⟩
      · rw [h]
        simpa using ih p hb hlive hin hrest
      · have hne : b ≠ a := fun hba => hbin (hba ▸ hin)
        rw [h]
        simp only [List.filter_append]
        rw [ANeonProjectile.filter_ApplyGameplayEffectToTarget_ne HasASC a b _ hne]
        simpa using ih { p with HitActorsThisPhase := b :: p.HitActorsThisPhase } hb hlive
          (List.mem_cons_of_mem _ hin) hrest

/-- C12: in Boomerang mode an overlap with an actor already in the hit set is
ignored (no effect, state unchanged); a second overlap with the same actor is
always ignored; and over any run of overlaps within one phase in which an
actor that is not the owner, supports effect application and was not yet hit
overlaps at least once, that actor receives the configured effect of the
phase exactly once. -/
theorem boomerang_double_hit_prevention (HasASC : Nat → Bool) (p : ANeonProjectile) :
    p.bIsBoomerang = true →
    ((∀ a, a ∈ p.HitActorsThisPhase →
        ANeonProjectile.HandleCollisionLogic HasASC p (some a) = (p, [])) ∧
      (∀ o : Option Nat,
        ANeonProjectile.HandleCollisionLogic HasASC
            (ANeonProjectile.HandleCollisionLogic HasASC p o).1 o =
          ((ANeonProjectile.HandleCollisionLogic HasASC p o).1, [])) ∧
      (∀ (a cls : Nat) (es : List ProjectileEvent),
        p.bActorIsBeingDestroyed = false → p.Owner ≠ some a → HasASC a = true →
        a ∉ p.HitActorsThisPhase →
        (match p.BoomerangPhase with
          | EProjectilePhase.Outgoing => p.CorruptionEffectClass
          | EProjectilePhase.Returning => p.DamageEffectClass) = some cls →
        (∀ e ∈ es, ∃ o, e = ProjectileEvent.Overlap HasASC o) →
        ProjectileEvent.Overlap HasASC (some a) ∈ es →
        (ProjectileEvent.run p es).2.filter (fun x => decide (x.TargetActor = a)) =
          [{ TargetActor := a, EffectClass := cls }])) := by
  intro hb
  refine ⟨fun a ha => ANeonProjectile.HandleCollisionLogic_already_hit HasASC p a hb ha,
    fun o => ?_, ?_⟩
  · cases o with
    | none => rfl
    | some b =>
      rcases ANeonProjectile.HandleCollisionLogic_boomerang_cases HasASC p b hb with
        h | ⟨-, -, -, h⟩
      · rw [h, h]
      · rw [h]
        exact ANeonProjectile.HandleCollisionLogic_already_hit HasASC _ b hb
          (List.mem_cons_self _ _)
  · intro a cls es
    induction es generalizing p with
    | nil => intro _ _ _ _ _ _ hmem; exact absurd hmem (List.not_mem_nil _)
    | cons e es ih =>
      intro hlive ho hasc hin hcls hall hmem
      obtain ⟨o, rfl⟩ := hall e (List.mem_cons_self _ _)
      have hrest : ∀ e ∈ es, ∃ o, e = ProjectileEvent.Overlap HasASC o :=
        fun e he => hall e (List.mem_cons_of_mem _ he)
      rw [ProjectileEvent.run_cons_some p _ _ es
        (ProjectileEvent.deliver_Overlap HasASC p o)]
      by_cases hoa : o = some a
      · subst hoa
        rw [ANeonProjectile.HandleCollisionLogic_register HasASC p a hb ho hasc hin, hcls,
          ANeonProjectile.ApplyGameplayEffectToTarget_some HasASC a cls hasc]
        simp only [List.filter_append]
        rw [ProjectileEvent.run_overlaps_already_hit a es
          { p with HitActorsThisPhase := a :: p.HitActorsThisPhase } hb hlive
          (List.mem_cons_self _ _) (fun e he => ⟨HasASC, hrest e he⟩)]
        simp
      · have hmem' : ProjectileEvent.Overlap HasASC (some a) ∈ es := by
          rcases List.mem_cons.mp hmem with h | h
          · injection h with _ h2
            exact absurd h2.symm hoa
          · exact h
        cases o with
        | none =>
          rw [ANeonProjectile.HandleCollisionLogic_none]
          simpa using ih p hb hlive ho hasc hin hcls hrest hmem'
        | some b =>
          have hne : b ≠ a := fun hba => hoa (by rw [hba])
          rcases ANeonProjectile.HandleCollisionLogic_boomerang_cases HasASC p b hb with
            h | ⟨-, -, -, h⟩
          · rw [h]
            simpa using ih p hb hlive ho hasc hin hcls hrest hmem'
          · rw [h]
            simp only [List.filter_append]
            rw [ANeonProjectile.filter_ApplyGameplayEffectToTarget_ne HasASC a b _ hne]
            have hin' : a ∉ b :: p.HitActorsThisPhase := by
              intro hc
              rcases List.mem_cons.mp hc with h1 | h1
              · exact hne h1.symm
              · exact hin h1
            simpa using ih { p with HitActorsThisPhase := b :: p.HitActorsThisPhase } hb hlive
              ho hasc hin' hcls hrest hmem'

/-- Witness for C12: an outgoing boomerang that has already hit actor 5
ignores another overlap with it. -/
theorem boomerang_double_hit_prevention_witness :
    (armedBoomerang 1 EProjectilePhase.Outgoing [5]).bIsBoomerang = true ∧
    ANeonProjectile.HandleCollisionLogic (fun _ => true)
        (armedBoomerang 1 EProjectilePhase.Outgoing [5]) (some 5) =
      (armedBoomerang 1 EProjectilePhase.Outgoing [5], []) :=
  ⟨rfl,
   (boomerang_double_hit_prevention (fun _ => true)
      (armedBoomerang 1 EProjectilePhase.Outgoing [5]) rfl).1 5 (by decide)⟩

/-- The three outcomes of a tick: nothing changes, the projectile is
destroyed, or an outgoing boomerang switches to the return phase with an
empty hit set. -/
theorem ANeonProjectile.Tick_cases (ActorLocationOf : Nat → FVector) (p : ANeonProjectile) :
    ANeonProjectile.Tick ActorLocationOf p = p ∨
    ANeonProjectile.Tick ActorLocationOf p = p.Destroy ∨
    (p.BoomerangPhase = EProjectilePhase.Outgoing ∧
      ∃ pm, ANeonProjectile.Tick ActorLocationOf p =
        { p with
          BoomerangPhase := EProjectilePhase.Returning
          HitActorsThisPhase := []
          ProjectileMovement := pm }) := by
  unfold ANeonProjectile.Tick
  by_cases hb : p.bIsBoomerang = true
  · cases ho : p.BoomerangOwner with
    | none => simp [hb]
    | some o =>
      cases hp : p.BoomerangPhase with
      | Outgoing =>
        by_cases hd : FVector.DistGE p.BoomerangStartLocation p.ActorLocation
            p.MaxTravelDistance = true
        · right; right
          simp only [hb, hd, Bool.not_true, Bool.false_eq_true, if_false, if_true, true_and,
            hp]
          exact ⟨_, rfl⟩
        · left
          simp [hb, hd]
      | Returning =>
        by_cases hd : FVector.DistLT p.ActorLocation (ActorLocationOf o) 100 = true
        · right; left
          simp [hb, hd]
        · left
          simp [hb, hd]
  · left
    simp [hb]

/-- The four outcomes of a hit: no result (null actor dereferenced), nothing
changes, the projectile is destroyed, or an outgoing boomerang switches to
the return phase with an empty hit set. -/
theorem ANeonProjectile.OnProjectileHit_cases (p : ANeonProjectile) (w : Option Nat)
    (b : Bool) :
    p.OnProjectileHit w b = none ∨ p.OnProjectileHit w b = some p ∨
    p.OnProjectileHit w b = some p.Destroy ∨
    (p.BoomerangPhase = EProjectilePhase.Outgoing ∧
      ∃ pm, p.OnProjectileHit w b = some
        { p with
          BoomerangPhase := EProjectilePhase.Returning
          HitActorsThisPhase := []
          ProjectileMovement := pm }) := by
  unfold ANeonProjectile.OnProjectileHit
  by_cases hc : (p.bIsBoomerang && decide (p.BoomerangPhase = EProjectilePhase.Outgoing)
      && b) = true
  · rw [if_pos hc]
    cases w with
    | none => exact Or.inl rfl
    | some w =>
      have hp : p.BoomerangPhase = EProjectilePhase.Outgoing := by
        simp only [Bool.and_eq_true, decide_eq_true_eq] at hc
        exact hc.1.2
      exact Or.inr (Or.inr (Or.inr ⟨hp, _, rfl⟩))
  · rw [if_neg hc]
    by_cases hb : p.bIsBoomerang = true
    · simp [hb]
    · simp [hb]

/-- A blocking hit with a present actor on an outgoing boomerang. -/
theorem ANeonProjectile.OnProjectileHit_outgoing (p : ANeonProjectile) (w : Nat)
    (hb : p.bIsBoomerang = true) (hp : p.BoomerangPhase = EProjectilePhase.Outgoing) :
    p.OnProjectileHit (some w) true = some
      { p with
        BoomerangPhase := EProjectilePhase.Returning
        HitActorsThisPhase := []
        ProjectileMovement :=
          match p.ProjectileMovement, p.BoomerangOwner with
          | some m, some OwnerActor => some (m.EnableHoming OwnerActor)
          | pm, _ => pm } := by
  simp [ANeonProjectile.OnProjectileHit, hb, hp]

/-- C13: an actor hit by an outgoing boomerang (corruption applied, actor
registered) is hit again after the switch to the return phase, whether a
tick or a blocking hit made the switch: the next overlap with it applies the
damage effect and registers it in the new, emptied hit set. -/
theorem rehit_across_phases (H1 H2 : Nat → Bool) (p : ANeonProjectile) (a o c d : Nat) :
    p.bIsBoomerang = true → p.BoomerangPhase = EProjectilePhase.Outgoing →
    p.BoomerangOwner = some o → p.CorruptionEffectClass = some c →
    p.DamageEffectClass = some d → p.Owner ≠ some a → H1 a = true → H2 a = true →
    a ∉ p.HitActorsThisPhase →
    ((ANeonProjectile.HandleCollisionLogic H1 p (some a)).2 =
        [{ TargetActor := a, EffectClass := c }] ∧
      a ∈ (ANeonProjectile.HandleCollisionLogic H1 p (some a)).1.HitActorsThisPhase ∧
      (∀ (Location : FVector) (ActorLocationOf : Nat → FVector),
        (ANeonProjectile.Tick ActorLocationOf
            { (ANeonProjectile.HandleCollisionLogic H1 p (some a)).1 with
              ActorLocation := Location }).BoomerangPhase = EProjectilePhase.Returning →
        (ANeonProjectile.HandleCollisionLogic H2
            (ANeonProjectile.Tick ActorLocationOf
              { (ANeonProjectile.HandleCollisionLogic H1 p (some a)).1 with
                ActorLocation := Location }) (some a)).2 =
          [{ TargetActor := a, EffectClass := d }] ∧
        (ANeonProjectile.HandleCollisionLogic H2
            (ANeonProjectile.Tick ActorLocationOf
              { (ANeonProjectile.HandleCollisionLogic H1 p (some a)).1 with
                ActorLocation := Location }) (some a)).1.HitActorsThisPhase = [a]) ∧
      (∀ w : Nat, ∃ p2,
        (ANeonProjectile.HandleCollisionLogic H1 p (some a)).1.OnProjectileHit (some w) true =
          some p2 ∧
        p2.BoomerangPhase = EProjectilePhase.Returning ∧
        (ANeonProjectile.HandleCollisionLogic H2 p2 (some a)).2 =
          [{ TargetActor := a, EffectClass := d }] ∧
        (ANeonProjectile.HandleCollisionLogic H2 p2 (some a)).1.HitActorsThisPhase = [a])) := by
  intro hb hp hbo hc hd ho h1 h2 hin
  rw [ANeonProjectile.HandleCollisionLogic_register H1 p a hb ho h1 hin]
  refine ⟨?_, List.mem_cons_self _ _, fun Location ActorLocationOf hret => ?_, fun w => ?_⟩
  · simp only [hp, hc]
    exact ANeonProjectile.ApplyGameplayEffectToTarget_some H1 a c h1
  · rcases ANeonProjectile.Tick_cases ActorLocationOf
        { ({ p with HitActorsThisPhase := a :: p.HitActorsThisPhase } : ANeonProjectile) with
          ActorLocation := Location } with h | h | ⟨-, pm, h⟩
    · rw [h] at hret
      simp [hp] at hret
    · rw [h] at hret
      simp [ANeonProjectile.Destroy, hp] at hret
    · simp only at h
      rw [h]
      have hreg := ANeonProjectile.HandleCollisionLogic_register H2
        ({ p with
           ActorLocation := Location
           BoomerangPhase := EProjectilePhase.Returning
           HitActorsThisPhase := []
           ProjectileMovement := pm } : ANeonProjectile) a hb ho h2 (List.not_mem_nil a)
      rw [hreg]
      refine ⟨?_, rfl⟩
      show ANeonProjectile.ApplyGameplayEffectToTarget H2 (some a) p.DamageEffectClass = _
      rw [hd]
      exact ANeonProjectile.ApplyGameplayEffectToTarget_some H2 a d h2
  · have hhit := ANeonProjectile.OnProjectileHit_outgoing
      ({ p with HitActorsThisPhase := a :: p.HitActorsThisPhase } : ANeonProjectile) w hb hp
    refine ⟨_, hhit, rfl, ?_⟩
    have hreg := ANeonProjectile.HandleCollisionLogic_register H2
      ({ p with
         BoomerangPhase := EProjectilePhase.Returning
         HitActorsThisPhase := []
         ProjectileMovement :=
           match p.ProjectileMovement, p.BoomerangOwner with
           | some m, some OwnerActor => some (m.EnableHoming OwnerActor)
           | pm, _ => pm } : ANeonProjectile) a hb ho h2 (List.not_mem_nil a)
    rw [hreg]
    refine ⟨?_, rfl⟩
    show ANeonProjectile.ApplyGameplayEffectToTarget H2 (some a) p.DamageEffectClass = _
    rw [hd]
    exact ANeonProjectile.ApplyGameplayEffectToTarget_some H2 a d h2


/-- Witness for C13: actor 5 is corrupted by the outgoing boomerang of actor 1
and registered. -/
theorem rehit_across_phases_witness :
    (armedBoomerang 1 EProjectilePhase.Outgoing []).bIsBoomerang = true ∧
    (ANeonProjectile.HandleCollisionLogic (fun _ => true)
        (armedBoomerang 1 EProjectilePhase.Outgoing []) (some 5)).2 =
      [{ TargetActor := 5, EffectClass := 71 }] :=
  ⟨rfl,
   (rehit_across_phases (fun _ => true) (fun _ => true)
      (armedBoomerang 1 EProjectilePhase.Outgoing []) 5 1 71 70
      rfl rfl rfl rfl rfl (by decide) rfl rfl (by decide)).1⟩

/-- Counterexample to C15 as stated: a standard projectile with a damage
effect configured overlaps actor 5, present and not the owner, that has no
ability system component; the projectile is destroyed and no effect is
applied. -/
theorem standard_overlap_without_component :
    (armedStandard 1).bIsBoomerang = false ∧
    (armedStandard 1).DamageEffectClass = some 70 ∧
    (armedStandard 1).Owner ≠ some 5 ∧
    (ANeonProjectile.HandleCollisionLogic (fun _ => false) (armedStandard 1) (some 5)).2 = [] ∧
    (ANeonProjectile.HandleCollisionLogic (fun _ => false) (armedStandard 1)
      (some 5)).1.bActorIsBeingDestroyed = true := by
  refine ⟨rfl, rfl, by decide, ?_, ?_⟩
  · rw [ANeonProjectile.HandleCollisionLogic_standard _ _ 5 (by decide) rfl]
    rfl
  · rw [ANeonProjectile.HandleCollisionLogic_standard _ _ 5 (by decide) rfl]
    rfl

/-- C15 (amended): in Standard mode a collision with a present actor that is
not the owner destroys the projectile in every case; it applies the damage
effect to that actor exactly once when a damage effect is configured and the
actor supports effect application, applies nothing when no damage effect is
configured or the actor does not support effect application, and never
applies the corruption effect. -/
theorem standard_overlap (HasASC : Nat → Bool) (p : ANeonProjectile) (a : Nat) :
    p.bIsBoomerang = false → p.Owner ≠ some a →
    ((ANeonProjectile.HandleCollisionLogic HasASC p (some a)).1 = p.Destroy ∧
      (ANeonProjectile.HandleCollisionLogic HasASC p (some a)).1.bActorIsBeingDestroyed = true ∧
      (∀ d, p.DamageEffectClass = some d → HasASC a = true →
        (ANeonProjectile.HandleCollisionLogic HasASC p (some a)).2 =
          [{ TargetActor := a, EffectClass := d }]) ∧
      (p.DamageEffectClass = none →
        (ANeonProjectile.HandleCollisionLogic HasASC p (some a)).2 = []) ∧
      (HasASC a = false →
        (ANeonProjectile.HandleCollisionLogic HasASC p (some a)).2 = []) ∧
      (∀ c, p.CorruptionEffectClass = some c → p.DamageEffectClass ≠ some c →
        ∀ x ∈ (ANeonProjectile.HandleCollisionLogic HasASC p (some a)).2,
          x.EffectClass ≠ c)) := by
  intro hb ho
  rw [ANeonProjectile.HandleCollisionLogic_standard HasASC p a ho hb]
  refine ⟨rfl, rfl, fun d hd hasc => ?_, fun hd => ?_, fun hasc => ?_, fun c _ hne x hx => ?_⟩
  · rw [hd]
    exact ANeonProjectile.ApplyGameplayEffectToTarget_some HasASC a d hasc
  · rw [hd]
    rfl
  · exact ANeonProjectile.ApplyGameplayEffectToTarget_noASC HasASC a _ hasc
  · intro hxc
    have h := (ANeonProjectile.mem_ApplyGameplayEffectToTarget HasASC a _ x hx).2
    rw [hxc] at h
    exact hne h

/-- Witness for C15 (amended): a standard projectile of actor 1 overlaps actor
5 and is destroyed. -/
theorem standard_overlap_witness :
    (armedStandard 1).bIsBoomerang = false ∧ (armedStandard 1).Owner ≠ some 5 ∧
    (ANeonProjectile.HandleCollisionLogic (fun _ => true) (armedStandard 1) (some 5)).1 =
      (armedStandard 1).Destroy :=
  ⟨rfl, by decide,
   (standard_overlap (fun _ => true) (armedStandard 1) 5 rfl (by decide)).1⟩

/-- Counterexample to C17 as stated: an outgoing boomerang whose owner
reference is no longer valid takes a blocking hit; the phase becomes
Returning and the hit set is emptied, but homing is not enabled. -/
theorem forced_return_without_owner :
    ({ armedBoomerang 1 EProjectilePhase.Outgoing [5] with
        BoomerangOwner := none } : ANeonProjectile).bIsBoomerang = true ∧
    ({ armedBoomerang 1 EProjectilePhase.Outgoing [5] with
        BoomerangOwner := none } : ANeonProjectile).BoomerangPhase =
      EProjectilePhase.Outgoing ∧
    (({ armedBoomerang 1 EProjectilePhase.Outgoing [5] with
        BoomerangOwner := none } : ANeonProjectile).OnProjectileHit (some 9) true).map
        (fun q => (q.BoomerangPhase, q.HitActorsThisPhase,
          q.ProjectileMovement.map (fun m => m.bIsHomingProjectile))) =
      some (EProjectilePhase.Returning, [], some false) := by
  refine ⟨rfl, rfl, ?_⟩
  rw [ANeonProjectile.OnProjectileHit_outgoing _ 9 rfl rfl]
  rfl

/-- C17 (amended): for a boomerang in phase Outgoing, a blocking hit with a
present actor makes the phase Returning and empties the hit set, whatever the
distance travelled; the projectile is not destroyed and no effect is applied.
With a valid owner the movement component also gets homing toward the owner,
and the result is the state the distance-triggered switch of `Tick` gives;
with an invalid owner the movement component is left as it is. -/
theorem forced_return_on_obstacle (p : ANeonProjectile) (w : Nat) :
    p.bIsBoomerang = true → p.BoomerangPhase = EProjectilePhase.Outgoing →
    ((∃ q, p.OnProjectileHit (some w) true = some q ∧
        (ProjectileEvent.Hit (some w) true).handle p = some (q, []) ∧
        q.BoomerangPhase = EProjectilePhase.Returning ∧ q.HitActorsThisPhase = [] ∧
        q.bActorIsBeingDestroyed = p.bActorIsBeingDestroyed) ∧
      (∀ o, p.BoomerangOwner = some o →
        p.OnProjectileHit (some w) true = some
          { p with
            BoomerangPhase := EProjectilePhase.Returning
            HitActorsThisPhase := []
            ProjectileMovement := p.ProjectileMovement.map (fun m => m.EnableHoming o) } ∧
        (∀ m, p.ProjectileMovement = some m →
          ∃ q m1, p.OnProjectileHit (some w) true = some q ∧
            q.ProjectileMovement = some m1 ∧ m1.bIsHomingProjectile = true ∧
            m1.HomingTargetComponent = some o ∧ m1.HomingAccelerationMagnitude = 8000) ∧
        (∀ ActorLocationOf : Nat → FVector,
          FVector.DistGE p.BoomerangStartLocation p.ActorLocation p.MaxTravelDistance = true →
          p.OnProjectileHit (some w) true = some (ANeonProjectile.Tick ActorLocationOf p))) ∧
      (p.BoomerangOwner = none →
        p.OnProjectileHit (some w) true = some
          { p with
            BoomerangPhase := EProjectilePhase.Returning
            HitActorsThisPhase := [] })) := by
  intro hb hp
  have hhit := ANeonProjectile.OnProjectileHit_outgoing p w hb hp
  refine ⟨⟨_, hhit, ?_, rfl, rfl, rfl⟩, fun o ho => ?_, fun ho => ?_⟩
  · simp only [ProjectileEvent.handle, hhit]
  · have heq : p.OnProjectileHit (some w) true = some
        { p with
          BoomerangPhase := EProjectilePhase.Returning
          HitActorsThisPhase := []
          ProjectileMovement := p.ProjectileMovement.map (fun m => m.EnableHoming o) } := by
      rw [hhit, ho]
      cases p.ProjectileMovement <;> rfl
    refine ⟨heq, fun m hm => ?_, fun ActorLocationOf hd => ?_⟩
    · refine ⟨_, m.EnableHoming o, heq, ?_, rfl, rfl, rfl⟩
      simp [hm]
    · rw [heq]
      cases hpm : p.ProjectileMovement <;>
        simp [ANeonProjectile.Tick, hb, ho, hp, hd, hpm]
  · rw [hhit, ho]
    cases p.ProjectileMovement <;> rfl

/-- Witness for C17 (amended): an outgoing boomerang of actor 1, 500 units out
and below its maximum of 1000, hits a wall and turns back with homing toward
actor 1. -/
theorem forced_return_on_obstacle_witness :
    (armedBoomerang 1 EProjectilePhase.Outgoing [5]).bIsBoomerang = true ∧
    (armedBoomerang 1 EProjectilePhase.Outgoing [5]).BoomerangPhase =
      EProjectilePhase.Outgoing ∧
    (armedBoomerang 1 EProjectilePhase.Outgoing [5]).OnProjectileHit (some 9) true = some
      { armedBoomerang 1 EProjectilePhase.Outgoing [5] with
        BoomerangPhase := EProjectilePhase.Returning
        HitActorsThisPhase := []
        ProjectileMovement :=
          (armedBoomerang 1 EProjectilePhase.Outgoing [5]).ProjectileMovement.map
            (fun m => m.EnableHoming 1) } :=
  ⟨rfl, rfl,
   ((forced_return_on_obstacle (armedBoomerang 1 EProjectilePhase.Outgoing [5]) 9
      rfl rfl).2.1 1 rfl).1⟩

/-- C18: in Standard mode every hit destroys the projectile and applies no
effect, whatever the other actor is; for a boomerang in phase Returning a hit
changes nothing (phase, hit set, movement component and liveness stay as they
are) and applies no effect. -/
theorem blocking_collision_other_cases (p : ANeonProjectile) (OtherActor : Option Nat)
    (bBlockingHit : Bool) :
    (p.bIsBoomerang = false →
      p.OnProjectileHit OtherActor bBlockingHit = some p.Destroy ∧
      (ProjectileEvent.Hit OtherActor bBlockingHit).handle p = some (p.Destroy, []) ∧
      p.Destroy.bActorIsBeingDestroyed = true) ∧
    (p.bIsBoomerang = true → p.BoomerangPhase = EProjectilePhase.Returning →
      p.OnProjectileHit OtherActor bBlockingHit = some p ∧
      (ProjectileEvent.Hit OtherActor bBlockingHit).handle p = some (p, [])) := by
  refine ⟨fun hb => ?_, fun hb hp => ?_⟩
  · have h : p.OnProjectileHit OtherActor bBlockingHit = some p.Destroy := by
      simp [ANeonProjectile.OnProjectileHit, hb]
    exact ⟨h, by simp only [ProjectileEvent.handle, h], rfl⟩
  · have h : p.OnProjectileHit OtherActor bBlockingHit = some p := by
      simp [ANeonProjectile.OnProjectileHit, hb, hp]
    exact ⟨h, by simp only [ProjectileEvent.handle, h]⟩

/-- Witness for C18: a returning boomerang ignores a blocking hit. -/
theorem blocking_collision_other_cases_witness :
    (armedBoomerang 1 EProjectilePhase.Returning [5]).bIsBoomerang = true ∧
    (armedBoomerang 1 EProjectilePhase.Returning [5]).BoomerangPhase =
      EProjectilePhase.Returning ∧
    (armedBoomerang 1 EProjectilePhase.Returning [5]).OnProjectileHit (some 9) true =
      some (armedBoomerang 1 EProjectilePhase.Returning [5]) :=
  ⟨rfl, rfl,
   ((blocking_collision_other_cases (armedBoomerang 1 EProjectilePhase.Returning [5])
      (some 9) true).2 rfl rfl).1⟩

/-- C19: `HandleCollisionLogic` is a complete no-op (state unchanged, no
effect applied, and the call always has a result) when the other actor is
absent or is the projectile's owner, in either mode, and, in Boomerang mode,
when the other actor has no ability system component; such an actor is not
registered, so a later collision with it in the same phase, once it supports
effect application, registers it and applies the effect of the phase. -/
theorem ignored_collisions_are_noops (HasASC : Nat → Bool) (p : ANeonProjectile) :
    ANeonProjectile.HandleCollisionLogic HasASC p none = (p, []) ∧
    (∀ a, p.Owner = some a →
      ANeonProjectile.HandleCollisionLogic HasASC p (some a) = (p, [])) ∧
    (∀ a, p.bIsBoomerang = true → HasASC a = false →
      ANeonProjectile.HandleCollisionLogic HasASC p (some a) = (p, []) ∧
      (a ∉ p.HitActorsThisPhase →
        a ∉ (ANeonProjectile.HandleCollisionLogic HasASC p (some a)).1.HitActorsThisPhase) ∧
      (∀ H2 : Nat → Bool, H2 a = true → p.Owner ≠ some a → a ∉ p.HitActorsThisPhase →
        ANeonProjectile.HandleCollisionLogic H2
            (ANeonProjectile.HandleCollisionLogic HasASC p (some a)).1 (some a) =
          ({ p with HitActorsThisPhase := a :: p.HitActorsThisPhase },
            ANeonProjectile.ApplyGameplayEffectToTarget H2 (some a)
              (match p.BoomerangPhase with
                | EProjectilePhase.Outgoing => p.CorruptionEffectClass
                | EProjectilePhase.Returning => p.DamageEffectClass)))) := by
  refine ⟨rfl, fun a ho => ANeonProjectile.HandleCollisionLogic_owner HasASC p a ho,
    fun a hb hasc => ?_⟩
  have h := ANeonProjectile.HandleCollisionLogic_noASC HasASC p a hb hasc
  refine ⟨h, fun hin => ?_, fun H2 h2 ho hin => ?_⟩
  · rw [h]
    exact hin
  · rw [h]
    exact ANeonProjectile.HandleCollisionLogic_register H2 p a hb ho h2 hin

/-- Witness for C19: the boomerang of actor 1 overlaps actor 1 itself. -/
theorem ignored_collisions_are_noops_witness :
    (armedBoomerang 1 EProjectilePhase.Outgoing []).Owner = some 1 ∧
    ANeonProjectile.HandleCollisionLogic (fun _ => true)
        (armedBoomerang 1 EProjectilePhase.Outgoing []) (some 1) =
      (armedBoomerang 1 EProjectilePhase.Outgoing [], []) :=
  ⟨rfl,
   (ignored_collisions_are_noops (fun _ => true)
      (armedBoomerang 1 EProjectilePhase.Outgoing [])).2.1 1 rfl⟩


/-! ## Theorems: event sequences -/

/-- What the delivery of one event can do.  The owner, the mode and the two
effect classes never change, and one of four things happens: (A) no effect is
applied and phase and hit set stay; (B) no effect is applied and an outgoing
boomerang switches to Returning with an empty hit set; (C) a boomerang
registers a new actor that is not its owner and calls
`ApplyGameplayEffectToTarget` for it with the class of the phase; (D) a
standard projectile is destroyed after calling `ApplyGameplayEffectToTarget`
with the damage class for an actor that is not its owner. -/
theorem ProjectileEvent.deliver_cases (p : ANeonProjectile) (e : ProjectileEvent)
    (r : ANeonProjectile × List FEffectApplication) (h : e.deliver p = some r) :
    (r.1.Owner = p.Owner ∧ r.1.bIsBoomerang = p.bIsBoomerang ∧
      r.1.DamageEffectClass = p.DamageEffectClass ∧
      r.1.CorruptionEffectClass = p.CorruptionEffectClass) ∧
    ((r.2 = [] ∧ r.1.BoomerangPhase = p.BoomerangPhase ∧
        r.1.HitActorsThisPhase = p.HitActorsThisPhase) ∨
      (r.2 = [] ∧ p.BoomerangPhase = EProjectilePhase.Outgoing ∧
        r.1.BoomerangPhase = EProjectilePhase.Returning ∧ r.1.HitActorsThisPhase = []) ∨
      (∃ (HasASC : Nat → Bool) (b : Nat), p.bIsBoomerang = true ∧
        b ∉ p.HitActorsThisPhase ∧ p.Owner ≠ some b ∧
        r.1.BoomerangPhase = p.BoomerangPhase ∧
        r.1.HitActorsThisPhase = b :: p.HitActorsThisPhase ∧
        r.2 = ANeonProjectile.ApplyGameplayEffectToTarget HasASC (some b)
          (match p.BoomerangPhase with
            | EProjectilePhase.Outgoing => p.CorruptionEffectClass
            | EProjectilePhase.Returning => p.DamageEffectClass)) ∨
      (∃ (HasASC : Nat → Bool) (b : Nat), p.bIsBoomerang = false ∧ p.Owner ≠ some b ∧
        r.1 = p.Destroy ∧
        r.2 = ANeonProjectile.ApplyGameplayEffectToTarget HasASC (some b)
          p.DamageEffectClass)) := by
  unfold ProjectileEvent.deliver at h
  cases e with
  | Tick Location ActorLocationOf =>
    simp only [ProjectileEvent.handle, Option.some.injEq] at h
    subst h
    rcases ANeonProjectile.Tick_cases ActorLocationOf
        { p with ActorLocation := Location } with ht | ht | ⟨hp, pm, ht⟩
    · rw [ht]
      exact ⟨⟨rfl, rfl, rfl, rfl⟩, Or.inl ⟨rfl, rfl, rfl⟩⟩
    · rw [ht]
      exact ⟨⟨rfl, rfl, rfl, rfl⟩, Or.inl ⟨rfl, rfl, rfl⟩⟩
    · rw [ht]
      exact ⟨⟨rfl, rfl, rfl, rfl⟩, Or.inr (Or.inl ⟨rfl, hp, rfl, rfl⟩)⟩
  | Hit w b =>
    simp only [ProjectileEvent.handle] at h
    rcases ANeonProjectile.OnProjectileHit_cases p w b with hh | hh | hh | ⟨hp, pm, hh⟩
    · rw [hh] at h
      exact absurd h (by simp)
    · rw [hh] at h
      simp only [Option.some.injEq] at h
      subst h
      exact ⟨⟨rfl, rfl, rfl, rfl⟩, Or.inl ⟨rfl, rfl, rfl⟩⟩
    · rw [hh] at h
      simp only [Option.some.injEq] at h
      subst h
      exact ⟨⟨rfl, rfl, rfl, rfl⟩, Or.inl ⟨rfl, rfl, rfl⟩⟩
    · rw [hh] at h
      simp only [Option.some.injEq] at h
      subst h
      exact ⟨⟨rfl, rfl, rfl, rfl⟩, Or.inr (Or.inl ⟨rfl, hp, rfl, rfl⟩)⟩
  | Overlap HasASC o =>
    simp only [ProjectileEvent.handle, ANeonProjectile.OnProjectileOverlap,
      Option.some.injEq] at h
    subst h
    cases o with
    | none => exact ⟨⟨rfl, rfl, rfl, rfl⟩, Or.inl ⟨rfl, rfl, rfl⟩⟩
    | some b =>
      by_cases ho : p.Owner = some b
      · rw [ANeonProjectile.HandleCollisionLogic_owner HasASC p b ho]
        exact ⟨⟨rfl, rfl, rfl, rfl⟩, Or.inl ⟨rfl, rfl, rfl⟩⟩
      · by_cases hb : p.bIsBoomerang = true
        · rcases ANeonProjectile.HandleCollisionLogic_boomerang_cases HasASC p b hb with
            hc | ⟨hin, _, _, hc⟩
          · rw [hc]
            exact ⟨⟨rfl, rfl, rfl, rfl⟩, Or.inl ⟨rfl, rfl, rfl⟩⟩
          · rw [hc]
            exact ⟨⟨rfl, rfl, rfl, rfl⟩,
              Or.inr (Or.inr (Or.inl ⟨HasASC, b, hb, hin, ho, rfl, rfl, rfl⟩))⟩
        · have hb' : p.bIsBoomerang = false := by simpa using hb
          rw [ANeonProjectile.HandleCollisionLogic_standard HasASC p b ho hb']
          exact ⟨⟨rfl, rfl, rfl, rfl⟩,
            Or.inr (Or.inr (Or.inr ⟨HasASC, b, hb', ho, rfl, rfl⟩))⟩

/-- `ApplyGameplayEffectToTarget` makes no application or exactly one, to the
actor and with the class it was called with. -/
theorem ANeonProjectile.ApplyGameplayEffectToTarget_cases (HasASC : Nat → Bool) (b : Nat)
    (cls : Option Nat) :
    ANeonProjectile.ApplyGameplayEffectToTarget HasASC (some b) cls = [] ∨
    ∃ c, cls = some c ∧ ANeonProjectile.ApplyGameplayEffectToTarget HasASC (some b) cls =
      [{ TargetActor := b, EffectClass := c }] := by
  cases cls with
  | none => exact Or.inl rfl
  | some c =>
    by_cases h : HasASC b = true
    · exact Or.inr ⟨c, rfl, ANeonProjectile.ApplyGameplayEffectToTarget_some HasASC b c h⟩
    · exact Or.inl (ANeonProjectile.ApplyGameplayEffectToTarget_noASC HasASC b _
        (by simpa using h))

/-- In a list of applications with pairwise different targets, at most one
goes to a given actor. -/
theorem FEffectApplication.filter_length_le_one (a : Nat) (l : List FEffectApplication)
    (h : (l.map (fun x => x.TargetActor)).Nodup) :
    (l.filter (fun x => decide (x.TargetActor = a))).length ≤ 1 := by
  induction l with
  | nil => simp
  | cons x l ih =>
    rw [List.map_cons, List.nodup_cons] at h
    by_cases hx : x.TargetActor = a
    · have hnil : l.filter (fun x => decide (x.TargetActor = a)) = [] := by
        rw [List.filter_eq_nil_iff]
        intro y hy
        have hne : y.TargetActor ≠ a := by
          intro hya
          apply h.1
          rw [hx, ← hya]
          exact List.mem_map_of_mem _ hy
        simp [hne]
      simp [List.filter_cons, hx, hnil]
    · simpa [List.filter_cons, hx] using ih h.2

/-- The owner of a projectile is never hit: along any run from a state whose
hit set does not hold the owner, no application targets the owner and the hit
set never holds it. -/
theorem ProjectileEvent.run_never_hits_owner (owner : Nat) (es : List ProjectileEvent) :
    ∀ p : ANeonProjectile, p.Owner = some owner → owner ∉ p.HitActorsThisPhase →
      (∀ x ∈ (ProjectileEvent.run p es).2, x.TargetActor ≠ owner) ∧
      (∀ q, (ProjectileEvent.run p es).1 = some q → owner ∉ q.HitActorsThisPhase) := by
  induction es with
  | nil =>
    intro p _ hin
    refine ⟨fun x hx => absurd hx (List.not_mem_nil _), fun q hq => ?_⟩
    simp only [ProjectileEvent.run, Option.some.injEq] at hq
    rw [← hq]
    exact hin
  | cons e es ih =>
    intro p ho hin
    cases hdel : e.deliver p with
    | none =>
      rw [ProjectileEvent.run_cons_none p e es hdel]
      exact ⟨fun x hx => absurd hx (List.not_mem_nil _), fun q hq => by simp at hq⟩
    | some r =>
      rw [ProjectileEvent.run_cons_some p r e es hdel]
      obtain ⟨⟨hfo, -, -, -⟩, hcases⟩ := ProjectileEvent.deliver_cases p e r hdel
      have ho1 : r.1.Owner = some owner := by rw [hfo, ho]
      have key : owner ∉ r.1.HitActorsThisPhase ∧ ∀ x ∈ r.2, x.TargetActor ≠ owner := by
        rcases hcases with ⟨h2, -, hh⟩ | ⟨h2, -, -, hh⟩ | ⟨H, b, -, -, hob, -, hh, h2⟩ |
          ⟨H, b, -, hob, h1, h2⟩
        · rw [hh, h2]
          exact ⟨hin, fun x hx => absurd hx (List.not_mem_nil _)⟩
        · rw [hh, h2]
          exact ⟨List.not_mem_nil _, fun x hx => absurd hx (List.not_mem_nil _)⟩
        · have hne : b ≠ owner := fun hbo => hob (by rw [ho, hbo])
          rw [hh, h2]
          refine ⟨?_, fun x hx => ?_⟩
          · intro hc
            rcases List.mem_cons.mp hc with h | h
            · exact hne h.symm
            · exact hin h
          · rw [(ANeonProjectile.mem_ApplyGameplayEffectToTarget H b _ x hx).1]
            exact hne
        · have hne : b ≠ owner := fun hbo => hob (by rw [ho, hbo])
          rw [h1, h2]
          refine ⟨hin, fun x hx => ?_⟩
          rw [(ANeonProjectile.mem_ApplyGameplayEffectToTarget H b _ x hx).1]
          exact hne
      obtain ⟨ih1, ih2⟩ := ih r.1 ho1 key.1
      refine ⟨fun x hx => ?_, ih2⟩
      rcases List.mem_append.mp hx with h | h
      · exact key.2 x h
      · exact ih1 x h

/-- Counterexample to C20 as stated: a projectile spawned without an owner
and initialised with `InitializeBoomerang(actor 1, 1000)` overlaps actor 1;
the corruption effect is applied to actor 1 and actor 1 is registered. -/
theorem boomerang_hits_its_return_target :
    (({ ANeonProjectile.ctor { X := 0, Y := 0, Z := 0 } none with
          CorruptionEffectClass := some 71 } : ANeonProjectile).InitializeBoomerang
        (some 1) 1000).BoomerangOwner = some 1 ∧
    ANeonProjectile.HandleCollisionLogic (fun _ => true)
        (({ ANeonProjectile.ctor { X := 0, Y := 0, Z := 0 } none with
            CorruptionEffectClass := some 71 } : ANeonProjectile).InitializeBoomerang
          (some 1) 1000) (some 1) =
      ({ ({ ANeonProjectile.ctor { X := 0, Y := 0, Z := 0 } none with
            CorruptionEffectClass := some 71 } : ANeonProjectile).InitializeBoomerang
          (some 1) 1000 with HitActorsThisPhase := [1] },
        [{ TargetActor := 1, EffectClass := 71 }]) := by
  refine ⟨rfl, ?_⟩
  rw [ANeonProjectile.HandleCollisionLogic_register (fun _ => true) _ 1 rfl (by decide) rfl
    (by decide)]
  rfl

/-- C20 (amended): for a boomerang whose owner `GetOwner()` is the actor
passed to `InitializeBoomerang`, an overlap with that actor is ignored in
every state, and along every sequence of events after the initialisation no
effect is applied to that actor and the hit set never holds it. -/
theorem self_hit_prevention (p0 : ANeonProjectile) (owner : Nat) (InMaxDistance : ℚ)
    (es : List ProjectileEvent) :
    p0.Owner = some owner →
    ((p0.InitializeBoomerang (some owner) InMaxDistance).Owner = some owner ∧
      (p0.InitializeBoomerang (some owner) InMaxDistance).BoomerangOwner = some owner ∧
      (∀ (HasASC : Nat → Bool) (p : ANeonProjectile), p.Owner = some owner →
        ANeonProjectile.HandleCollisionLogic HasASC p (some owner) = (p, [])) ∧
      (∀ x ∈ (ProjectileEvent.run (p0.InitializeBoomerang (some owner) InMaxDistance) es).2,
        x.TargetActor ≠ owner) ∧
      (∀ q, (ProjectileEvent.run (p0.InitializeBoomerang (some owner) InMaxDistance) es).1 =
          some q → owner ∉ q.HitActorsThisPhase)) := by
  intro ho
  have hrun := ProjectileEvent.run_never_hits_owner owner es
    (p0.InitializeBoomerang (some owner) InMaxDistance) ho (List.not_mem_nil _)
  exact ⟨ho, rfl, fun HasASC p hp => ANeonProjectile.HandleCollisionLogic_owner HasASC p owner hp,
    hrun.1, hrun.2⟩

/-- Witness for C20 (amended): the boomerang thrown and owned by actor 1
ignores an overlap with actor 1. -/
theorem self_hit_prevention_witness :
    (armedStandard 1).Owner = some 1 ∧
    ANeonProjectile.HandleCollisionLogic (fun _ => true)
        ((armedStandard 1).InitializeBoomerang (some 1) 1000) (some 1) =
      ((armedStandard 1).InitializeBoomerang (some 1) 1000, []) :=
  ⟨rfl,
   (self_hit_prevention (armedStandard 1) 1 1000 [] rfl).2.2.1 (fun _ => true)
     ((armedStandard 1).InitializeBoomerang (some 1) 1000) rfl⟩


/-- The applications a boomerang makes along a run split into those made with
the corruption class, all before the switch to Returning and to pairwise
different actors not yet in the hit set, followed by those made with the
damage class, to pairwise different actors. -/
theorem ProjectileEvent.run_log_split (es : List ProjectileEvent) :
    ∀ p : ANeonProjectile, p.bIsBoomerang = true →
      ∃ outs rets : List FEffectApplication,
        (ProjectileEvent.run p es).2 = outs ++ rets ∧
        (∀ x ∈ outs, p.CorruptionEffectClass = some x.EffectClass) ∧
        (∀ x ∈ rets, p.DamageEffectClass = some x.EffectClass) ∧
        (outs.map (fun x => x.TargetActor)).Nodup ∧
        (rets.map (fun x => x.TargetActor)).Nodup ∧
        (∀ x ∈ outs, x.TargetActor ∉ p.HitActorsThisPhase) ∧
        (p.BoomerangPhase = EProjectilePhase.Returning →
          outs = [] ∧ ∀ x ∈ rets, x.TargetActor ∉ p.HitActorsThisPhase) := by
  induction es with
  | nil =>
    intro p _
    exact ⟨[], [], rfl, by simp, by simp, by simp, by simp, by simp, by simp⟩
  | cons e es ih =>
    intro p hb
    cases hdel : e.deliver p with
    | none =>
      rw [ProjectileEvent.run_cons_none p e es hdel]
      exact ⟨[], [], rfl, by simp, by simp, by simp, by simp, by simp, by simp⟩
    | some r =>
      rw [ProjectileEvent.run_cons_some p r e es hdel]
      obtain ⟨⟨-, hfb, hfd, hfc⟩, hcases⟩ := ProjectileEvent.deliver_cases p e r hdel
      obtain ⟨outs1, rets1, hlog, hoc, hrc, hon, hrn, hoh, hret⟩ := ih r.1 (by rw [hfb, hb])
      rw [hfc] at hoc
      rw [hfd] at hrc
      simp only [hlog]
      rcases hcases with ⟨h2, hph, hh⟩ | ⟨h2, hpo, hpr, hh⟩ | ⟨H, b, -, hbin, -, hph, hh, h2⟩ |
        ⟨H, b, hstd, -, -, -⟩
      · rw [hh] at hoh hret
        rw [hph] at hret
        exact ⟨outs1, rets1, by rw [h2]; rfl, hoc, hrc, hon, hrn, hoh, hret⟩
      · obtain ⟨ho1, -⟩ := hret hpr
        subst ho1
        refine ⟨[], rets1, by rw [h2]; rfl, by simp, hrc, by simp, hrn, by simp, fun hp => ?_⟩
        rw [hpo] at hp
        cases hp
      · rw [hh] at hoh hret
        rw [hph] at hret
        rw [h2]
        cases hp : p.BoomerangPhase with
        | Outgoing =>
          simp only [hp]
          rcases ANeonProjectile.ApplyGameplayEffectToTarget_cases H b
              p.CorruptionEffectClass with hnil | ⟨c, hc, hone⟩
          · rw [hnil]
            refine ⟨outs1, rets1, rfl, hoc, hrc, hon, hrn,
              fun x hx => fun hc => hoh x hx (List.mem_cons_of_mem _ hc), fun hq => ?_⟩
            cases hq
          · rw [hone]
            refine ⟨{ TargetActor := b, EffectClass := c } :: outs1, rets1, rfl, ?_, hrc, ?_,
              hrn, ?_, fun hq => ?_⟩
            · intro x hx
              rcases List.mem_cons.mp hx with h | h
              · rw [h]
                exact hc
              · exact hoc x h
            · rw [List.map_cons, List.nodup_cons]
              refine ⟨fun hmem => ?_, hon⟩
              obtain ⟨y, hy, hyb⟩ := List.mem_map.mp hmem
              exact hoh y hy (by rw [hyb]; exact List.mem_cons_self _ _)
            · intro x hx
              rcases List.mem_cons.mp hx with h | h
              · rw [h]
                exact hbin
              · exact fun hc => hoh x h (List.mem_cons_of_mem _ hc)
            · cases hq
        | Returning =>
          simp only [hp]
          obtain ⟨ho1, hrh⟩ := hret hp
          subst ho1
          rcases ANeonProjectile.ApplyGameplayEffectToTarget_cases H b
              p.DamageEffectClass with hnil | ⟨d, hd, hone⟩
          · rw [hnil]
            exact ⟨[], rets1, rfl, by simp, hrc, by simp, hrn, by simp,
              fun _ => ⟨rfl, fun x hx => fun hc => hrh x hx (List.mem_cons_of_mem _ hc)⟩⟩
          · rw [hone]
            refine ⟨[], { TargetActor := b, EffectClass := d } :: rets1, rfl, by simp, ?_,
              by simp, ?_, by simp, fun _ => ⟨rfl, ?_⟩⟩
            · intro x hx
              rcases List.mem_cons.mp hx with h | h
              · rw [h]
                exact hd
              · exact hrc x h
            · rw [List.map_cons, List.nodup_cons]
              refine ⟨fun hmem => ?_, hrn⟩
              obtain ⟨y, hy, hyb⟩ := List.mem_map.mp hmem
              exact hrh y hy (by rw [hyb]; exact List.mem_cons_self _ _)
            · intro x hx
              rcases List.mem_cons.mp hx with h | h
              · rw [h]
                exact hbin
              · exact fun hc => hrh x h (List.mem_cons_of_mem _ hc)
      · rw [hb] at hstd
        cases hstd

/-- C14: after `InitializeBoomerang`, along every finite sequence of tick, hit
and overlap events, the effect applications of the projectile are first the
ones made with the corruption class and then the ones made with the damage
class; any given actor receives at most one of the first, at most one of the
second, and so at most two in all. -/
theorem boomerang_hits_once_per_phase (p0 : ANeonProjectile) (InOwner : Option Nat)
    (InMaxDistance : ℚ) (es : List ProjectileEvent) :
    ∃ outs rets : List FEffectApplication,
      (ProjectileEvent.run (p0.InitializeBoomerang InOwner InMaxDistance) es).2 =
        outs ++ rets ∧
      (∀ x ∈ outs, p0.CorruptionEffectClass = some x.EffectClass) ∧
      (∀ x ∈ rets, p0.DamageEffectClass = some x.EffectClass) ∧
      (∀ a : Nat, (outs.filter (fun x => decide (x.TargetActor = a))).length ≤ 1) ∧
      (∀ a : Nat, (rets.filter (fun x => decide (x.TargetActor = a))).length ≤ 1) ∧
      (∀ a : Nat,
        ((ProjectileEvent.run (p0.InitializeBoomerang InOwner InMaxDistance) es).2.filter
          (fun x => decide (x.TargetActor = a))).length ≤ 2) := by
  obtain ⟨outs, rets, hlog, hoc, hrc, hon, hrn, -, -⟩ :=
    ProjectileEvent.run_log_split es (p0.InitializeBoomerang InOwner InMaxDistance) rfl
  have ho := fun a => FEffectApplication.filter_length_le_one a outs hon
  have hr := fun a => FEffectApplication.filter_length_le_one a rets hrn
  refine ⟨outs, rets, hlog, hoc, hrc, ho, hr, fun a => ?_⟩
  rw [hlog, List.filter_append, List.length_append]
  exact Nat.add_le_add (ho a) (hr a)

/-- An event arrives at a destroyed projectile only in a sequence that breaks
the delivery contract: a sequence delivered while live is empty from a
destroyed projectile on. -/
theorem ProjectileEvent.DeliveredWhileLive_destroyed (p : ANeonProjectile)
    (es : List ProjectileEvent) (hdead : p.bActorIsBeingDestroyed = true)
    (h : ProjectileEvent.DeliveredWhileLive p es) : es = [] := by
  cases es with
  | nil => rfl
  | cons e es =>
    have hl : p.bActorIsBeingDestroyed = false := h.1
    rw [hdead] at hl
    cases hl

theorem ProjectileEvent.DeliveredWhileLive_cons (p : ANeonProjectile)
    (r : ANeonProjectile × List FEffectApplication) (e : ProjectileEvent)
    (es : List ProjectileEvent) (hdel : e.deliver p = some r)
    (h : ProjectileEvent.DeliveredWhileLive p (e :: es)) :
    ProjectileEvent.DeliveredWhileLive r.1 es := by
  have h2 := h.2
  rw [hdel] at h2
  exact h2

/-- No event follows the destruction in a sequence delivered while live: when
a prefix of the sequence ends in a destroyed projectile, the rest is empty. -/
theorem ProjectileEvent.DeliveredWhileLive_stops (es1 : List ProjectileEvent) :
    ∀ (p q : ANeonProjectile) (es2 : List ProjectileEvent),
      ProjectileEvent.DeliveredWhileLive p (es1 ++ es2) →
      (ProjectileEvent.run p es1).1 = some q → q.bActorIsBeingDestroyed = true →
      es2 = [] := by
  induction es1 with
  | nil =>
    intro p q es2 h hq hdead
    simp only [ProjectileEvent.run, Option.some.injEq] at hq
    subst hq
    exact ProjectileEvent.DeliveredWhileLive_destroyed p es2 hdead (by simpa using h)
  | cons e es1 ih =>
    intro p q es2 h hq hdead
    cases hdel : e.deliver p with
    | none =>
      rw [ProjectileEvent.run_cons_none p e es1 hdel] at hq
      cases hq
    | some r =>
      rw [ProjectileEvent.run_cons_some p r e es1 hdel] at hq
      exact ih r.1 q es2
        (ProjectileEvent.DeliveredWhileLive_cons p r e (es1 ++ es2) hdel (by simpa using h))
        hq hdead

/-- A standard projectile applies at most one effect along a run whose events
are all delivered while it is live. -/
theorem ProjectileEvent.run_standard_length (es : List ProjectileEvent) :
    ∀ p : ANeonProjectile, p.bIsBoomerang = false →
      ProjectileEvent.DeliveredWhileLive p es →
      (ProjectileEvent.run p es).2.length ≤ 1 := by
  induction es with
  | nil => intro p _ _; simp [ProjectileEvent.run]
  | cons e es ih =>
    intro p hstd hlive
    cases hdel : e.deliver p with
    | none =>
      rw [ProjectileEvent.run_cons_none p e es hdel]
      simp
    | some r =>
      rw [ProjectileEvent.run_cons_some p r e es hdel]
      have hrest := ProjectileEvent.DeliveredWhileLive_cons p r e es hdel hlive
      obtain ⟨⟨-, hfb, -, -⟩, hcases⟩ := ProjectileEvent.deliver_cases p e r hdel
      have hstd1 : r.1.bIsBoomerang = false := by rw [hfb, hstd]
      rcases hcases with ⟨h2, -, -⟩ | ⟨h2, -, -, -⟩ | ⟨H, b, hb, -⟩ | ⟨H, b, -, -, h1, h2⟩
      · simpa [h2] using ih r.1 hstd1 hrest
      · simpa [h2] using ih r.1 hstd1 hrest
      · rw [hstd] at hb
        cases hb
      · have hdead : r.1.bActorIsBeingDestroyed = true := by rw [h1]; rfl
        have hnil := ProjectileEvent.DeliveredWhileLive_destroyed r.1 es hdead hrest
        subst hnil
        rw [h2]
        rcases ANeonProjectile.ApplyGameplayEffectToTarget_cases H b p.DamageEffectClass with
          h | ⟨c, -, h⟩ <;> simp [h, ProjectileEvent.run]

/-- Counterexample to C16 as stated: a standard projectile with a damage
effect configured takes a blocking hit; it is destroyed and the number of
effect applications is zero, not one. -/
theorem standard_blocking_hit_applies_nothing :
    (armedStandard 1).bIsBoomerang = false ∧
    (armedStandard 1).DamageEffectClass = some 70 ∧
    ProjectileEvent.run (armedStandard 1) [ProjectileEvent.Hit (some 9) true] =
      (some (armedStandard 1).Destroy, []) ∧
    (ProjectileEvent.run (armedStandard 1) [ProjectileEvent.Hit (some 9) true]).2.length ≠ 1 := by
  have h : ProjectileEvent.run (armedStandard 1) [ProjectileEvent.Hit (some 9) true] =
      (some (armedStandard 1).Destroy, []) := by
    rw [ProjectileEvent.run_cons_some (armedStandard 1) ((armedStandard 1).Destroy, []) _ []
      (by rfl)]
    rfl
  refine ⟨rfl, rfl, h, ?_⟩
  rw [h]
  decide

/-- C16 (amended): for a Standard-mode projectile with a damage effect
configured, every hit destroys the projectile and applies no effect; every
overlap with a present actor that is not the owner destroys the projectile
and applies the damage effect exactly once when that actor supports effect
application, and not at all otherwise.  Over a sequence of events that the
host delivers only while the projectile is not destroyed, no event follows
the one that destroys it (so there is no second termination) and there is at
most one effect application.  The handlers do not enforce this themselves:
two qualifying overlaps delivered to the same instance apply the damage
effect twice. -/
theorem standard_projectile_lifetime (p : ANeonProjectile) (d : Nat) :
    p.bIsBoomerang = false → p.DamageEffectClass = some d →
    ((∀ (w : Option Nat) (b : Bool),
        (ProjectileEvent.Hit w b).deliver p = some (p.Destroy, [])) ∧
      (∀ (HasASC : Nat → Bool) (a : Nat), p.Owner ≠ some a →
        (ProjectileEvent.Overlap HasASC (some a)).deliver p =
          some (p.Destroy,
            if HasASC a then [{ TargetActor := a, EffectClass := d }] else [])) ∧
      p.Destroy.bActorIsBeingDestroyed = true ∧
      (∀ (es1 es2 : List ProjectileEvent) (q : ANeonProjectile),
        ProjectileEvent.DeliveredWhileLive p (es1 ++ es2) →
        (ProjectileEvent.run p es1).1 = some q → q.bActorIsBeingDestroyed = true →
        es2 = []) ∧
      (∀ es : List ProjectileEvent, ProjectileEvent.DeliveredWhileLive p es →
        (ProjectileEvent.run p es).2.length ≤ 1) ∧
      (∀ (HasASC : Nat → Bool) (a : Nat), p.Owner ≠ some a → HasASC a = true →
        ProjectileEvent.run p
            [ProjectileEvent.Overlap HasASC (some a), ProjectileEvent.Overlap HasASC (some a)] =
          (some p.Destroy,
            [{ TargetActor := a, EffectClass := d }, { TargetActor := a, EffectClass := d }]))) := by
  intro hstd hd
  have hov : ∀ (q : ANeonProjectile) (HasASC : Nat → Bool) (a : Nat),
      q.bIsBoomerang = false → q.DamageEffectClass = some d → q.Owner ≠ some a →
      (ProjectileEvent.Overlap HasASC (some a)).deliver q =
        some (q.Destroy,
          if HasASC a then [{ TargetActor := a, EffectClass := d }] else []) := by
    intro q HasASC a hq hqd ho
    rw [ProjectileEvent.deliver_Overlap HasASC q (some a),
      ANeonProjectile.HandleCollisionLogic_standard HasASC q a ho hq, hqd]
    by_cases hasc : HasASC a = true
    · simp [ANeonProjectile.ApplyGameplayEffectToTarget, hasc]
    · simp [ANeonProjectile.ApplyGameplayEffectToTarget, hasc]
  refine ⟨fun w b => ?_, fun HasASC a ho => hov p HasASC a hstd hd ho, rfl,
    fun es1 es2 q h hq hdead => ProjectileEvent.DeliveredWhileLive_stops es1 p q es2 h hq hdead,
    fun es h => ProjectileEvent.run_standard_length es p hstd h, fun HasASC a ho hasc => ?_⟩
  · simp [ProjectileEvent.deliver, ProjectileEvent.handle, ANeonProjectile.OnProjectileHit,
      hstd]
  · rw [ProjectileEvent.run_cons_some p _ _ _ (hov p HasASC a hstd hd ho),
      ProjectileEvent.run_cons_some p.Destroy _ _ _
        (hov p.Destroy HasASC a hstd hd ho)]
    simp [ProjectileEvent.run, hasc, ANeonProjectile.Destroy]

/-- Witness for C16 (amended): a standard projectile of actor 1 with damage
class 70 is destroyed by a hit on a wall without applying an effect; the
sequence of one overlap with actor 5 is delivered while the projectile is
live, and applies at most one effect. -/
theorem standard_projectile_lifetime_witness :
    (armedStandard 1).bIsBoomerang = false ∧
    (armedStandard 1).DamageEffectClass = some 70 ∧
    (ProjectileEvent.Hit (some 9) true).deliver (armedStandard 1) =
      some ((armedStandard 1).Destroy, []) ∧
    ProjectileEvent.DeliveredWhileLive (armedStandard 1)
      [ProjectileEvent.Overlap (fun _ => true) (some 5)] ∧
    (ProjectileEvent.run (armedStandard 1)
      [ProjectileEvent.Overlap (fun _ => true) (some 5)]).2.length ≤ 1 :=
  have hlive : ProjectileEvent.DeliveredWhileLive (armedStandard 1)
      [ProjectileEvent.Overlap (fun _ => true) (some 5)] := by
    refine ⟨rfl, ?_⟩
    rw [ProjectileEvent.deliver_Overlap]
    exact trivial
  ⟨rfl, rfl,
   (standard_projectile_lifetime (armedStandard 1) 70 rfl rfl).1 (some 9) true,
   hlive,
   (standard_projectile_lifetime (armedStandard 1) 70 rfl rfl).2.2.2.2.1 _ hlive⟩


/-! ## Theorems: initialisation, inert ticks and handler safety -/

/-- C21: from every prior state, `InitializeBoomerang(InOwner, InMaxDistance)`
yields Boomerang mode, phase Outgoing, the owner and the maximum distance of
the arguments, the start location equal to the current location, an empty hit
set, and a movement component with homing off and homing acceleration 0;
this holds also from a returning state with hits recorded and homing on. -/
theorem initBoomerang_postcondition (p : ANeonProjectile) (InOwner : Option Nat)
    (InMaxDistance : ℚ) :
    (p.InitializeBoomerang InOwner InMaxDistance).bIsBoomerang = true ∧
    (p.InitializeBoomerang InOwner InMaxDistance).BoomerangPhase = EProjectilePhase.Outgoing ∧
    (p.InitializeBoomerang InOwner InMaxDistance).BoomerangOwner = InOwner ∧
    (p.InitializeBoomerang InOwner InMaxDistance).MaxTravelDistance = InMaxDistance ∧
    (p.InitializeBoomerang InOwner InMaxDistance).BoomerangStartLocation = p.ActorLocation ∧
    (p.InitializeBoomerang InOwner InMaxDistance).ActorLocation = p.ActorLocation ∧
    (p.InitializeBoomerang InOwner InMaxDistance).HitActorsThisPhase = [] ∧
    (∀ m, p.ProjectileMovement = some m →
      ∃ m1, (p.InitializeBoomerang InOwner InMaxDistance).ProjectileMovement = some m1 ∧
        m1.bIsHomingProjectile = false ∧ m1.HomingAccelerationMagnitude = 0 ∧
        m1.InitialSpeed = 2000 ∧ m1.MaxSpeed = 2000 ∧ m1.ProjectileGravityScale = 0) ∧
    ((((armedBoomerang 1 EProjectilePhase.Outgoing []).OnProjectileHit (some 9) true).map
        (fun q => ((ANeonProjectile.HandleCollisionLogic (fun _ => true) q
          (some 5)).1.InitializeBoomerang (some 2) 300))).map
        (fun q => (q.bIsBoomerang, q.BoomerangPhase, q.BoomerangOwner, q.MaxTravelDistance,
          q.HitActorsThisPhase, q.ProjectileMovement.map
            (fun m => (m.bIsHomingProjectile, m.HomingAccelerationMagnitude)))) =
      some (true, EProjectilePhase.Outgoing, some 2, 300, [], some (false, 0))) := by
  refine ⟨rfl, rfl, rfl, rfl, rfl, rfl, rfl, fun m hm => ?_, ?_⟩
  · refine ⟨{ m with
              bIsHomingProjectile := false
              HomingAccelerationMagnitude := 0
              InitialSpeed := 2000
              MaxSpeed := 2000
              ProjectileGravityScale := 0 }, ?_, rfl, rfl, rfl, rfl, rfl⟩
    simp [ANeonProjectile.InitializeBoomerang, hm]
  · rw [ANeonProjectile.OnProjectileHit_outgoing _ 9 rfl rfl]
    simp only [Option.map_some']
    rw [ANeonProjectile.HandleCollisionLogic_register (fun _ => true) _ 5 rfl (by decide) rfl
      (by decide)]
    rfl

/-- Witness for C21: a standard projectile becomes an outgoing boomerang with
homing off. -/
theorem initBoomerang_postcondition_witness :
    (armedStandard 1).ProjectileMovement.isSome = true ∧
    ((armedStandard 1).InitializeBoomerang (some 1) 1000).ProjectileMovement.map
        (fun m => m.bIsHomingProjectile) = some false := by
  obtain ⟨m1, h1, h2, -⟩ :=
    (initBoomerang_postcondition (armedStandard 1) (some 1) 1000).2.2.2.2.2.2.2.1 _ rfl
  exact ⟨rfl, by rw [h1, Option.map_some', h2]⟩

/-- C22: a tick leaves the whole projectile state unchanged whenever the
projectile is in Standard mode or its owner reference is not valid, for every
location, phase and maximum distance. -/
theorem inert_tick (ActorLocationOf : Nat → FVector) (p : ANeonProjectile) :
    (p.bIsBoomerang = false → ANeonProjectile.Tick ActorLocationOf p = p) ∧
    (p.BoomerangOwner = none → ANeonProjectile.Tick ActorLocationOf p = p) ∧
    ANeonProjectile.Tick ActorLocationOf
        { armedBoomerang 1 EProjectilePhase.Outgoing [5] with
          BoomerangOwner := none
          ActorLocation := { X := 1000, Y := 0, Z := 0 } } =
      { armedBoomerang 1 EProjectilePhase.Outgoing [5] with
        BoomerangOwner := none
        ActorLocation := { X := 1000, Y := 0, Z := 0 } } ∧
    ANeonProjectile.Tick ActorLocationOf
        { armedBoomerang 1 EProjectilePhase.Returning [5] with
          BoomerangOwner := none
          ActorLocation := { X := 50, Y := 0, Z := 0 } } =
      { armedBoomerang 1 EProjectilePhase.Returning [5] with
        BoomerangOwner := none
        ActorLocation := { X := 50, Y := 0, Z := 0 } } := by
  have h2 : ∀ q : ANeonProjectile, q.BoomerangOwner = none →
      ANeonProjectile.Tick ActorLocationOf q = q := by
    intro q ho
    by_cases hb : q.bIsBoomerang = true <;> simp [ANeonProjectile.Tick, hb, ho]
  refine ⟨fun hb => ?_, h2 p, h2 _ rfl, h2 _ rfl⟩
  simp [ANeonProjectile.Tick, hb]

/-- Witness for C22: a standard projectile far from its spawn point is left
unchanged by a tick. -/
theorem inert_tick_witness :
    (armedStandard 1).bIsBoomerang = false ∧
    ANeonProjectile.Tick (fun _ => { X := 0, Y := 0, Z := 0 }) (armedStandard 1) =
      armedStandard 1 :=
  ⟨rfl, (inert_tick (fun _ => { X := 0, Y := 0, Z := 0 }) (armedStandard 1)).1 rfl⟩

/-- C23 (the code at the failing input): for an outgoing boomerang a blocking
hit whose other actor is absent has no result, because the first statement of
that branch dereferences the actor; `HandleCollisionLogic` returns the state
unchanged for an absent actor.  The hit handler has a result in every other
case. -/
theorem hit_handler_absent_actor :
    (armedBoomerang 1 EProjectilePhase.Outgoing [5]).OnProjectileHit none true = none ∧
    ANeonProjectile.HandleCollisionLogic (fun _ => true)
        (armedBoomerang 1 EProjectilePhase.Outgoing [5]) none =
      (armedBoomerang 1 EProjectilePhase.Outgoing [5], []) ∧
    (∀ (p : ANeonProjectile) (OtherActor : Option Nat) (bBlockingHit : Bool),
      p.OnProjectileHit OtherActor bBlockingHit = none ↔
        (p.bIsBoomerang = true ∧ p.BoomerangPhase = EProjectilePhase.Outgoing ∧
          bBlockingHit = true ∧ OtherActor = none)) := by
  refine ⟨rfl, rfl, fun p OtherActor bBlockingHit => ?_⟩
  unfold ANeonProjectile.OnProjectileHit
  by_cases hb : p.bIsBoomerang = true
  · by_cases hp : p.BoomerangPhase = EProjectilePhase.Outgoing
    · cases bBlockingHit <;> cases OtherActor <;> simp [hb, hp]
    · cases bBlockingHit <;> cases OtherActor <;> simp [hb, hp]
  · cases bBlockingHit <;> cases OtherActor <;> simp [hb]

/-- C27: a tick that switches the phase from Outgoing to Returning does not
destroy the projectile in that tick, and a tick that destroys the projectile
does not change the phase; with a maximum distance of 0, a boomerang that has
not moved from its owner's position switches phase on the first tick and is
destroyed only by the second. -/
theorem tick_one_action (ActorLocationOf : Nat → FVector) (p : ANeonProjectile) :
    (p.BoomerangPhase = EProjectilePhase.Outgoing →
      (ANeonProjectile.Tick ActorLocationOf p).BoomerangPhase = EProjectilePhase.Returning →
      (ANeonProjectile.Tick ActorLocationOf p).bActorIsBeingDestroyed =
        p.bActorIsBeingDestroyed) ∧
    ((ANeonProjectile.Tick ActorLocationOf p).bActorIsBeingDestroyed ≠
        p.bActorIsBeingDestroyed →
      (ANeonProjectile.Tick ActorLocationOf p).BoomerangPhase = p.BoomerangPhase) ∧
    ((ANeonProjectile.Tick (fun _ => { X := 0, Y := 0, Z := 0 })
        (boomerangAt { X := 0, Y := 0, Z := 0 } { X := 0, Y := 0, Z := 0 } 1 0
          EProjectilePhase.Outgoing [])).BoomerangPhase = EProjectilePhase.Returning ∧
      (ANeonProjectile.Tick (fun _ => { X := 0, Y := 0, Z := 0 })
        (boomerangAt { X := 0, Y := 0, Z := 0 } { X := 0, Y := 0, Z := 0 } 1 0
          EProjectilePhase.Outgoing [])).bActorIsBeingDestroyed = false ∧
      (ANeonProjectile.Tick (fun _ => { X := 0, Y := 0, Z := 0 })
        (ANeonProjectile.Tick (fun _ => { X := 0, Y := 0, Z := 0 })
          (boomerangAt { X := 0, Y := 0, Z := 0 } { X := 0, Y := 0, Z := 0 } 1 0
            EProjectilePhase.Outgoing []))).bActorIsBeingDestroyed = true) := by
  refine ⟨fun hp hret => ?_, fun hne => ?_, ?_⟩
  · rcases ANeonProjectile.Tick_cases ActorLocationOf p with h | h | ⟨-, pm, h⟩
    · rw [h]
    · rw [h, ANeonProjectile.Destroy, hp] at hret
      cases hret
    · rw [h]
  · rcases ANeonProjectile.Tick_cases ActorLocationOf p with h | h | ⟨-, pm, h⟩
    · rw [h]
    · rw [h]
      rfl
    · rw [h] at hne
      exact absurd rfl hne
  · refine ⟨?_, ?_, ?_⟩ <;>
      norm_num [ANeonProjectile.Tick, boomerangAt, ANeonProjectile.InitializeBoomerang,
        ANeonProjectile.ctor, ANeonProjectile.Destroy, FVector.DistGE, FVector.DistLT,
        FVector.round_Dist_self, UProjectileMovementComponent.EnableHoming]

/-- Witness for C27: the boomerang with maximum distance 0 keeps its liveness
on the tick that switches its phase. -/
theorem tick_one_action_witness :
    (boomerangAt { X := 0, Y := 0, Z := 0 } { X := 0, Y := 0, Z := 0 } 1 0
        EProjectilePhase.Outgoing []).BoomerangPhase = EProjectilePhase.Outgoing ∧
    (ANeonProjectile.Tick (fun _ => { X := 0, Y := 0, Z := 0 })
        (boomerangAt { X := 0, Y := 0, Z := 0 } { X := 0, Y := 0, Z := 0 } 1 0
          EProjectilePhase.Outgoing [])).bActorIsBeingDestroyed =
      (boomerangAt { X := 0, Y := 0, Z := 0 } { X := 0, Y := 0, Z := 0 } 1 0
        EProjectilePhase.Outgoing []).bActorIsBeingDestroyed :=
  ⟨rfl,
   (tick_one_action (fun _ => { X := 0, Y := 0, Z := 0 })
      (boomerangAt { X := 0, Y := 0, Z := 0 } { X := 0, Y := 0, Z := 0 } 1 0
        EProjectilePhase.Outgoing [])).1 rfl
     (by norm_num [ANeonProjectile.Tick, boomerangAt, ANeonProjectile.InitializeBoomerang,
        ANeonProjectile.ctor, FVector.DistGE, FVector.round_Dist_self])⟩


/-! ## Theorems: damage from resolver to attribute store -/

/-- Conversion to `float` keeps the sign. -/
theorem F32.round_float_nonpos (x : ℚ) (h : x ≤ 0) : F32.round x ≤ 0 :=
  IEEE.round_nonpos 24 (-149) x h

/-- Conversion to `float` does not cross a non-negative `float` from below. -/
theorem F32.round_float_le_of_le (f x : ℚ) (hf : F32.IsFloat f) (h0 : 0 ≤ f) (h : x ≤ f) :
    F32.round x ≤ f :=
  IEEE.round_le_of_le 24 (-149) f x hf h0 h

/-- Executing the single Health modifier of a damage `d`: Health becomes the
clamp of the `float` sum of Health and `-d`, and `OnDamageTaken` is broadcast
once when `d > 0`. -/
theorem UNeonAttributeSet.ExecuteMod_damage (s : UNeonAttributeSet) (d : ℚ) (hd : 0 < d) :
    s.ExecuteMod
        { Attribute := FGameplayAttribute.Health
          ModifierOp := EGameplayModOp.Additive
          Magnitude := -d } =
      ({ s with Health := FMath.Clamp (F32.add s.Health (-d)) 0 s.MaxHealth },
        [{ DamageAmount := d, DamagedActor := s.OwningActor }]) := by
  have hneg : -d < 0 := neg_neg_of_pos hd
  have habs : FMath.Abs (-d) = d := by
    rw [FMath.Abs_eq_abs, abs_neg, abs_of_pos hd]
  simp [UNeonAttributeSet.ExecuteMod, FAggregator.StaticExecModOnBaseValue,
    UNeonAttributeSet.GetNumericValue, UNeonAttributeSet.SetNumericValue,
    UNeonAttributeSet.PreAttributeChange, UNeonAttributeSet.PostGameplayEffectExecute,
    UNeonAttributeSet.SetHealth, hd, habs]

/-- The `float` sum `100.0f + (-2 ^ (-20))` is 100: the exact sum lies nearer
to 100 than to the next `float` below, `100 - 2 ^ (-17)`. -/
theorem F32.add_small_to_100 : F32.add 100 (-(1 / 1048576)) = 100 := by
  have h := IEEE.round_eq_of_abs_sub_lt 24 (-149) (100 + -(1 / 1048576)) 6 (-17) 13107200
    (by norm_num [abs_of_pos]) (by norm_num [abs_of_pos]) (by norm_num) (by norm_num [abs_lt])
  unfold F32.add F32.round
  rw [h]
  norm_num

/-- Counterexample to C24 as stated: a fresh attribute set (Health 100 of 100)
takes a final damage of `2 ^ (-20)` (a `float`, about 0.00000095).  The
resolver submits the delta and `OnDamageTaken` is broadcast with that amount,
but the `float` sum `100 + (-2 ^ (-20))` is 100, so Health stays 100 and is not
`max 0 (Health - d)`. -/
theorem small_damage_leaves_health :
    (0 : ℚ) ≤ (UNeonAttributeSet.ctor 0).Health ∧
    (UNeonAttributeSet.ctor 0).Health ≤ (UNeonAttributeSet.ctor 0).MaxHealth ∧
    F32.IsFloat (1 / 1048576) ∧
    UNeonDamageExecCalculation.FinalDamage (resolveParams (some (1 / 1048576)) false false) =
      1 / 1048576 ∧
    ((UNeonAttributeSet.ctor 0).ExecuteOutput
        (UNeonDamageExecCalculation.Execute_Implementation
          (resolveParams (some (1 / 1048576)) false false) [])).1.Health = 100 ∧
    ((UNeonAttributeSet.ctor 0).ExecuteOutput
        (UNeonDamageExecCalculation.Execute_Implementation
          (resolveParams (some (1 / 1048576)) false false) [])).1.Health ≠
      max 0 ((UNeonAttributeSet.ctor 0).Health -
        UNeonDamageExecCalculation.FinalDamage
          (resolveParams (some (1 / 1048576)) false false)) ∧
    ((UNeonAttributeSet.ctor 0).ExecuteOutput
        (UNeonDamageExecCalculation.Execute_Implementation
          (resolveParams (some (1 / 1048576)) false false) [])).2 =
      [{ DamageAmount := 1 / 1048576, DamagedActor := 0 }] := by
  have hfd : UNeonDamageExecCalculation.FinalDamage
      (resolveParams (some (1 / 1048576)) false false) = 1 / 1048576 := by
    norm_num [UNeonDamageExecCalculation.FinalDamage, UNeonDamageExecCalculation.BaseDamage,
      UNeonDamageExecCalculation.bIsTargetCorrupted, UNeonDamageExecCalculation.bIsNeonDamage,
      FGameplayEffectSpec.GetSetByCallerMagnitude, resolveParams]
  have hout : UNeonDamageExecCalculation.Execute_Implementation
      (resolveParams (some (1 / 1048576)) false false) [] =
      [{ Attribute := FGameplayAttribute.Health
         ModifierOp := EGameplayModOp.Additive
         Magnitude := -(1 / 1048576) }] := by
    simp only [UNeonDamageExecCalculation.Execute_Implementation, hfd]
    norm_num
  have hexec := UNeonAttributeSet.ExecuteMod_damage (UNeonAttributeSet.ctor 0) (1 / 1048576)
    (by norm_num)
  have hH : (UNeonAttributeSet.ctor 0).Health = 100 := rfl
  have hM : (UNeonAttributeSet.ctor 0).MaxHealth = 100 := rfl
  rw [hH, hM, F32.add_small_to_100] at hexec
  have hclamp : FMath.Clamp 100 0 100 = 100 := by
    norm_num [FMath.Clamp, FMath.Max, FMath.Min]
  rw [hclamp] at hexec
  refine ⟨by rw [hH]; norm_num, by rw [hH, hM], ⟨1, -20, by norm_num, by norm_num, by norm_num⟩,
    hfd, ?_, ?_, ?_⟩
  · rw [hout]
    simp only [UNeonAttributeSet.ExecuteOutput, hexec]
  · rw [hout, hfd, hH]
    simp only [UNeonAttributeSet.ExecuteOutput, hexec]
    norm_num
  · rw [hout]
    simp only [UNeonAttributeSet.ExecuteOutput, hexec, List.append_nil]
    rfl

/-- C24 (amended): for every attribute state with `0 ≤ Health ≤ MaxHealth`
whose Health is a `float`, and every resolver input with final damage `d > 0`
(within the finite range of `float`), executing the resolver's output yields
`Health = max 0 r` where `r` is `Health - d` rounded to the nearest `float`
(so Health is `max 0 (Health - d)` whenever `Health - d` is a `float`, and
differs from it by at most one part in `2 ^ 24` of `Health - d` and
`2 ^ (-150)` otherwise), leaves MaxHealth (and every other field) unchanged and broadcasts `OnDamageTaken`
exactly once with amount `d`; Health does not increase.  For every state and
input, the resolver's output leads to as many broadcasts as it holds
modifiers. -/
theorem end_to_end_damage (ExecutionParams : FGameplayEffectCustomExecutionParameters)
    (s : UNeonAttributeSet) :
    (0 ≤ s.Health → s.Health ≤ s.MaxHealth → F32.IsFloat s.Health →
      0 < UNeonDamageExecCalculation.FinalDamage ExecutionParams →
      UNeonDamageExecCalculation.FinalDamage ExecutionParams ≤ F32.MAX →
      (s.ExecuteOutput
          (UNeonDamageExecCalculation.Execute_Implementation ExecutionParams [])).1 =
        { s with
          Health := max 0
            (F32.round (s.Health - UNeonDamageExecCalculation.FinalDamage ExecutionParams)) } ∧
      (F32.IsFloat (s.Health - UNeonDamageExecCalculation.FinalDamage ExecutionParams) →
        (s.ExecuteOutput
            (UNeonDamageExecCalculation.Execute_Implementation ExecutionParams [])).1 =
          { s with
            Health :=
              max 0 (s.Health - UNeonDamageExecCalculation.FinalDamage ExecutionParams) }) ∧
      |(s.ExecuteOutput
            (UNeonDamageExecCalculation.Execute_Implementation ExecutionParams [])).1.Health -
          max 0 (s.Health - UNeonDamageExecCalculation.FinalDamage ExecutionParams)| ≤
        |s.Health - UNeonDamageExecCalculation.FinalDamage ExecutionParams| * (1 / 16777216) +
          (2 : ℚ) ^ (-150 : ℤ) ∧
      (s.ExecuteOutput
          (UNeonDamageExecCalculation.Execute_Implementation ExecutionParams [])).1.MaxHealth =
        s.MaxHealth ∧
      (s.ExecuteOutput
          (UNeonDamageExecCalculation.Execute_Implementation ExecutionParams [])).2 =
        [{ DamageAmount := UNeonDamageExecCalculation.FinalDamage ExecutionParams
           DamagedActor := s.OwningActor }] ∧
      (s.ExecuteOutput
          (UNeonDamageExecCalculation.Execute_Implementation ExecutionParams [])).1.Health ≤
        s.Health) ∧
    ((s.ExecuteOutput
        (UNeonDamageExecCalculation.Execute_Implementation ExecutionParams [])).2.length =
      (UNeonDamageExecCalculation.Execute_Implementation ExecutionParams []).length) := by
  by_cases hd : 0 < UNeonDamageExecCalculation.FinalDamage ExecutionParams
  · have hout : UNeonDamageExecCalculation.Execute_Implementation ExecutionParams [] =
        [{ Attribute := FGameplayAttribute.Health
           ModifierOp := EGameplayModOp.Additive
           Magnitude := -UNeonDamageExecCalculation.FinalDamage ExecutionParams }] := by
      simp [UNeonDamageExecCalculation.Execute_Implementation, hd]
    have hexec := UNeonAttributeSet.ExecuteMod_damage s _ hd
    refine ⟨fun h0 h1 hrep _ _ => ?_, ?_⟩
    · have hle : F32.round (s.Health - UNeonDamageExecCalculation.FinalDamage ExecutionParams) ≤
          s.Health := F32.round_float_le_of_le _ _ hrep h0 (by linarith)
      have hclamp : FMath.Clamp
          (F32.add s.Health (-UNeonDamageExecCalculation.FinalDamage ExecutionParams)) 0
            s.MaxHealth =
          max 0 (F32.round
            (s.Health - UNeonDamageExecCalculation.FinalDamage ExecutionParams)) := by
        unfold FMath.Clamp F32.add
        rw [FMath.Max_eq_max, FMath.Min_eq_min, ← sub_eq_add_neg,
          min_eq_left (le_trans hle h1), max_comm]
      have hstate : (s.ExecuteOutput
          (UNeonDamageExecCalculation.Execute_Implementation ExecutionParams [])).1 =
          { s with
            Health := max 0 (F32.round
              (s.Health - UNeonDamageExecCalculation.FinalDamage ExecutionParams)) } := by
        rw [hout]
        simp only [UNeonAttributeSet.ExecuteOutput, hexec, hclamp]
      refine ⟨hstate, fun hexact => ?_, ?_, ?_, ?_, ?_⟩
      · rw [hstate, F32.round_of_isFloat _ hexact]
      · rw [hstate]
        show |max 0 (F32.round
            (s.Health - UNeonDamageExecCalculation.FinalDamage ExecutionParams)) -
          max 0 (s.Health - UNeonDamageExecCalculation.FinalDamage ExecutionParams)| ≤ _
        rw [max_comm 0, max_comm 0]
        exact le_trans (abs_max_sub_max_le_abs _ _ _) (F32.abs_round_float_sub_le _)
      · rw [hstate]
      · rw [hout]
        simp only [UNeonAttributeSet.ExecuteOutput, hexec, List.append_nil]
      · rw [hstate]
        exact max_le h0 hle
    · rw [hout]
      simp only [UNeonAttributeSet.ExecuteOutput, hexec, List.append_nil, List.length_singleton]
  · have hout : UNeonDamageExecCalculation.Execute_Implementation ExecutionParams [] = [] := by
      simp [UNeonDamageExecCalculation.Execute_Implementation, hd]
    refine ⟨fun _ _ _ h => absurd h hd, ?_⟩
    rw [hout]
    rfl

/-- Witness for C24 (amended): a base damage of 10 without the combo against a
fresh attribute set (Health 100 of 100, a `float`). -/
theorem end_to_end_damage_witness :
    (0 : ℚ) ≤ (UNeonAttributeSet.ctor 0).Health ∧
    (UNeonAttributeSet.ctor 0).Health ≤ (UNeonAttributeSet.ctor 0).MaxHealth ∧
    F32.IsFloat (UNeonAttributeSet.ctor 0).Health ∧
    0 < UNeonDamageExecCalculation.FinalDamage (resolveParams (some 10) false false) ∧
    UNeonDamageExecCalculation.FinalDamage (resolveParams (some 10) false false) ≤ F32.MAX ∧
    ((UNeonAttributeSet.ctor 0).ExecuteOutput
        (UNeonDamageExecCalculation.Execute_Implementation
          (resolveParams (some 10) false false) [])).2 =
      [{ DamageAmount :=
           UNeonDamageExecCalculation.FinalDamage (resolveParams (some 10) false false)
         DamagedActor := (UNeonAttributeSet.ctor 0).OwningActor }] :=
  have h0 : (0 : ℚ) ≤ (UNeonAttributeSet.ctor 0).Health := by
    norm_num [UNeonAttributeSet.ctor]
  have h1 : (UNeonAttributeSet.ctor 0).Health ≤ (UNeonAttributeSet.ctor 0).MaxHealth := by
    norm_num [UNeonAttributeSet.ctor]
  have h2 : F32.IsFloat (UNeonAttributeSet.ctor 0).Health :=
    ⟨100, 0, by norm_num, by norm_num, by norm_num [UNeonAttributeSet.ctor]⟩
  have hfd : UNeonDamageExecCalculation.FinalDamage (resolveParams (some 10) false false) =
      10 := by
    norm_num [UNeonDamageExecCalculation.FinalDamage,
      UNeonDamageExecCalculation.BaseDamage, UNeonDamageExecCalculation.bIsTargetCorrupted,
      UNeonDamageExecCalculation.bIsNeonDamage, FGameplayEffectSpec.GetSetByCallerMagnitude,
      resolveParams]
  have h3 : 0 < UNeonDamageExecCalculation.FinalDamage (resolveParams (some 10) false false) := by
    rw [hfd]
    norm_num
  have h4 : UNeonDamageExecCalculation.FinalDamage (resolveParams (some 10) false false) ≤
      F32.MAX := by
    rw [hfd]
    norm_num [F32.MAX]
  ⟨h0, h1, h2, h3, h4,
   ((end_to_end_damage (resolveParams (some 10) false false) (UNeonAttributeSet.ctor 0)).1
      h0 h1 h2 h3 h4).2.2.2.2.1⟩

/-- C25: a base damage supplied as exactly -1 gives the same output as an
absent one: the base becomes 10 and the submitted Health delta is -10 without
the combo, -25 with it; every other supplied base damage `b ≤ 0` results in
no submission. -/
theorem sentinel_collision (ExecutionParams : FGameplayEffectCustomExecutionParameters)
    (OutExecutionOutput : List FGameplayModifierEvaluatedData) :
    (ExecutionParams.OwningSpec.SetByCallerTagMagnitudes DataDamage = some (-1) →
      UNeonDamageExecCalculation.BaseDamage ExecutionParams = 10 ∧
      ((UNeonDamageExecCalculation.bIsTargetCorrupted ExecutionParams
          && UNeonDamageExecCalculation.bIsNeonDamage ExecutionParams) = false →
        UNeonDamageExecCalculation.Execute_Implementation ExecutionParams OutExecutionOutput =
          OutExecutionOutput ++
            [{ Attribute := FGameplayAttribute.Health
               ModifierOp := EGameplayModOp.Additive
               Magnitude := -10 }]) ∧
      ((UNeonDamageExecCalculation.bIsTargetCorrupted ExecutionParams
          && UNeonDamageExecCalculation.bIsNeonDamage ExecutionParams) = true →
        UNeonDamageExecCalculation.Execute_Implementation ExecutionParams OutExecutionOutput =
          OutExecutionOutput ++
            [{ Attribute := FGameplayAttribute.Health
               ModifierOp := EGameplayModOp.Additive
               Magnitude := -25 }]) ∧
      (∀ Absent : FGameplayEffectCustomExecutionParameters,
        Absent.OwningSpec.SetByCallerTagMagnitudes DataDamage = none →
        UNeonDamageExecCalculation.bIsTargetCorrupted Absent =
          UNeonDamageExecCalculation.bIsTargetCorrupted ExecutionParams →
        UNeonDamageExecCalculation.bIsNeonDamage Absent =
          UNeonDamageExecCalculation.bIsNeonDamage ExecutionParams →
        UNeonDamageExecCalculation.Execute_Implementation Absent OutExecutionOutput =
          UNeonDamageExecCalculation.Execute_Implementation ExecutionParams
            OutExecutionOutput)) ∧
    (∀ b : ℚ, ExecutionParams.OwningSpec.SetByCallerTagMagnitudes DataDamage = some b →
      b ≤ 0 → b ≠ -1 →
      UNeonDamageExecCalculation.Execute_Implementation ExecutionParams OutExecutionOutput =
        OutExecutionOutput) := by
  refine ⟨fun hs => ?_, fun b hb hle hne => ?_⟩
  · have hbase : UNeonDamageExecCalculation.BaseDamage ExecutionParams = 10 := by
      simp [UNeonDamageExecCalculation.BaseDamage, FGameplayEffectSpec.GetSetByCallerMagnitude,
        hs]
    refine ⟨hbase, fun hc => ?_, fun hc => ?_, fun Absent hnone hcor hneon => ?_⟩
    · simp [UNeonDamageExecCalculation.Execute_Implementation,
        UNeonDamageExecCalculation.FinalDamage, hbase, hc]
    · have hfd : UNeonDamageExecCalculation.FinalDamage ExecutionParams = 25 := by
        rw [UNeonDamageExecCalculation.FinalDamage]
        simp only [hc, hbase]
        norm_num [F32.mul_ten_combo]
      simp [UNeonDamageExecCalculation.Execute_Implementation, hfd]
    · have hbase' : UNeonDamageExecCalculation.BaseDamage Absent = 10 := by
        simp [UNeonDamageExecCalculation.BaseDamage,
          FGameplayEffectSpec.GetSetByCallerMagnitude, hnone]
      simp only [UNeonDamageExecCalculation.Execute_Implementation,
        UNeonDamageExecCalculation.FinalDamage, hbase, hbase', hcor, hneon]
  · have hbase : UNeonDamageExecCalculation.BaseDamage ExecutionParams = b := by
      simp [UNeonDamageExecCalculation.BaseDamage, FGameplayEffectSpec.GetSetByCallerMagnitude,
        hb, hne]
    have hfd : UNeonDamageExecCalculation.FinalDamage ExecutionParams ≤ 0 := by
      rw [UNeonDamageExecCalculation.FinalDamage]
      simp only [hbase]
      split_ifs
      · exact F32.round_float_nonpos _ (by linarith)
      · exact hle
    simp [UNeonDamageExecCalculation.Execute_Implementation, not_lt.mpr hfd]

/-- Witness for C25: a base damage supplied as -1, no combo, submits a Health
delta of -10. -/
theorem sentinel_collision_witness :
    (resolveParams (some (-1)) false false).OwningSpec.SetByCallerTagMagnitudes DataDamage =
      some (-1) ∧
    UNeonDamageExecCalculation.Execute_Implementation (resolveParams (some (-1)) false false)
        [] =
      [] ++
        [{ Attribute := FGameplayAttribute.Health
           ModifierOp := EGameplayModOp.Additive
           Magnitude := -10 }] :=
  have hs : (resolveParams (some (-1)) false false).OwningSpec.SetByCallerTagMagnitudes
      DataDamage = some (-1) := by
    simp [resolveParams]
  ⟨hs,
   ((sentinel_collision (resolveParams (some (-1)) false false) []).1 hs).2.1
     (by simp [UNeonDamageExecCalculation.bIsTargetCorrupted,
        UNeonDamageExecCalculation.bIsNeonDamage, resolveParams])⟩


/-! ## Theorems: frame of the post-change hook -/

theorem FMath.Clamp_idem (X MaxValue : ℚ) :
    FMath.Clamp (FMath.Clamp X 0 MaxValue) 0 MaxValue = FMath.Clamp X 0 MaxValue := by
  unfold FMath.Clamp FMath.Max FMath.Min
  split_ifs <;> rfl

/-- The attribute set `PostGameplayEffectExecute` leaves: the modified current
value is clamped, everything else is as before. -/
theorem UNeonAttributeSet.PostGameplayEffectExecute_fst (Data : FGameplayEffectModCallbackData)
    (s : UNeonAttributeSet) :
    (UNeonAttributeSet.PostGameplayEffectExecute Data s).1 =
      match Data.EvaluatedData.Attribute with
      | FGameplayAttribute.Health => { s with Health := FMath.Clamp s.Health 0 s.MaxHealth }
      | FGameplayAttribute.Neon => { s with Neon := FMath.Clamp s.Neon 0 s.MaxNeon }
      | FGameplayAttribute.Stamina =>
        { s with Stamina := FMath.Clamp s.Stamina 0 s.MaxStamina }
      | FGameplayAttribute.UltimateCharge =>
        { s with UltimateCharge := FMath.Clamp s.UltimateCharge 0 s.MaxUltimateCharge }
      | _ => s := by
  obtain ⟨⟨a, op, m⟩⟩ := Data
  cases a <;> by_cases hm : m < 0 <;>
    simp [UNeonAttributeSet.PostGameplayEffectExecute, UNeonAttributeSet.SetHealth,
      UNeonAttributeSet.SetNeon, UNeonAttributeSet.SetStamina,
      UNeonAttributeSet.SetUltimateCharge, hm]

/-- C28: `PostGameplayEffectExecute` for attribute X changes at most the
current value of X: every maximum, the current values of the other stats and
the owning actor are unchanged.  When X already lies between 0 and its
maximum the whole state is unchanged, and running the hook a second time
changes nothing more. -/
theorem postChange_frame_identity (Data : FGameplayEffectModCallbackData)
    (s : UNeonAttributeSet) :
    (∀ a : FGameplayAttribute, a ≠ Data.EvaluatedData.Attribute →
      (UNeonAttributeSet.PostGameplayEffectExecute Data s).1.GetNumericValue a =
        s.GetNumericValue a) ∧
    (∀ a : FGameplayAttribute, a.IsMax = true →
      (UNeonAttributeSet.PostGameplayEffectExecute Data s).1.GetNumericValue a =
        s.GetNumericValue a) ∧
    (UNeonAttributeSet.PostGameplayEffectExecute Data s).1.OwningActor = s.OwningActor ∧
    (Data.EvaluatedData.Attribute = FGameplayAttribute.Health → 0 ≤ s.Health →
      s.Health ≤ s.MaxHealth → (UNeonAttributeSet.PostGameplayEffectExecute Data s).1 = s) ∧
    (Data.EvaluatedData.Attribute = FGameplayAttribute.Neon → 0 ≤ s.Neon →
      s.Neon ≤ s.MaxNeon → (UNeonAttributeSet.PostGameplayEffectExecute Data s).1 = s) ∧
    (Data.EvaluatedData.Attribute = FGameplayAttribute.Stamina → 0 ≤ s.Stamina →
      s.Stamina ≤ s.MaxStamina → (UNeonAttributeSet.PostGameplayEffectExecute Data s).1 = s) ∧
    (Data.EvaluatedData.Attribute = FGameplayAttribute.UltimateCharge →
      0 ≤ s.UltimateCharge → s.UltimateCharge ≤ s.MaxUltimateCharge →
      (UNeonAttributeSet.PostGameplayEffectExecute Data s).1 = s) ∧
    (Data.EvaluatedData.Attribute.IsMax = true →
      (UNeonAttributeSet.PostGameplayEffectExecute Data s).1 = s) ∧
    ((UNeonAttributeSet.PostGameplayEffectExecute Data
        (UNeonAttributeSet.PostGameplayEffectExecute Data s).1).1 =
      (UNeonAttributeSet.PostGameplayEffectExecute Data s).1) := by
  rw [UNeonAttributeSet.PostGameplayEffectExecute_fst,
    UNeonAttributeSet.PostGameplayEffectExecute_fst]
  refine ⟨fun a ha => ?_, fun a ha => ?_, ?_, fun hX h0 h1 => ?_, fun hX h0 h1 => ?_,
    fun hX h0 h1 => ?_, fun hX h0 h1 => ?_, fun hX => ?_, ?_⟩
  · cases hX : Data.EvaluatedData.Attribute <;> cases a <;>
      first
        | rfl
        | exact absurd hX.symm ha
  · cases hX : Data.EvaluatedData.Attribute <;> cases a <;>
      first
        | rfl
        | simp [FGameplayAttribute.IsMax] at ha
  · cases Data.EvaluatedData.Attribute <;> rfl
  · simp only [hX, FMath.Clamp_of_mem _ _ h0 h1]
  · simp only [hX, FMath.Clamp_of_mem _ _ h0 h1]
  · simp only [hX, FMath.Clamp_of_mem _ _ h0 h1]
  · simp only [hX, FMath.Clamp_of_mem _ _ h0 h1]
  · cases hA : Data.EvaluatedData.Attribute <;>
      first
        | rfl
        | (rw [hA] at hX; simp [FGameplayAttribute.IsMax] at hX)
  · cases Data.EvaluatedData.Attribute <;> simp only [FMath.Clamp_idem]

/-- Witness for C28: a Health of 40 with maximum 100 is left as it is. -/
theorem postChange_frame_identity_witness :
    (modData FGameplayAttribute.Health (-10)).EvaluatedData.Attribute =
      FGameplayAttribute.Health ∧
    (UNeonAttributeSet.PostGameplayEffectExecute (modData FGameplayAttribute.Health (-10))
        { UNeonAttributeSet.ctor 0 with Health := 40 }).1 =
      { UNeonAttributeSet.ctor 0 with Health := 40 } :=
  ⟨rfl,
   (postChange_frame_identity (modData FGameplayAttribute.Health (-10))
      { UNeonAttributeSet.ctor 0 with Health := 40 }).2.2.2.1 rfl
      (by norm_num [UNeonAttributeSet.ctor]) (by norm_num [UNeonAttributeSet.ctor])⟩

/-! ## Theorems: monotone phase -/

/-- No handler takes a projectile in phase Returning back to Outgoing. -/
theorem ProjectileEvent.handle_phase_returning (p : ANeonProjectile) (e : ProjectileEvent)
    (r : ANeonProjectile × List FEffectApplication)
    (hp : p.BoomerangPhase = EProjectilePhase.Returning) (h : e.handle p = some r) :
    r.1.BoomerangPhase = EProjectilePhase.Returning := by
  cases e with
  | Tick Location ActorLocationOf =>
    simp only [ProjectileEvent.handle, Option.some.injEq] at h
    subst h
    rcases ANeonProjectile.Tick_cases ActorLocationOf
        { p with ActorLocation := Location } with ht | ht | ⟨hq, -, -⟩
    · rw [ht]
      exact hp
    · rw [ht]
      exact hp
    · rw [hp] at hq
      cases hq
  | Hit w b =>
    simp only [ProjectileEvent.handle] at h
    rcases ANeonProjectile.OnProjectileHit_cases p w b with hh | hh | hh | ⟨hq, -, -⟩
    · rw [hh] at h
      exact absurd h (by simp)
    · rw [hh] at h
      simp only [Option.some.injEq] at h
      subst h
      exact hp
    · rw [hh] at h
      simp only [Option.some.injEq] at h
      subst h
      exact hp
    · rw [hp] at hq
      cases hq
  | Overlap HasASC o =>
    simp only [ProjectileEvent.handle, ANeonProjectile.OnProjectileOverlap,
      Option.some.injEq] at h
    subst h
    cases o with
    | none => exact hp
    | some b =>
      by_cases ho : p.Owner = some b
      · rw [ANeonProjectile.HandleCollisionLogic_owner HasASC p b ho]
        exact hp
      · by_cases hb : p.bIsBoomerang = true
        · rcases ANeonProjectile.HandleCollisionLogic_boomerang_cases HasASC p b hb with
            hc | ⟨-, -, -, hc⟩
          · rw [hc]
            exact hp
          · rw [hc]
            exact hp
        · rw [ANeonProjectile.HandleCollisionLogic_standard HasASC p b ho
            (by simpa using hb)]
          exact hp

theorem ProjectileEvent.deliver_phase_returning (p : ANeonProjectile) (e : ProjectileEvent)
    (r : ANeonProjectile × List FEffectApplication)
    (hp : p.BoomerangPhase = EProjectilePhase.Returning) (h : e.deliver p = some r) :
    r.1.BoomerangPhase = EProjectilePhase.Returning := by
  unfold ProjectileEvent.deliver at h
  exact ProjectileEvent.handle_phase_returning p e r hp h

/-- A run that starts in phase Returning ends in phase Returning. -/
theorem ProjectileEvent.run_phase_returning (es : List ProjectileEvent) :
    ∀ p q : ANeonProjectile, p.BoomerangPhase = EProjectilePhase.Returning →
      (ProjectileEvent.run p es).1 = some q →
      q.BoomerangPhase = EProjectilePhase.Returning := by
  induction es with
  | nil =>
    intro p q hp hq
    simp only [ProjectileEvent.run, Option.some.injEq] at hq
    rw [← hq]
    exact hp
  | cons e es ih =>
    intro p q hp hq
    cases hdel : e.deliver p with
    | none =>
      rw [ProjectileEvent.run_cons_none p e es hdel] at hq
      exact absurd hq (by simp)
    | some r =>
      rw [ProjectileEvent.run_cons_some p r e es hdel] at hq
      exact ih r.1 q (ProjectileEvent.deliver_phase_returning p e r hp hdel) hq

/-- The phases along a run are some Outgoing followed by some Returning, and
only Returning when the run starts in phase Returning. -/
theorem ProjectileEvent.phases_shape (es : List ProjectileEvent) :
    ∀ p : ANeonProjectile, ∃ k m : Nat,
      ProjectileEvent.phases p es =
        List.replicate k EProjectilePhase.Outgoing ++
          List.replicate m EProjectilePhase.Returning ∧
      (p.BoomerangPhase = EProjectilePhase.Returning → k = 0) := by
  induction es with
  | nil => intro p; exact ⟨0, 0, rfl, fun _ => rfl⟩
  | cons e es ih =>
    intro p
    cases hdel : e.deliver p with
    | none =>
      refine ⟨0, 0, ?_, fun _ => rfl⟩
      simp [ProjectileEvent.phases, hdel]
    | some r =>
      obtain ⟨k, m, hshape, hk⟩ := ih r.1
      have hcons : ProjectileEvent.phases p (e :: es) =
          r.1.BoomerangPhase :: ProjectileEvent.phases r.1 es := by
        simp [ProjectileEvent.phases, hdel]
      cases hr : r.1.BoomerangPhase with
      | Outgoing =>
        refine ⟨k + 1, m, ?_, fun hp => ?_⟩
        · rw [hcons, hr, hshape, List.replicate_succ, List.cons_append]
        · have := ProjectileEvent.deliver_phase_returning p e r hp hdel
          rw [hr] at this
          cases this
      | Returning =>
        have hk0 : k = 0 := hk hr
        subst hk0
        refine ⟨0, m + 1, ?_, fun _ => rfl⟩
        rw [hcons, hr, hshape]
        simp [List.replicate_succ]

/-- C26: once the phase is Returning, no tick, hit or overlap handler sets it
back to Outgoing, and neither does any sequence of events; only
`InitializeBoomerang` does.  Along any event sequence after one
`InitializeBoomerang` the phases are a run of Outgoing followed by a run of
Returning, so there is at most one phase transition, and the effect
applications are those made with the corruption class followed by those made
with the damage class. -/
theorem phase_monotone (p0 : ANeonProjectile) (InOwner : Option Nat) (InMaxDistance : ℚ)
    (es : List ProjectileEvent) :
    (∀ (p : ANeonProjectile) (e : ProjectileEvent)
        (r : ANeonProjectile × List FEffectApplication),
      p.BoomerangPhase = EProjectilePhase.Returning → e.handle p = some r →
      r.1.BoomerangPhase = EProjectilePhase.Returning) ∧
    (∀ (p q : ANeonProjectile) (es1 : List ProjectileEvent),
      p.BoomerangPhase = EProjectilePhase.Returning →
      (ProjectileEvent.run p es1).1 = some q →
      q.BoomerangPhase = EProjectilePhase.Returning) ∧
    (∀ (p : ANeonProjectile) (o : Option Nat) (d : ℚ),
      (p.InitializeBoomerang o d).BoomerangPhase = EProjectilePhase.Outgoing) ∧
    (∃ k m : Nat,
      (p0.InitializeBoomerang InOwner InMaxDistance).BoomerangPhase ::
          ProjectileEvent.phases (p0.InitializeBoomerang InOwner InMaxDistance) es =
        List.replicate k EProjectilePhase.Outgoing ++
          List.replicate m EProjectilePhase.Returning) ∧
    (∃ outs rets : List FEffectApplication,
      (ProjectileEvent.run (p0.InitializeBoomerang InOwner InMaxDistance) es).2 =
        outs ++ rets ∧
      (∀ x ∈ outs, p0.CorruptionEffectClass = some x.EffectClass) ∧
      (∀ x ∈ rets, p0.DamageEffectClass = some x.EffectClass)) := by
  refine ⟨fun p e r hp h => ProjectileEvent.handle_phase_returning p e r hp h,
    fun p q es1 hp hq => ProjectileEvent.run_phase_returning es1 p q hp hq,
    fun p o d => rfl, ?_, ?_⟩
  · obtain ⟨k, m, hshape, -⟩ :=
      ProjectileEvent.phases_shape es (p0.InitializeBoomerang InOwner InMaxDistance)
    refine ⟨k + 1, m, ?_⟩
    rw [hshape, List.replicate_succ, List.cons_append]
    rfl
  · obtain ⟨outs, rets, hlog, hoc, hrc, -⟩ :=
      ProjectileEvent.run_log_split es (p0.InitializeBoomerang InOwner InMaxDistance) rfl
    exact ⟨outs, rets, hlog, hoc, hrc⟩

/-- Witness for C26: a returning boomerang stays Returning under a blocking
hit. -/
theorem phase_monotone_witness :
    (armedBoomerang 1 EProjectilePhase.Returning [5]).BoomerangPhase =
      EProjectilePhase.Returning ∧
    (ProjectileEvent.Hit (some 9) true).handle
        (armedBoomerang 1 EProjectilePhase.Returning [5]) =
      some (armedBoomerang 1 EProjectilePhase.Returning [5], []) ∧
    (armedBoomerang 1 EProjectilePhase.Returning [5],
        ([] : List FEffectApplication)).1.BoomerangPhase =
      EProjectilePhase.Returning :=
  ⟨rfl, rfl,
   (phase_monotone (armedStandard 1) (some 1) 1000 []).1
     (armedBoomerang 1 EProjectilePhase.Returning [5]) (ProjectileEvent.Hit (some 9) true)
     (armedBoomerang 1 EProjectilePhase.Returning [5], []) rfl rfl⟩

end ProjectSunset
